import Mathlib

/-! Epinio: deploy reconciler and staging coordinator

A shallow embedding of `internal/api/v1/deploy.go` (the `Deploy` handler and the
three resource builders) and of `internal/cli/clients/push.go` (the staging
wait loop), with theorems about their control flow.

Conventions of the embedding:

* Go `error` values are the inductive `GoError`; a nil error is `none`.
* `int32` values are `Int`; no arithmetic is performed on them by the code.
* Go maps with string keys are association lists.
* Calls to the cluster are fields of a record `ClusterAPI σ` of state-passing
  functions over an arbitrary cluster state `σ`, so that every theorem about
  `Deploy` holds for every behaviour of the cluster.
-/

namespace Epinio

/-! ## Errors -/

/-- The reason carried by a Kubernetes API status error (`metav1.StatusReason`). -/
inductive StatusReason where
  | notFound
  | alreadyExists
  | conflict
  | invalid
  | unknown
  deriving DecidableEq, Repr

/-- A Go `error` value: built by `errors.New`, an API status error, or an error
wrapped with a message by `errors.Wrap`. -/
inductive GoError where
  | new (msg : String)
  | status (reason : StatusReason) (msg : String)
  | wrap (cause : GoError) (msg : String)
  deriving DecidableEq, Repr

namespace GoError

/-- The text of the error, `err.Error()`; a wrapped error renders as
`msg: cause`. -/
def Error : GoError → String
  | new msg => msg
  | status _ msg => msg
  | wrap cause msg => msg ++ ": " ++ Error cause

/-- The innermost error, `errors.Cause(err)`. -/
def Cause : GoError → GoError
  | wrap cause _ => Cause cause
  | e => e

end GoError

/-- The reason of the error, `apierrors.ReasonForError`: the reason of the API
status error the library finds with `errors.As`, which goes through the errors
wrapped by `errors.Wrap`, and `StatusReasonUnknown` when there is none. -/
def ReasonForError : GoError → StatusReason
  | .new _ => .unknown
  | .status reason _ => reason
  | .wrap cause _ => ReasonForError cause

/-- The predicate `apierrors.IsNotFound`: the reason of the error is
`StatusReasonNotFound`. -/
def IsNotFound (err : GoError) : Bool :=
  ReasonForError err == .notFound

/-- The predicate `apierrors.IsAlreadyExists`: the reason of the error is
`StatusReasonAlreadyExists`. -/
def IsAlreadyExists (err : GoError) : Bool :=
  ReasonForError err == .alreadyExists

/-! ## Staging coordinator (`internal/cli/clients/push.go`) -/

/-- One condition of a pipeline run status (`apis.Condition`): a status string
and a message. -/
structure Condition where
  status : String
  message : String
  deriving DecidableEq, Repr

/-- The method `Condition.IsFalse` reports whether the status is `"False"`. -/
def Condition.IsFalse (c : Condition) : Bool :=
  c.status == "False"

/-- The part of a Tekton `PipelineRun` the wait loop reads: the status
conditions and the nullable completion time. -/
structure PipelineRun where
  conditions : List Condition
  completionTime : Option Int
  deriving DecidableEq, Repr

/-- The label key `models.EpinioStageIDLabel`, as it is written in `deploy.go`. -/
def EpinioStageIDLabel : String := "epinio.suse.org/stage-id"

/-- The result of one `client.List` call. -/
abbrev ListResult := Except GoError (List PipelineRun)

/-- The inner loop of the poll function (push.go 157-161): the error made from
the first condition that is false, if there is one. -/
def scanConditions : List Condition → Option GoError
  | [] => none
  | c :: cs => if c.IsFalse then some (GoError.new c.message) else scanConditions cs

/-- The outer loop of the poll function (push.go 155-168) with its fall-through
`return false, nil`. The pair is the Go result `(done, err)`. -/
def scanRuns : List PipelineRun → Bool × Option GoError
  | [] => (false, none)
  | pr :: rest =>
    match scanConditions pr.conditions with
    | some err => (false, some err)
    | none => if pr.completionTime.isSome then (true, none) else scanRuns rest

/-- The poll function handed to `wait.PollImmediate` (push.go 147-169), as a
function of what `client.List` returned. -/
def pollFunc (listed : ListResult) : Bool × Option GoError :=
  match listed with
  | .error err => (false, some err)
  | .ok items => if items.length = 0 then (false, none) else scanRuns items

/-- The error `wait.ErrWaitTimeout`. -/
def ErrWaitTimeout : GoError := GoError.new "timed out waiting for the condition"

/-- The library routine `wait.PollImmediate`: the condition is evaluated at
once and then once per interval; the first error or the first `done` ends the
wait, and when the deadline passes the result is `ErrWaitTimeout`. The list
holds what the condition observes at each evaluation that fits in the
deadline. The result is the returned error and the observations not consumed. -/
def PollImmediate {α : Type} (condition : α → Bool × Option GoError) :
    List α → Option GoError × List α
  | [] => (some ErrWaitTimeout, [])
  | obs :: later =>
    match condition obs with
    | (_, some err) => (some err, later)
    | (true, none) => (none, later)
    | (false, none) => PollImmediate condition later

/-- The part of `EpinioClient` the wait needs: the error, if any, of
`tekton.NewForConfig`, and the pipeline engine as the sequence of its answers,
one per poll, each a function of the label selector of the `List` call. -/
structure EpinioClient where
  newForConfig : Option GoError
  pipelineRuns : List (String → ListResult)

/-- The method `EpinioClient.waitForPipelineRun` (push.go 137-170). The result is the
returned error and the answers of the engine not yet polled. -/
def waitForPipelineRun (c : EpinioClient) (id : String) :
    Option GoError × List (String → ListResult) :=
  match c.newForConfig with
  | some err => (some err, c.pipelineRuns)
  | none =>
    PollImmediate (fun answer => pollFunc (answer (EpinioStageIDLabel ++ "=" ++ id)))
      c.pipelineRuns

/-- The number of polls a wait made. -/
def pollsMade (c : EpinioClient) (id : String) : Nat :=
  c.pipelineRuns.length - (waitForPipelineRun c id).2.length

/-- One step of `stageLogs` on its stop channel and its log relay, in program
order: making the buffered stop channel (push.go 100), starting the relay
goroutine under the wait group (101-110), the return of `waitForPipelineRun`
(113), a send on the stop channel (115, 118), and the deferred wait for the
relay to be gone (103). -/
inductive StageLogsStep where
  | makeStopChan (capacity : Nat)
  | startRelay
  | pollEnded (err : Option GoError)
  | sendStop (value : Bool)
  | waitRelay
  deriving DecidableEq, Repr

/-- What `stageLogs` leaves behind: the returned error and the steps it took, in
order. -/
structure StageLogsResult where
  err : Option GoError
  steps : List StageLogsStep
  deriving DecidableEq, Repr

/-- The method `EpinioClient.stageLogs` (push.go 96-121), the `Await` of the staging
coordinator: starts the log relay, waits for the pipeline run, then signals
the relay and waits for it. -/
def stageLogs (c : EpinioClient) (stageID : String) : StageLogsResult :=
  match (waitForPipelineRun c stageID).1 with
  | some err =>
    { steps := [.makeStopChan 1, .startRelay, .pollEnded (some err), .sendStop true,
        .waitRelay],
      err := some (GoError.wrap err "waiting for staging failed") }
  | none =>
    { steps := [.makeStopChan 1, .startRelay, .pollEnded none, .sendStop true, .waitRelay],
      err := none }

/-- The value a step sends on the stop channel, if it is a send. -/
def StageLogsStep.sent : StageLogsStep → Option Bool
  | .sendStop value => some value
  | _ => none

/-- The values sent on the stop channel, in order. -/
def StageLogsResult.stopSent (r : StageLogsResult) : List Bool :=
  r.steps.filterMap StageLogsStep.sent

/-- A buffered Go channel of booleans: its capacity and the values waiting in
its buffer, oldest first. -/
structure Chan where
  capacity : Nat
  buffer : List Bool
  deriving DecidableEq, Repr

/-- The channel `make(chan bool, capacity)`. -/
def Chan.make (capacity : Nat) : Chan := { capacity := capacity, buffer := [] }

/-- What the goroutines do on the stop channel: `stageLogs` sends, the log relay
looks for a value. -/
inductive ChanOp where
  | send (value : Bool)
  | receive
  deriving DecidableEq, Repr

/-- One operation on the channel. A send puts the value in the buffer when
there is room and blocks, the result `none`, when the buffer is full. The relay
takes the oldest value when there is one and otherwise leaves the channel as it
is. -/
def Chan.step (ch : Chan) : ChanOp → Option Chan
  | .send value =>
    if ch.buffer.length < ch.capacity then some { ch with buffer := ch.buffer ++ [value] }
    else none
  | .receive => some { ch with buffer := ch.buffer.tail }

/-- A sequence of operations on the channel, `none` when a send blocks. -/
def Chan.run (ch : Chan) : List ChanOp → Option Chan
  | [] => some ch
  | op :: ops =>
    match ch.step op with
    | some ch2 => Chan.run ch2 ops
    | none => none

/-- A run is failed when one of its conditions is false. -/
def PipelineRun.failed (pr : PipelineRun) : Bool :=
  pr.conditions.any Condition.IsFalse

/-- A run completed cleanly: completion time set and no false condition. -/
def PipelineRun.succeeded (pr : PipelineRun) : Bool :=
  pr.completionTime.isSome && !pr.failed

/-- A run that decides nothing yet: no false condition and no completion time. -/
def PipelineRun.running (pr : PipelineRun) : Bool :=
  !pr.failed && !pr.completionTime.isSome

/-! ## Concrete inputs for the staging coordinator -/

/-- The label selector of the stage id used in the scenarios. -/
def abcSelector : String := "epinio.suse.org/stage-id=abc123"

/-- A run that completed at time 42 with one true condition. -/
def completedRun : PipelineRun :=
  { conditions := [{ status := "True", message := "All Tasks have completed executing" }],
    completionTime := some 42 }

/-- A run with a false condition and no completion time. -/
def brokenRun : PipelineRun :=
  { conditions := [{ status := "False", message := "build step failed" }],
    completionTime := none }

/-- A run whose two conditions are both false, with different messages. -/
def twiceBrokenRun : PipelineRun :=
  { conditions := [{ status := "False", message := "first failure" },
                   { status := "False", message := "second failure" }],
    completionTime := none }

/-- An engine answer: the given runs for the selector of stage `abc123`,
nothing for every other selector. -/
def answerFor (runs : List PipelineRun) : String → ListResult :=
  fun selector => if selector = abcSelector then .ok runs else .ok []

/-- The scenario of the spec: no matching run for three polls, then a run with
its completion time set and no failed condition; one more answer is left
within the deadline. -/
def scenarioClient : EpinioClient :=
  { newForConfig := none,
    pipelineRuns := [answerFor [], answerFor [], answerFor [], answerFor [completedRun],
                     answerFor [brokenRun]] }

/-- An engine whose first answer lists the run with two false conditions. -/
def twiceBrokenClient : EpinioClient :=
  { newForConfig := none, pipelineRuns := [answerFor [twiceBrokenRun]] }

end Epinio

namespace Epinio

/-! ## Request and error values of the API server (`internal/api/v1`) -/

/-- The identity of an application, `models.AppRef`. -/
structure AppRef where
  name : String
  org : String
  deriving DecidableEq, Repr

/-- The git reference of a deploy request, `models.GitRef`. -/
structure GitRef where
  url : String
  revision : String
  deriving DecidableEq, Repr

/-- The staging reference of a deploy request, `models.StageRef`. -/
structure StageRef where
  id : String
  deriving DecidableEq, Repr

/-- The fields of `models.DeployRequest` that `Deploy` reads; `instances` is the
nullable `*int32`. -/
structure DeployRequest where
  app : AppRef
  instances : Option Int
  stage : StageRef
  git : Option GitRef
  imageURL : String
  route : String
  deriving DecidableEq, Repr

/-- One entry of `models.EnvVariableList`. -/
structure EnvVariable where
  name : String
  value : String
  deriving DecidableEq, Repr

/-- The list `models.EnvVariableList`. -/
abbrev EnvVariableList := List EnvVariable

/-- An error value returned by a handler, kept as the constructor that made it
and the arguments it was given: `NewBadRequest(msg, details...)`,
`InternalError(err, details...)` and `AppIsNotKnown(app)`. -/
inductive APIError where
  | NewBadRequest (msg : String) (details : List String)
  | InternalError (err : GoError) (details : List String)
  | AppIsNotKnown (app : String)
  deriving DecidableEq, Repr

/-- Modelled from the spec: the constructors of `APIError` live in
`internal/api/v1/errors.go`, which is not among the sources. The status of the
JSON envelope is 400 for a validation error, 500 for an infrastructure error
and 404 for the not-known condition (spec, sections 6 and 7). -/
def APIError.status : APIError → Nat
  | .NewBadRequest _ _ => 400
  | .InternalError _ _ => 500
  | .AppIsNotKnown _ => 404

/-- Modelled from the spec: the title of the JSON envelope is the fixed literal
message of a validation error (spec, sections 6 and 7, and the acceptance test
of the negative instance count) and the text of the underlying error for an
infrastructure error. The spec fixes no title for the not-known condition; the
text handed to its constructor stands for it. -/
def APIError.title : APIError → String
  | .NewBadRequest msg _ => msg
  | .InternalError err _ => err.Error
  | .AppIsNotKnown app => app

/-- The return value of a handler, `APIErrors`: nil or an error. -/
abbrev APIErrors := Option APIError

/-- How a call of `Deploy` ends: it returns, or the dereference of a nil
replica pointer in `existingReplica` panics. -/
inductive Outcome where
  | returned (errs : APIErrors)
  | nilDereference
  deriving DecidableEq, Repr

/-- The HTTP request as `Deploy` sees it: the `org` and `app` parameters of the
URL and the result of reading the body. -/
structure Request where
  org : String
  app : String
  body : Except GoError String

/-! ## Kubernetes objects -/

/-- A Go `map[string]string`. -/
abbrev StringMap := List (String × String)

/-- The map assignment `m[k] = v`. -/
def StringMap.set (m : StringMap) (k v : String) : StringMap :=
  if m.any (fun kv => kv.1 == k) then m.map (fun kv => if kv.1 == k then (k, v) else kv)
  else m ++ [(k, v)]

/-- The type `metav1.OwnerReference`. -/
structure OwnerReference where
  apiVersion : String
  kind : String
  name : String
  uid : String
  deriving DecidableEq, Repr

/-- The fields of `metav1.ObjectMeta` in use. -/
structure ObjectMeta where
  name : String := ""
  nameSpace : String := ""
  labels : StringMap := []
  annotations : StringMap := []
  ownerReferences : List OwnerReference := []
  resourceVersion : String := ""
  deriving DecidableEq, Repr

/-- The type `v1.EnvVar`: a name with a literal value or a secret key reference. -/
structure EnvVar where
  name : String
  value : String
  secretKeyRef : Option (String × String)
  deriving DecidableEq, Repr

/-- The type `v1.ContainerPort`. -/
structure ContainerPort where
  containerPort : Int
  deriving DecidableEq, Repr

/-- The type `v1.Container`. -/
structure Container where
  name : String
  image : String
  ports : List ContainerPort
  env : List EnvVar
  deriving DecidableEq, Repr

/-- The type `v1.PodSpec`. -/
structure PodSpec where
  serviceAccountName : String
  automountServiceAccountToken : Option Bool
  containers : List Container
  deriving DecidableEq, Repr

/-- The type `v1.PodTemplateSpec`. -/
structure PodTemplateSpec where
  objectMeta : ObjectMeta
  spec : PodSpec
  deriving DecidableEq, Repr

/-- The type `metav1.LabelSelector`. -/
structure LabelSelector where
  matchLabels : StringMap
  deriving DecidableEq, Repr

/-- The type `appsv1.DeploymentSpec`; `replicas` is the nullable `*int32`. -/
structure DeploymentSpec where
  replicas : Option Int
  selector : Option LabelSelector
  template : PodTemplateSpec
  deriving DecidableEq, Repr

/-- The type `appsv1.Deployment`. -/
structure Deployment where
  objectMeta : ObjectMeta
  spec : DeploymentSpec
  deriving DecidableEq, Repr

/-- The type `v1.ServicePort`; the target port is the `IntVal` of an
`intstr.IntOrString`. -/
structure ServicePort where
  port : Int
  protocol : String
  targetPort : Int
  deriving DecidableEq, Repr

/-- The type `v1.ServiceSpec`. -/
structure ServiceSpec where
  ports : List ServicePort
  selector : StringMap
  type : String
  clusterIP : String := ""
  deriving DecidableEq, Repr

/-- The type `v1.Service`. -/
structure Service where
  objectMeta : ObjectMeta
  spec : ServiceSpec
  deriving DecidableEq, Repr

/-- The type `networkingv1.IngressServiceBackend` with its port number. -/
structure IngressServiceBackend where
  name : String
  portNumber : Int
  deriving DecidableEq, Repr

/-- The type `networkingv1.HTTPIngressPath`. -/
structure HTTPIngressPath where
  backendService : Option IngressServiceBackend
  path : String
  pathType : Option String
  deriving DecidableEq, Repr

/-- The type `networkingv1.IngressRule`; `http` is the nullable rule value with
its paths. -/
structure IngressRule where
  host : String
  http : Option (List HTTPIngressPath)
  deriving DecidableEq, Repr

/-- The type `networkingv1.IngressTLS`. -/
structure IngressTLS where
  hosts : List String
  secretName : String
  deriving DecidableEq, Repr

/-- The type `networkingv1.IngressSpec`. -/
structure IngressSpec where
  rules : List IngressRule
  tls : List IngressTLS
  deriving DecidableEq, Repr

/-- The type `networkingv1.Ingress`. -/
structure Ingress where
  objectMeta : ObjectMeta
  spec : IngressSpec
  deriving DecidableEq, Repr

/-- The application resource as `Deploy` reads it: API version, kind, name
and UID. -/
structure ApplicationCR where
  apiVersion : String
  kind : String
  name : String
  uid : String
  deriving DecidableEq, Repr

/-! ## Resource builders (deploy.go 189-340) -/

/-- The constant `DefaultInstances`. -/
def DefaultInstances : Int := 1

/-- The struct `deployParam`; the embedded `AppRef` is the field `appRef`. -/
structure deployParam where
  appRef : AppRef
  git : Option GitRef
  route : String
  imageURL : String
  instances : Int
  domain : String
  stage : StageRef
  owner : OwnerReference
  environment : EnvVariableList
  deriving DecidableEq, Repr

/-- The functions of the `models` package that are not among the sources, taken
as parameters: `json.Unmarshal` into a `models.DeployRequest`, and
`EnvVariableList.ToEnvVarArray`. -/
structure Models where
  unmarshal : String → Except GoError DeployRequest
  toEnvVarArray : EnvVariableList → AppRef → List EnvVar

/-- The function `newAppDeployment` (deploy.go 190-247). -/
def newAppDeployment (m : Models) (stageID : String) (deployParams : deployParam) :
    Except GoError Deployment :=
  let automountServiceAccountToken := false
  let labels : StringMap :=
    [("app.kubernetes.io/name", deployParams.appRef.name),
     ("app.kubernetes.io/part-of", deployParams.appRef.org),
     ("app.kubernetes.io/component", "application"),
     ("app.kubernetes.io/managed-by", "epinio")]
  let labels := if stageID ≠ "" then labels.set "epinio.suse.org/stage-id" stageID else labels
  let deploymentData : Deployment :=
    { objectMeta :=
        { name := deployParams.appRef.name,
          labels :=
            [("app.kubernetes.io/name", deployParams.appRef.name),
             ("app.kubernetes.io/part-of", deployParams.appRef.org),
             ("app.kubernetes.io/component", "application"),
             ("app.kubernetes.io/managed-by", "epinio")] },
      spec :=
        { replicas := some deployParams.instances,
          selector := some { matchLabels := [("app.kubernetes.io/name", deployParams.appRef.name)] },
          template :=
            { objectMeta :=
                { labels := labels,
                  annotations := [("app.kubernetes.io/name", deployParams.appRef.name)] },
              spec :=
                { serviceAccountName := deployParams.appRef.org,
                  automountServiceAccountToken := some automountServiceAccountToken,
                  containers :=
                    [{ name := deployParams.appRef.name,
                       image := deployParams.imageURL,
                       ports := [{ containerPort := 8080 }],
                       env := m.toEnvVarArray deployParams.environment deployParams.appRef }] } } } }
  .ok deploymentData

/-- The function `newAppService` (deploy.go 250-284). -/
def newAppService (app : AppRef) : Except GoError Service :=
  let serviceData : Service :=
    { objectMeta :=
        { name := app.name,
          nameSpace := app.org,
          annotations :=
            [("kubernetes.io/ingress.class", "traefik"),
             ("traefik.ingress.kubernetes.io/router.entrypoints", "websecure"),
             ("traefik.ingress.kubernetes.io/router.tls", "true")],
          labels :=
            [("app.kubernetes.io/component", "application"),
             ("app.kubernetes.io/managed-by", "epinio"),
             ("app.kubernetes.io/name", app.name),
             ("app.kubernetes.io/part-of", app.org)] },
      spec :=
        { ports := [{ port := 8080, protocol := "TCP", targetPort := 8080 }],
          selector :=
            [("app.kubernetes.io/component", "application"),
             ("app.kubernetes.io/name", app.name)],
          type := "ClusterIP" } }
  .ok serviceData

/-- The function `newAppIngress` (deploy.go 286-340). -/
def newAppIngress (appRef : AppRef) (route : String) : Except GoError Ingress :=
  let pathTypeImplementationSpecific := "ImplementationSpecific"
  let ingressData : Ingress :=
    { objectMeta :=
        { name := appRef.name,
          annotations :=
            [("traefik.ingress.kubernetes.io/router.entrypoints", "websecure"),
             ("traefik.ingress.kubernetes.io/router.tls", "true"),
             ("kubernetes.io/ingress.class", "traefik")],
          labels :=
            [("app.kubernetes.io/component", "application"),
             ("app.kubernetes.io/managed-by", "epinio"),
             ("app.kubernetes.io/name", appRef.name),
             ("app.kubernetes.io/part-of", appRef.org)] },
      spec :=
        { rules :=
            [{ host := route,
               http := some
                 [{ backendService := some { name := appRef.name, portNumber := 8080 },
                    path := "/",
                    pathType := some pathTypeImplementationSpecific }] }],
          tls := [{ hosts := [route], secretName := route ++ "-tls" }] } }
  .ok ingressData

/-- The method `SetOwnerReferences` on a deployment. -/
def Deployment.SetOwnerReferences (d : Deployment) (refs : List OwnerReference) : Deployment :=
  { d with objectMeta := { d.objectMeta with ownerReferences := refs } }

/-- The method `SetOwnerReferences` on a service. -/
def Service.SetOwnerReferences (svc : Service) (refs : List OwnerReference) : Service :=
  { svc with objectMeta := { svc.objectMeta with ownerReferences := refs } }

/-- The method `SetOwnerReferences` on an ingress. -/
def Ingress.SetOwnerReferences (ing : Ingress) (refs : List OwnerReference) : Ingress :=
  { ing with objectMeta := { ing.objectMeta with ownerReferences := refs } }

end Epinio

namespace Epinio

/-! ## The cluster as `Deploy` calls it -/

/-- The calls `Deploy` makes on its collaborators, each a state-passing
function over a cluster state `σ`: `kubernetes.GetCluster`, `application.Get`,
`domain.MainDomain`, `application.Environment`, `application.Unstage`, and
`Get`, `Create` and `Update` of the typed clients, keyed by namespace (and
name). `Create` and `Update` return only their error, as `Deploy` drops the
object they return. -/
structure ClusterAPI (σ : Type) where
  getCluster : σ → Option GoError × σ
  applicationGet : AppRef → σ → Except GoError ApplicationCR × σ
  mainDomain : σ → Except GoError String × σ
  environment : AppRef → σ → Except GoError EnvVariableList × σ
  unstage : AppRef → String → σ → Option GoError × σ
  deploymentGet : String → String → σ → Except GoError Deployment × σ
  deploymentCreate : String → Deployment → σ → Option GoError × σ
  deploymentUpdate : String → Deployment → σ → Option GoError × σ
  serviceGet : String → String → σ → Except GoError Service × σ
  serviceCreate : String → Service → σ → Option GoError × σ
  serviceUpdate : String → Service → σ → Option GoError × σ
  ingressCreate : String → Ingress → σ → Option GoError × σ
  ingressUpdate : String → Ingress → σ → Option GoError × σ

/-- The function `existingReplica` (deploy.go 342-352). The result `none` is the
panic of dereferencing a nil `Replicas`. -/
def existingReplica {σ : Type} (api : ClusterAPI σ) (app : AppRef) (s : σ) :
    Option (Except GoError Int) × σ :=
  match api.deploymentGet app.org app.name s with
  | (.error err, s) =>
    if IsNotFound err then (some (.ok DefaultInstances), s) else (some (.error err), s)
  | (.ok result, s) =>
    match result.spec.replicas with
    | some n => (some (.ok n), s)
    | none => (none, s)

/-! The body of `Deploy` is one sequence of statements with early returns. It
is embedded as a chain of definitions, each the rest of the body from one
statement on, given the variables in scope there; `Deploy` itself is the head
of the chain. -/

/-- The end of `Deploy` (deploy.go 179-186): cleanup of the superseded staging
runs when the request carries a stage id, then success. -/
def deployCleanup {σ : Type} (api : ClusterAPI σ) (req : DeployRequest) (s : σ) :
    Outcome × σ :=
  -- Delete previous pipelineruns except for the current one
  if req.stage.id ≠ "" then
    match api.unstage req.app req.stage.id s with
    | (some err, s) => (.returned (some (.InternalError err [])), s)
    | (none, s) => (.returned none, s)
  else
    (.returned none, s)

/-- The body of `Deploy` from the ingress on (deploy.go 164-186). -/
def deployIngress {σ : Type} (api : ClusterAPI σ) (req : DeployRequest)
    (owner : OwnerReference) (s : σ) : Outcome × σ :=
  match newAppIngress req.app req.route with
  | .error err => (.returned (some (.InternalError err [])), s)
  | .ok ing =>
  let ing := ing.SetOwnerReferences [owner]
  match api.ingressCreate req.app.org ing s with
  | (some err, s) =>
    if IsAlreadyExists err then
      match api.ingressUpdate req.app.org ing s with
      | (some err, s) => (.returned (some (.InternalError err [])), s)
      | (none, s) => deployCleanup api req s
    else
      (.returned (some (.InternalError err [])), s)
  | (none, s) => deployCleanup api req s

/-- The body of `Deploy` from the service on (deploy.go 142-186). -/
def deployService {σ : Type} (api : ClusterAPI σ) (req : DeployRequest)
    (owner : OwnerReference) (s : σ) : Outcome × σ :=
  match newAppService req.app with
  | .error err => (.returned (some (.InternalError err [])), s)
  | .ok svc =>
  let svc := svc.SetOwnerReferences [owner]
  match api.serviceCreate req.app.org svc s with
  | (some err, s) =>
    if IsAlreadyExists err then
      match api.serviceGet req.app.org svc.objectMeta.name s with
      | (.error err, s) => (.returned (some (.InternalError err [])), s)
      | (.ok service, s) =>
        let svc : Service :=
          { svc with
            objectMeta :=
              { svc.objectMeta with resourceVersion := service.objectMeta.resourceVersion } }
        let svc : Service :=
          { svc with spec := { svc.spec with clusterIP := service.spec.clusterIP } }
        match api.serviceUpdate req.app.org svc s with
        | (some err, s) => (.returned (some (.InternalError err [])), s)
        | (none, s) => deployIngress api req owner s
    else
      (.returned (some (.InternalError err [])), s)
  | (none, s) => deployIngress api req owner s

/-- The body of `Deploy` from the workload on (deploy.go 126-186). -/
def deployWorkload {σ : Type} (m : Models) (api : ClusterAPI σ) (req : DeployRequest)
    (owner : OwnerReference) (deployParams : deployParam) (s : σ) : Outcome × σ :=
  match newAppDeployment m req.stage.id deployParams with
  | .error err => (.returned (some (.InternalError err [])), s)
  | .ok deployment =>
  let deployment := deployment.SetOwnerReferences [owner]
  match api.deploymentCreate req.app.org deployment s with
  | (some err, s) =>
    if IsAlreadyExists err then
      match api.deploymentUpdate req.app.org deployment s with
      | (some err, s) => (.returned (some (.InternalError err [])), s)
      | (none, s) => deployService api req owner s
    else
      (.returned (some (.InternalError err [])), s)
  | (none, s) => deployService api req owner s

/-- The body of `Deploy` once the instance count is known (deploy.go 104-186):
main domain, runtime environment, the deploy parameters, then the three
objects. -/
def deployInstances {σ : Type} (m : Models) (api : ClusterAPI σ) (req : DeployRequest)
    (owner : OwnerReference) (instances : Int) (s : σ) : Outcome × σ :=
  match api.mainDomain s with
  | (.error err, s) => (.returned (some (.InternalError err [])), s)
  | (.ok mainDomain, s) =>
  -- determine runtime environment, if any
  match api.environment req.app s with
  | (.error err, s) =>
    (.returned (some
      (.InternalError err ["failed to access application runtime environment"])), s)
  | (.ok environment, s) =>
  let deployParams : deployParam :=
    { appRef := req.app,
      git := req.git,
      route := req.route,
      owner := owner,
      environment := environment,
      instances := instances,
      domain := mainDomain,
      imageURL := req.imageURL,
      stage := { id := "" } }
  deployWorkload m api req owner deployParams s

/-- The body of `Deploy` once the request is validated (deploy.go 73-186):
access to the cluster, the application resource, the instance count. -/
def deployValidated {σ : Type} (m : Models) (api : ClusterAPI σ) (req : DeployRequest)
    (s : σ) : Outcome × σ :=
  match api.getCluster s with
  | (some err, s) =>
    (.returned (some (.InternalError err ["failed to get access to a kube client"])), s)
  | (none, s) =>
  -- check application resource
  match api.applicationGet req.app s with
  | (.error err, s) =>
    if IsNotFound err then
      (.returned (some (.AppIsNotKnown "cannot deploy app, application resource is missing")), s)
    else
      (.returned (some (.InternalError err ["failed to get the application resource"])), s)
  | (.ok applicationCR, s) =>
  let owner : OwnerReference :=
    { apiVersion := applicationCR.apiVersion,
      kind := applicationCR.kind,
      name := applicationCR.name,
      uid := applicationCR.uid }
  -- find out the number of instances
  match req.instances with
  | some n => deployInstances m api req owner n s
  | none =>
    match existingReplica api req.app s with
    | (none, s) => (.nilDereference, s)
    | (some (.error err), s) => (.returned (some (.InternalError err [])), s)
    | (some (.ok instances), s) => deployInstances m api req owner instances s

/-- The handler `ApplicationsController.Deploy` (deploy.go 43-187): reading and
decoding the body and the validation (43-71), then the rest of the body. -/
def Deploy {σ : Type} (m : Models) (api : ClusterAPI σ) (r : Request) (s : σ) :
    Outcome × σ :=
  let org := r.org
  let name := r.app
  match r.body with
  | .error err => (.returned (some (.InternalError err [])), s)
  | .ok bodyBytes =>
  match m.unmarshal bodyBytes with
  | .error err =>
    (.returned (some (.NewBadRequest "Failed to unmarshal deploy request " [err.Error])), s)
  | .ok req =>
  if name ≠ req.app.name then
    (.returned (some
      (.NewBadRequest "name parameter from URL does not match name param in body" [])), s)
  else if org ≠ req.app.org then
    (.returned (some
      (.NewBadRequest "org parameter from URL does not match org param in body" [])), s)
  else if (match req.instances with
           | some n => decide (n < 0)
           | none => false) then
    (.returned (some
      (.NewBadRequest "instances param should be integer equal or greater than zero" [])), s)
  else
    deployValidated m api req s

/-! ## Recording the calls -/

/-- A call on the cluster, with its arguments. -/
inductive Call where
  | getCluster
  | applicationGet (app : AppRef)
  | mainDomain
  | environment (app : AppRef)
  | unstage (app : AppRef) (stageID : String)
  | deploymentGet (ns name : String)
  | deploymentCreate (ns : String) (d : Deployment)
  | deploymentUpdate (ns : String) (d : Deployment)
  | serviceGet (ns name : String)
  | serviceCreate (ns : String) (svc : Service)
  | serviceUpdate (ns : String) (svc : Service)
  | ingressCreate (ns : String) (ing : Ingress)
  | ingressUpdate (ns : String) (ing : Ingress)
  deriving DecidableEq, Repr

/-- What a call returned. -/
inductive Reply where
  | failed (err : GoError)
  | done
  | application (cr : ApplicationCR)
  | domain (d : String)
  | environment (env : EnvVariableList)
  | deployment (d : Deployment)
  | service (svc : Service)
  deriving DecidableEq, Repr

/-- One entry of the record of calls. -/
structure Event where
  call : Call
  reply : Reply
  deriving DecidableEq, Repr

/-- The reply of a call that returns only an error. -/
def Reply.ofError : Option GoError → Reply
  | some err => .failed err
  | none => .done

/-- The reply of a call that returns a value or an error. -/
def Reply.ofExcept {α : Type} (ok : α → Reply) : Except GoError α → Reply
  | .error err => .failed err
  | .ok a => ok a

/-- Runs a call and appends it, with its reply, to the record kept next to the
cluster state. -/
def record {σ ρ : Type} (call : Call) (reply : ρ → Reply) (f : σ → ρ × σ) :
    σ × List Event → ρ × (σ × List Event) :=
  fun st =>
    let res := f st.1
    (res.1, (res.2, st.2 ++ [{ call := call, reply := reply res.1 }]))

/-- The same cluster, keeping the record of every call made on it, in order. -/
def traced {σ : Type} (api : ClusterAPI σ) : ClusterAPI (σ × List Event) where
  getCluster := record .getCluster Reply.ofError api.getCluster
  applicationGet := fun app =>
    record (.applicationGet app) (Reply.ofExcept .application) (api.applicationGet app)
  mainDomain := record .mainDomain (Reply.ofExcept .domain) api.mainDomain
  environment := fun app =>
    record (.environment app) (Reply.ofExcept .environment) (api.environment app)
  unstage := fun app id => record (.unstage app id) Reply.ofError (api.unstage app id)
  deploymentGet := fun ns name =>
    record (.deploymentGet ns name) (Reply.ofExcept .deployment) (api.deploymentGet ns name)
  deploymentCreate := fun ns d =>
    record (.deploymentCreate ns d) Reply.ofError (api.deploymentCreate ns d)
  deploymentUpdate := fun ns d =>
    record (.deploymentUpdate ns d) Reply.ofError (api.deploymentUpdate ns d)
  serviceGet := fun ns name =>
    record (.serviceGet ns name) (Reply.ofExcept .service) (api.serviceGet ns name)
  serviceCreate := fun ns svc =>
    record (.serviceCreate ns svc) Reply.ofError (api.serviceCreate ns svc)
  serviceUpdate := fun ns svc =>
    record (.serviceUpdate ns svc) Reply.ofError (api.serviceUpdate ns svc)
  ingressCreate := fun ns ing =>
    record (.ingressCreate ns ing) Reply.ofError (api.ingressCreate ns ing)
  ingressUpdate := fun ns ing =>
    record (.ingressUpdate ns ing) Reply.ofError (api.ingressUpdate ns ing)

/-- A `Get`, `Create` or `Update` call on a deployment, service or ingress. -/
def Call.onObject : Call → Bool
  | .deploymentGet _ _ | .deploymentCreate _ _ | .deploymentUpdate _ _ => true
  | .serviceGet _ _ | .serviceCreate _ _ | .serviceUpdate _ _ => true
  | .ingressCreate _ _ | .ingressUpdate _ _ => true
  | _ => false

/-- A `Create` call. -/
def Call.isCreate : Call → Bool
  | .deploymentCreate _ _ | .serviceCreate _ _ | .ingressCreate _ _ => true
  | _ => false

/-- The `Get` of the workload, the call of `existingReplica`. -/
def Call.isDeploymentGet : Call → Bool
  | .deploymentGet _ _ => true
  | _ => false

end Epinio

namespace Epinio

/-! ## A cluster to run `Deploy` against -/

/-- Objects of one kind, keyed by namespace and name. -/
abbrev Store (α : Type) := List ((String × String) × α)

/-- The object stored under a key, if any. -/
def Store.get {α : Type} : Store α → String → String → Option α
  | [], _, _ => none
  | (k, a) :: rest, ns, name => if k = (ns, name) then some a else Store.get rest ns name

/-- Stores an object under a key, in place of the one stored there, if any. -/
def Store.put {α : Type} : Store α → String → String → α → Store α
  | [], ns, name, a => [((ns, name), a)]
  | (k, b) :: rest, ns, name, a =>
    if k = (ns, name) then (k, a) :: rest else (k, b) :: Store.put rest ns name a

/-- Modelled from the spec: the state of the cluster behind the interfaces of
section 6, which are external to the repository. It holds the application
resources and their environments (the application registry), the main domain,
the three kinds of owned objects keyed by (namespace, name), the staging runs
as pairs of application and stage id, and the counters from which the cluster
assigns version tokens and internal addresses. -/
structure SimCluster where
  applications : List (AppRef × ApplicationCR)
  environments : List (AppRef × EnvVariableList)
  domain : String
  deployments : Store Deployment
  services : Store Service
  ingresses : Store Ingress
  stagingRuns : List (AppRef × String)
  nextVersion : Nat
  nextAddress : Nat
  deriving DecidableEq, Repr

namespace SimCluster

/-- The version token the cluster assigns at its next write. -/
def freshVersion (c : SimCluster) : String := toString c.nextVersion

/-- The internal address the cluster assigns to its next service. -/
def freshAddress (c : SimCluster) : String := "10.43.0." ++ toString c.nextAddress

/-- The error of a `Get` or `Update` of an object that is not stored. -/
def errNotFound (name : String) : GoError := .status .notFound (name ++ " not found")

/-- The error of a `Create` of an object that is stored already. -/
def errAlreadyExists (name : String) : GoError :=
  .status .alreadyExists (name ++ " already exists")

/-- The error of an `Update` whose version token is not the stored one. -/
def errConflict (name : String) : GoError :=
  .status .conflict (name ++ ": the object has been modified")

/-- The error of an `Update` that changes the internal address of a service. -/
def errImmutable (name : String) : GoError :=
  .status .invalid (name ++ ": spec.clusterIP: field is immutable")

/-- A deployment as the cluster stores it: in the namespace of the call, with a
replica count (1 when none was given) and the version token `rv`. -/
def admitDeployment (ns rv : String) (d : Deployment) : Deployment :=
  { d with
    objectMeta := { d.objectMeta with nameSpace := ns, resourceVersion := rv },
    spec := { d.spec with replicas := some (d.spec.replicas.getD 1) } }

/-- A service as the cluster stores it: in the namespace of the call, with the
version token `rv`. -/
def admitService (ns rv : String) (svc : Service) : Service :=
  { svc with objectMeta := { svc.objectMeta with nameSpace := ns, resourceVersion := rv } }

/-- An ingress as the cluster stores it: in the namespace of the call, with the
version token `rv`. -/
def admitIngress (ns rv : String) (ing : Ingress) : Ingress :=
  { ing with objectMeta := { ing.objectMeta with nameSpace := ns, resourceVersion := rv } }

/-- Modelled from the spec: `Get(AppRef)` of the application registry; an
application that is not registered is not found. -/
def applicationGet (app : AppRef) (c : SimCluster) : Except GoError ApplicationCR × SimCluster :=
  match c.applications.lookup app with
  | some cr => (.ok cr, c)
  | none => (.error (errNotFound app.name), c)

/-- Modelled from the spec: `GetEnvironment(AppRef)` of the application
registry; the list is empty when nothing is recorded. -/
def environment (app : AppRef) (c : SimCluster) : Except GoError EnvVariableList × SimCluster :=
  (.ok ((c.environments.lookup app).getD []), c)

/-- Modelled from the spec: cleanup of the staging runs of the application
other than the current one. -/
def unstage (app : AppRef) (stageID : String) (c : SimCluster) : Option GoError × SimCluster :=
  (none, { c with stagingRuns := c.stagingRuns.filter (fun run => !(run.1 = app && run.2 ≠ stageID)) })

/-- Modelled from the spec: `Get` of a workload fails with not-found when
nothing is stored under the key. -/
def deploymentGet (ns name : String) (c : SimCluster) : Except GoError Deployment × SimCluster :=
  match c.deployments.get ns name with
  | some d => (.ok d, c)
  | none => (.error (errNotFound name), c)

/-- Modelled from the spec: `Create` of a workload fails with already-exists
when the key is taken, and otherwise stores the object with a fresh version
token. -/
def deploymentCreate (ns : String) (d : Deployment) (c : SimCluster) :
    Option GoError × SimCluster :=
  match c.deployments.get ns d.objectMeta.name with
  | some _ => (some (errAlreadyExists d.objectMeta.name), c)
  | none =>
    (none, { c with
      deployments := c.deployments.put ns d.objectMeta.name (admitDeployment ns c.freshVersion d),
      nextVersion := c.nextVersion + 1 })

/-- Modelled from the spec: `Update` of a workload. It fails with not-found when
nothing is stored, and with a conflict when the object carries a version token
other than the stored one (an object without a token is updated
unconditionally). A write that changes nothing leaves the stored object, its
version token included; any other write stores the object with a fresh version
token. -/
def deploymentUpdate (ns : String) (d : Deployment) (c : SimCluster) :
    Option GoError × SimCluster :=
  match c.deployments.get ns d.objectMeta.name with
  | none => (some (errNotFound d.objectMeta.name), c)
  | some cur =>
    if d.objectMeta.resourceVersion ≠ "" ∧
        d.objectMeta.resourceVersion ≠ cur.objectMeta.resourceVersion then
      (some (errConflict d.objectMeta.name), c)
    else if admitDeployment ns cur.objectMeta.resourceVersion d = cur then (none, c)
    else
      (none, { c with
        deployments := c.deployments.put ns d.objectMeta.name (admitDeployment ns c.freshVersion d),
        nextVersion := c.nextVersion + 1 })

/-- Modelled from the spec: `Get` of a service. -/
def serviceGet (ns name : String) (c : SimCluster) : Except GoError Service × SimCluster :=
  match c.services.get ns name with
  | some svc => (.ok svc, c)
  | none => (.error (errNotFound name), c)

/-- Modelled from the spec: `Create` of a service fails with already-exists when
the key is taken, and otherwise stores the object with a fresh version token
and, when it names no internal address, with one the cluster assigns. -/
def serviceCreate (ns : String) (svc : Service) (c : SimCluster) :
    Option GoError × SimCluster :=
  match c.services.get ns svc.objectMeta.name with
  | some _ => (some (errAlreadyExists svc.objectMeta.name), c)
  | none =>
    if svc.spec.clusterIP = "" then
      (none, { c with
        services := c.services.put ns svc.objectMeta.name
          (admitService ns c.freshVersion
            { svc with spec := { svc.spec with clusterIP := c.freshAddress } }),
        nextVersion := c.nextVersion + 1,
        nextAddress := c.nextAddress + 1 })
    else
      (none, { c with
        services := c.services.put ns svc.objectMeta.name (admitService ns c.freshVersion svc),
        nextVersion := c.nextVersion + 1 })

/-- Modelled from the spec: `Update` of a service. As for a workload, and in
addition the internal address is assigned once: an update that names another
address than the stored one is refused. -/
def serviceUpdate (ns : String) (svc : Service) (c : SimCluster) :
    Option GoError × SimCluster :=
  match c.services.get ns svc.objectMeta.name with
  | none => (some (errNotFound svc.objectMeta.name), c)
  | some cur =>
    if svc.objectMeta.resourceVersion ≠ "" ∧
        svc.objectMeta.resourceVersion ≠ cur.objectMeta.resourceVersion then
      (some (errConflict svc.objectMeta.name), c)
    else if svc.spec.clusterIP ≠ cur.spec.clusterIP then
      (some (errImmutable svc.objectMeta.name), c)
    else if admitService ns cur.objectMeta.resourceVersion svc = cur then (none, c)
    else
      (none, { c with
        services := c.services.put ns svc.objectMeta.name (admitService ns c.freshVersion svc),
        nextVersion := c.nextVersion + 1 })

/-- Modelled from the spec: `Create` of an ingress. -/
def ingressCreate (ns : String) (ing : Ingress) (c : SimCluster) :
    Option GoError × SimCluster :=
  match c.ingresses.get ns ing.objectMeta.name with
  | some _ => (some (errAlreadyExists ing.objectMeta.name), c)
  | none =>
    (none, { c with
      ingresses := c.ingresses.put ns ing.objectMeta.name (admitIngress ns c.freshVersion ing),
      nextVersion := c.nextVersion + 1 })

/-- Modelled from the spec: `Update` of an ingress, as for a workload. -/
def ingressUpdate (ns : String) (ing : Ingress) (c : SimCluster) :
    Option GoError × SimCluster :=
  match c.ingresses.get ns ing.objectMeta.name with
  | none => (some (errNotFound ing.objectMeta.name), c)
  | some cur =>
    if ing.objectMeta.resourceVersion ≠ "" ∧
        ing.objectMeta.resourceVersion ≠ cur.objectMeta.resourceVersion then
      (some (errConflict ing.objectMeta.name), c)
    else if admitIngress ns cur.objectMeta.resourceVersion ing = cur then (none, c)
    else
      (none, { c with
        ingresses := c.ingresses.put ns ing.objectMeta.name (admitIngress ns c.freshVersion ing),
        nextVersion := c.nextVersion + 1 })

/-- Every stored workload has a replica count, as the cluster gives one to each
workload it stores. -/
def wellFormed (c : SimCluster) : Prop :=
  ∀ kv ∈ c.deployments, kv.2.spec.replicas ≠ none

end SimCluster

/-- Modelled from the spec: the cluster of section 6 as a `ClusterAPI`. Access
to the cluster and the main domain are always available. -/
def simAPI : ClusterAPI SimCluster where
  getCluster := fun c => (none, c)
  applicationGet := SimCluster.applicationGet
  mainDomain := fun c => (.ok c.domain, c)
  environment := SimCluster.environment
  unstage := SimCluster.unstage
  deploymentGet := SimCluster.deploymentGet
  deploymentCreate := SimCluster.deploymentCreate
  deploymentUpdate := SimCluster.deploymentUpdate
  serviceGet := SimCluster.serviceGet
  serviceCreate := SimCluster.serviceCreate
  serviceUpdate := SimCluster.serviceUpdate
  ingressCreate := SimCluster.ingressCreate
  ingressUpdate := SimCluster.ingressUpdate

/-! ## Concrete inputs for the deploy reconciler -/

/-- The application of the examples. -/
def demoApp : AppRef := { name := "demo", org := "workspace" }

/-- A decoder for the examples: the body `ok` decodes to the request given,
any other body does not decode. -/
def demoModels (req : DeployRequest) : Models where
  unmarshal := fun body =>
    if body = "ok" then .ok req else .error (.new "invalid character in numeric literal")
  toEnvVarArray := fun env _ => env.map (fun ev => { name := ev.name, value := ev.value, secretKeyRef := none })

/-- A deploy request for the application of the examples. -/
def demoRequest (instances : Option Int) (stageID : String) : DeployRequest :=
  { app := demoApp, instances := instances, stage := { id := stageID }, git := none,
    imageURL := "registry.local/apps/demo", route := "demo.example.org" }

/-- The HTTP request of the examples, addressed to the application of the
examples. -/
def demoHTTP : Request := { org := "workspace", app := "demo", body := .ok "ok" }

/-- The HTTP request of the examples, addressed to another application. -/
def otherHTTP : Request := { org := "workspace", app := "other", body := .ok "ok" }

/-- The application resource of the examples. -/
def demoCR : ApplicationCR :=
  { apiVersion := "application.epinio.io/v1", kind := "App", name := "demo", uid := "uid-1" }

/-- A cluster in which the application of the examples is registered and
nothing is deployed. -/
def emptyCluster : SimCluster :=
  { applications := [(demoApp, demoCR)],
    environments := [], domain := "example.org", deployments := [], services := [],
    ingresses := [], stagingRuns := [(demoApp, "old"), (demoApp, "abc123")],
    nextVersion := 1, nextAddress := 1 }

end Epinio

namespace Epinio

/-! ## Properties of a record of calls -/

/-- Every event of the record satisfies `Q`, a property of the event and of the
events that follow it. -/
def EachEvent (evs : List Event) (Q : Event → List Event → Prop) : Prop :=
  ∀ before ev after, evs = before ++ ev :: after → Q ev after

/-- The event is a failed `Get`, `Create` or `Update` on one of the three
object kinds, with error `err`, other than a `Create` reporting already-exists
and other than the `Get` of the workload reporting not-found. -/
def Event.abortsWith (ev : Event) (err : GoError) : Prop :=
  ev.call.onObject = true ∧ ev.reply = .failed err ∧
    ¬ (ev.call.isCreate = true ∧ IsAlreadyExists err = true) ∧
    ¬ (ev.call.isDeploymentGet = true ∧ IsNotFound err = true)

/-- If the event is such a failure, no event follows it and the outcome is the
internal error made from its error. -/
def AbortsAt (out : Outcome) (ev : Event) (after : List Event) : Prop :=
  ∀ err, ev.abortsWith err → after = [] ∧ out = .returned (some (.InternalError err []))

/-- A cluster whose `Create` of an ingress always fails with an error that is
not already-exists; everything else is the cluster of section 6. -/
def brokenIngressAPI : ClusterAPI SimCluster :=
  { simAPI with
    ingressCreate := fun _ _ c => (some (.status .unknown "etcdserver: request timed out"), c) }

/-- The service handed to `Update`: the built one with the version token and the
internal address of the fetched one. -/
def Service.carrying (svc fetched : Service) : Service :=
  { objectMeta := { svc.objectMeta with resourceVersion := fetched.objectMeta.resourceVersion },
    spec := { svc.spec with clusterIP := fetched.spec.clusterIP } }

/-- What follows a `Create` that reported already-exists: for a service, the
`Get` of the current service and, when it succeeds, the `Update` of the built
service carrying the fetched version token and internal address; for a workload
and for an ingress, directly the `Update` of the very object handed to
`Create`, whose version token is empty. -/
def CarriesForward (ev : Event) (after : List Event) : Prop :=
  (∀ ns svc err, ev = ⟨.serviceCreate ns svc, .failed err⟩ → IsAlreadyExists err = true →
    ∃ reply rest, after = ⟨.serviceGet ns svc.objectMeta.name, reply⟩ :: rest ∧
      ∀ fetched, reply = .service fetched →
        ∃ reply2 rest2, rest = ⟨.serviceUpdate ns (svc.carrying fetched), reply2⟩ :: rest2) ∧
  (∀ ns d err, ev = ⟨.deploymentCreate ns d, .failed err⟩ → IsAlreadyExists err = true →
    d.objectMeta.resourceVersion = "" ∧
      ∃ reply rest, after = ⟨.deploymentUpdate ns d, reply⟩ :: rest) ∧
  (∀ ns ing err, ev = ⟨.ingressCreate ns ing, .failed err⟩ → IsAlreadyExists err = true →
    ing.objectMeta.resourceVersion = "" ∧
      ∃ reply rest, after = ⟨.ingressUpdate ns ing, reply⟩ :: rest)

/-- A `Get`, `Create` or `Update` call on the workload. -/
def Call.onWorkload : Call → Bool
  | .deploymentGet _ _ | .deploymentCreate _ _ | .deploymentUpdate _ _ => true
  | _ => false

/-- The replica count of the workload a call applies, for a `Create` or an
`Update` of the workload. -/
def Call.appliedReplicas : Call → Option (Option Int)
  | .deploymentCreate _ d | .deploymentUpdate _ d => some d.spec.replicas
  | _ => none

/-- What the record of calls says about the replica count. Either a `Create` of
the workload is in the record, or a call that is not on one of the three
objects failed, or the `Get` of the workload failed with another error than
not-found, or the `Get` of the workload returned a workload with a nil replica
count and `Deploy` panicked on it. With an instance count
in the request, no `Get` of the workload is made and every `Create` or `Update`
of the workload carries that count. Without one, every `Create` or `Update` of
the workload carries the count of the workload returned by the one `Get` of
the workload in the record, or `DefaultInstances` when that `Get` reported
not-found. -/
def ReplicasExplained (req : DeployRequest) (out : Outcome) (evs : List Event) : Prop :=
  ((∃ ev ∈ evs, ev.call.isCreate = true ∧ ev.call.onWorkload = true) ∨
    (∃ ev ∈ evs, ∃ err, ev.reply = .failed err ∧
      (ev.call.onObject = false ∨
        (ev.call.isDeploymentGet = true ∧ IsNotFound err = false))) ∨
    (∃ d0, ⟨.deploymentGet req.app.org req.app.name, .deployment d0⟩ ∈ evs ∧
      d0.spec.replicas = none ∧ out = .nilDereference)) ∧
  (∀ n, req.instances = some n →
    ∀ ev ∈ evs, ev.call.isDeploymentGet = false ∧
      ∀ reps, ev.call.appliedReplicas = some reps → reps = some n) ∧
  (req.instances = none →
    ∀ ev ∈ evs, ∀ reps, ev.call.appliedReplicas = some reps →
      ∃ getReply, ⟨.deploymentGet req.app.org req.app.name, getReply⟩ ∈ evs ∧
        (∀ ev2 ∈ evs, ev2.call.isDeploymentGet = true →
          ev2 = ⟨.deploymentGet req.app.org req.app.name, getReply⟩) ∧
        ((∃ d0 N, getReply = .deployment d0 ∧ d0.spec.replicas = some N ∧ reps = some N) ∨
          (∃ err, getReply = .failed err ∧ IsNotFound err = true ∧
            reps = some DefaultInstances)))


/-- The owner reference `Deploy` makes from the application resource of the
examples. -/
def demoOwner : OwnerReference :=
  { apiVersion := "application.epinio.io/v1", kind := "App", name := "demo", uid := "uid-1" }

/-- The workload `Deploy` hands to the cluster for the application of the
examples, with two instances and no stage id. -/
def demoDeployment : Deployment :=
  { objectMeta :=
      { name := "demo",
        labels :=
          [("app.kubernetes.io/name", "demo"),
           ("app.kubernetes.io/part-of", "workspace"),
           ("app.kubernetes.io/component", "application"),
           ("app.kubernetes.io/managed-by", "epinio")],
        ownerReferences := [demoOwner] },
    spec :=
      { replicas := some 2,
        selector := some { matchLabels := [("app.kubernetes.io/name", "demo")] },
        template :=
          { objectMeta :=
              { labels :=
                  [("app.kubernetes.io/name", "demo"),
                   ("app.kubernetes.io/part-of", "workspace"),
                   ("app.kubernetes.io/component", "application"),
                   ("app.kubernetes.io/managed-by", "epinio")],
                annotations := [("app.kubernetes.io/name", "demo")] },
            spec :=
              { serviceAccountName := "workspace",
                automountServiceAccountToken := some false,
                containers :=
                  [{ name := "demo",
                     image := "registry.local/apps/demo",
                     ports := [{ containerPort := 8080 }],
                     env := [] }] } } } }

/-- The service `Deploy` hands to `Create` for the application of the examples. -/
def demoService : Service :=
  { objectMeta :=
      { name := "demo",
        nameSpace := "workspace",
        annotations :=
          [("kubernetes.io/ingress.class", "traefik"),
           ("traefik.ingress.kubernetes.io/router.entrypoints", "websecure"),
           ("traefik.ingress.kubernetes.io/router.tls", "true")],
        labels :=
          [("app.kubernetes.io/component", "application"),
           ("app.kubernetes.io/managed-by", "epinio"),
           ("app.kubernetes.io/name", "demo"),
           ("app.kubernetes.io/part-of", "workspace")],
        ownerReferences := [demoOwner] },
    spec :=
      { ports := [{ port := 8080, protocol := "TCP", targetPort := 8080 }],
        selector :=
          [("app.kubernetes.io/component", "application"),
           ("app.kubernetes.io/name", "demo")],
        type := "ClusterIP" } }

/-- The ingress `Deploy` hands to the cluster for the application of the
examples. -/
def demoIngress : Ingress :=
  { objectMeta :=
      { name := "demo",
        annotations :=
          [("traefik.ingress.kubernetes.io/router.entrypoints", "websecure"),
           ("traefik.ingress.kubernetes.io/router.tls", "true"),
           ("kubernetes.io/ingress.class", "traefik")],
        labels :=
          [("app.kubernetes.io/component", "application"),
           ("app.kubernetes.io/managed-by", "epinio"),
           ("app.kubernetes.io/name", "demo"),
           ("app.kubernetes.io/part-of", "workspace")],
        ownerReferences := [demoOwner] },
    spec :=
      { rules :=
          [{ host := "demo.example.org",
             http := some
               [{ backendService := some { name := "demo", portNumber := 8080 },
                  path := "/", pathType := some "ImplementationSpecific" }] }],
        tls := [{ hosts := ["demo.example.org"], secretName := "demo.example.org-tls" }] } }

/-- The cluster of the examples after a first deploy of the application with
two instances and no stage id. -/
def deployedCluster : SimCluster :=
  (Deploy (demoModels (demoRequest (some 2) "")) simAPI demoHTTP emptyCluster).2

/-- The record of calls of a second deploy, of the same request, on the cluster
left by the first. -/
def redeployLog : List Event :=
  (Deploy (demoModels (demoRequest (some 2) "")) (traced simAPI) demoHTTP
    (deployedCluster, [])).2.2

/-! ## Properties of a cluster state -/

/-- The staging runs of the application are cleaned up with respect to the
stage id of the request: cleanup would remove nothing. -/
def SimCluster.stagingClean (req : DeployRequest) (c : SimCluster) : Prop :=
  req.stage.id ≠ "" → (SimCluster.unstage req.app req.stage.id c).2 = c

/-- The parts of the cluster that no call of `Deploy` writes: the application
registry and the main domain. -/
def SimCluster.sameRegistry (c c2 : SimCluster) : Prop :=
  c2.applications = c.applications ∧ c2.environments = c.environments ∧ c2.domain = c.domain

/-- The deploy parameters `Deploy` builds on the cluster `c` for `n` instances. -/
def SimCluster.deployParams (req : DeployRequest) (owner : OwnerReference) (n : Int)
    (c : SimCluster) : deployParam :=
  { appRef := req.app, git := req.git, route := req.route, owner := owner,
    environment := (c.environments.lookup req.app).getD [], instances := n,
    domain := c.domain, imageURL := req.imageURL, stage := { id := "" } }

/-- The cluster holds, under the key of the application, the three objects
`Deploy` builds for the request with `n` instances, each with some version
token and the service with some internal address, and its staging runs are
cleaned up. -/
def SimCluster.settled (m : Models) (req : DeployRequest) (owner : OwnerReference) (n : Int)
    (c : SimCluster) : Prop :=
  ∃ d svc ing,
    newAppDeployment m req.stage.id (c.deployParams req owner n) = .ok d ∧
    newAppService req.app = .ok svc ∧
    newAppIngress req.app req.route = .ok ing ∧
    (∃ rv, c.deployments.get req.app.org req.app.name
      = some (SimCluster.admitDeployment req.app.org rv (d.SetOwnerReferences [owner]))) ∧
    (∃ rv ip, c.services.get req.app.org req.app.name
      = some (SimCluster.admitService req.app.org rv
          { svc.SetOwnerReferences [owner] with
            spec := { (svc.SetOwnerReferences [owner]).spec with clusterIP := ip } })) ∧
    (∃ rv, c.ingresses.get req.app.org req.app.name
      = some (SimCluster.admitIngress req.app.org rv (ing.SetOwnerReferences [owner]))) ∧
    c.stagingClean req

/-- The owner reference `Deploy` makes from an application resource. -/
def ApplicationCR.ownerReference (cr : ApplicationCR) : OwnerReference :=
  { apiVersion := cr.apiVersion, kind := cr.kind, name := cr.name, uid := cr.uid }

/-! ## Label sets -/

/-- The map lookup `m[k]`, with `none` for a key that is not present. -/
def StringMap.get (m : StringMap) (k : String) : Option String :=
  List.lookup k m

/-- Every key of `sel` is present in `labels` with the same value: a selector
`sel` selects an object that carries `labels`. -/
def StringMap.selects (sel labels : StringMap) : Prop :=
  ∀ kv ∈ sel, labels.get kv.1 = some kv.2

/-- Deploy parameters for the application of the examples. -/
def demoParams : deployParam :=
  { appRef := demoApp, git := none, route := "demo.example.org",
    imageURL := "registry.local/apps/demo", instances := 2, domain := "example.org",
    stage := { id := "" }, owner := demoOwner, environment := [] }

/-! ## Concrete inputs for the failing requests -/

/-- A cluster in which no application is registered. -/
def strangerCluster : SimCluster := { emptyCluster with applications := [] }

/-- A cluster whose lookup of the application resource always fails with the
error `err`; everything else is the cluster of section 6. -/
def lookupFailsWith (err : GoError) : ClusterAPI SimCluster :=
  { simAPI with applicationGet := fun _ c => (.error err, c) }

/-- The HTTP request of the examples with a body that does not decode. -/
def garbledHTTP : Request :=
  { org := "workspace", app := "demo", body := .ok "instances: thisisnotanumber" }

/-! ## The poll step as a reference definition -/

/-- The result of one poll step. -/
inductive PollOutcome where
  | failed (message : String)
  | succeeded
  | keepPolling
  deriving DecidableEq, Repr

/-- A run is terminal when it has a false condition or a completion time. -/
def PipelineRun.terminal (pr : PipelineRun) : Bool :=
  pr.failed || pr.completionTime.isSome

/-- The poll step as a reference definition over the returned list: the first
terminal run in list order decides; it yields `failed` with the message of its
first false condition if it has one, and `succeeded` otherwise; without a
terminal run the result is `keepPolling`. -/
def pollReference (runs : List PipelineRun) : PollOutcome :=
  match runs.find? PipelineRun.terminal with
  | none => .keepPolling
  | some pr =>
    match pr.conditions.find? Condition.IsFalse with
    | some cond => .failed cond.message
    | none => .succeeded

/-- The Go result `(done, err)` of the poll function that stands for an
outcome. -/
def PollOutcome.toGo : PollOutcome → Bool × Option GoError
  | .failed message => (false, some (GoError.new message))
  | .succeeded => (true, none)
  | .keepPolling => (false, none)

/-- A run that is still running: one condition of unknown status, no completion
time. -/
def pendingRun : PipelineRun :=
  { conditions := [{ status := "Unknown", message := "Running" }], completionTime := none }

/-- A run with a false condition and a completion time. -/
def failedCompletedRun : PipelineRun :=
  { conditions := [{ status := "True", message := "started" },
                   { status := "False", message := "step build exited with code 1" }],
    completionTime := some 57 }

/-! ## The cleanup call in a record of calls -/

/-- The three kinds of object `Deploy` applies. -/
inductive Kind where
  | workload
  | service
  | ingress
  deriving DecidableEq, Repr

/-- The place of a kind in the body of `Deploy`: the workload is applied first,
then the service, then the ingress. -/
def Kind.stage : Kind → Nat
  | .workload => 1
  | .service => 2
  | .ingress => 3

/-- The kind of object a `Create` or an `Update` call applies. -/
def Call.applies : Call → Option Kind
  | .deploymentCreate _ _ | .deploymentUpdate _ _ => some .workload
  | .serviceCreate _ _ | .serviceUpdate _ _ => some .service
  | .ingressCreate _ _ | .ingressUpdate _ _ => some .ingress
  | _ => none

/-- The place of a call in the body of `Deploy`: 0 for the lookups before the
three objects, the stage of the kind for a call on the workload, the service or
the ingress in the apply part, 4 for the cleanup. -/
def Call.stage : Call → Nat
  | .deploymentCreate _ _ | .deploymentUpdate _ _ => 1
  | .serviceCreate _ _ | .serviceGet _ _ | .serviceUpdate _ _ => 2
  | .ingressCreate _ _ | .ingressUpdate _ _ => 3
  | .unstage _ _ => 4
  | _ => 0

/-- The cleanup call, `application.Unstage`. -/
def Call.isUnstage : Call → Bool
  | .unstage _ _ => true
  | _ => false

/-- The object of the kind was applied successfully: the record holds a `Create`
or an `Update` of that kind that returned without error. -/
def applied (kind : Kind) (evs : List Event) : Prop :=
  ∃ ev ∈ evs, ev.reply = .done ∧ ev.call.applies = some kind

/-- The objects of every kind from stage `k` on were applied successfully. -/
def AppliedFrom (k : Nat) (evs : List Event) : Prop :=
  ∀ kind : Kind, k ≤ kind.stage → applied kind evs

/-- What `Deploy` returns when the call of the event is its last one and is the
cleanup: the internal error of its failure, or success. -/
def Reply.cleanupOutcome : Reply → Outcome
  | .failed err => .returned (some (.InternalError err []))
  | _ => .returned none

/-- What the part of the record made from stage `k` on says about the cleanup:
it is called exactly when the stage id is not empty and the objects from stage
`k` on were applied; it is called for the application and the stage id of the
request; it is the last call and decides the outcome; with an empty stage id
the outcome is success once the objects were applied; and the outcome is
success only if they were applied. -/
def CleanupSpec (req : DeployRequest) (k : Nat) (out : Outcome) (evs : List Event) : Prop :=
  (∀ ev ∈ evs, k ≤ ev.call.stage) ∧
  ((∃ ev ∈ evs, ev.call.isUnstage = true) ↔ (req.stage.id ≠ "" ∧ AppliedFrom k evs)) ∧
  (∀ ev ∈ evs, ev.call.isUnstage = true → ev.call = .unstage req.app req.stage.id) ∧
  EachEvent evs (fun ev after =>
    ev.call.isUnstage = true → after = [] ∧ out = ev.reply.cleanupOutcome) ∧
  (req.stage.id = "" → AppliedFrom k evs → out = .returned none) ∧
  (out = .returned none → AppliedFrom k evs)

/-- The same cluster with a cleanup of staging runs that does nothing and
reports success: a run of `Deploy` against it ends in the state the calls
before the cleanup left. -/
def skipCleanup {σ : Type} (api : ClusterAPI σ) : ClusterAPI σ :=
  { api with unstage := fun _ _ s => (none, s) }

/-- How a run of a part of `Deploy`, with its record, relates to the run `base`
of the same part against the cluster whose cleanup does nothing and is not
recorded, both started with the record `log`: the record of `base` has no
cleanup call after `log`, and either the two runs are the same, or the run is
`base` followed by one last call, the cleanup for the application and the stage
id of the request, made on the state `base` left; the outcome is decided by its
reply and the final state is the state it returned. -/
def CleanupLast {σ : Type} (api : ClusterAPI σ) (req : DeployRequest) (log : List Event)
    (run base : Outcome × σ × List Event) : Prop :=
  ∃ evs, base.2.2 = log ++ evs ∧ (∀ ev ∈ evs, ev.call.isUnstage = false) ∧
    (run = base ∨
      (run.2.2 = base.2.2 ++
          [⟨.unstage req.app req.stage.id,
            Reply.ofError (api.unstage req.app req.stage.id base.2.1).1⟩] ∧
        run.2.1 = (api.unstage req.app req.stage.id base.2.1).2 ∧
        run.1 = (Reply.ofError (api.unstage req.app req.stage.id base.2.1).1).cleanupOutcome))

/-- A cluster whose cleanup of staging runs always fails; everything else is
the cluster of section 6. -/
def brokenUnstageAPI : ClusterAPI SimCluster :=
  { simAPI with
    unstage := fun _ _ c => (some (.status .unknown "pipelineruns: request timed out"), c) }

/-! ## A client that wraps errors -/

/-- The cluster of section 6 behind a client that wraps the error of a failed
`Create` of the workload with a message. -/
def wrappingCreateAPI : ClusterAPI SimCluster :=
  { simAPI with
    deploymentCreate := fun ns d c =>
      ((simAPI.deploymentCreate ns d c).1.map (fun err => .wrap err "creating the workload"),
        (simAPI.deploymentCreate ns d c).2) }

/-! ## The workload in a record of calls -/

/-- The record is the events `pre`, then the `Create`, made on the state `s`,
of a workload named after the application of the request with replica count
`count`, then the rest of the record. -/
def CreatedWith {σ : Type} (api : ClusterAPI σ) (req : DeployRequest) (count : Int)
    (pre : List Event) (s : σ) (evs : List Event) : Prop :=
  ∃ d rest, d.objectMeta.name = req.app.name ∧ d.spec.replicas = some count ∧
    evs = pre ++ ⟨.deploymentCreate req.app.org d,
      Reply.ofError (api.deploymentCreate req.app.org d s).1⟩ :: rest

/-- The workload stored in the cluster left by the first deploy of the
examples: the workload handed to `Create`, in its namespace, with the version
token the cluster gave it. -/
def storedDeployment : Deployment :=
  { demoDeployment with
    objectMeta :=
      { demoDeployment.objectMeta with nameSpace := "workspace", resourceVersion := "1" } }

end Epinio

/-! # Theorems -/

namespace Epinio

/-! ## The error predicates -/

theorem IsNotFound_wrap (cause : GoError) (msg : String) :
    IsNotFound (.wrap cause msg) = IsNotFound cause := rfl

theorem IsAlreadyExists_wrap (cause : GoError) (msg : String) :
    IsAlreadyExists (.wrap cause msg) = IsAlreadyExists cause := rfl

theorem IsNotFound_status (reason : StatusReason) (msg : String) :
    IsNotFound (.status reason msg) = decide (reason = .notFound) := by
  cases reason <;> rfl

theorem IsAlreadyExists_status (reason : StatusReason) (msg : String) :
    IsAlreadyExists (.status reason msg) = decide (reason = .alreadyExists) := by
  cases reason <;> rfl

/-! ## The poll function -/

theorem scanConditions_eq_none {cs : List Condition} :
    scanConditions cs = none ↔ ∀ c ∈ cs, c.IsFalse = false := by
  induction cs with
  | nil => simp [scanConditions]
  | cons c cs ih =>
    unfold scanConditions
    cases h : c.IsFalse <;> simp [h, ih]

theorem scanConditions_first (before after : List Condition) (c : Condition)
    (hb : ∀ b ∈ before, b.IsFalse = false) (hc : c.IsFalse = true) :
    scanConditions (before ++ c :: after) = some (GoError.new c.message) := by
  induction before with
  | nil => simp [scanConditions, hc]
  | cons b bs ih =>
    have hb0 : b.IsFalse = false := hb b (by simp)
    have hbs : ∀ x ∈ bs, x.IsFalse = false := fun x hx => hb x (by simp [hx])
    simp [scanConditions, hb0, ih hbs]

theorem failed_eq_false_iff {pr : PipelineRun} :
    pr.failed = false ↔ scanConditions pr.conditions = none := by
  rw [scanConditions_eq_none]
  simp [PipelineRun.failed]

theorem failed_scanConditions {pr : PipelineRun} (h : pr.failed = true) :
    ∃ err, scanConditions pr.conditions = some err := by
  cases hs : scanConditions pr.conditions with
  | none => rw [← failed_eq_false_iff] at hs; simp [hs] at h
  | some err => exact ⟨err, rfl⟩

theorem scanRuns_done {runs : List PipelineRun} (h : (scanRuns runs).1 = true) :
    ∃ r ∈ runs, r.completionTime.isSome = true ∧ ∀ c ∈ r.conditions, c.IsFalse = false := by
  induction runs with
  | nil => simp [scanRuns] at h
  | cons pr rest ih =>
    unfold scanRuns at h
    cases hs : scanConditions pr.conditions with
    | some err => simp [hs] at h
    | none =>
      simp only [hs] at h
      cases hc : pr.completionTime.isSome with
      | true => exact ⟨pr, by simp, hc, scanConditions_eq_none.mp hs⟩
      | false =>
        simp [hc] at h
        obtain ⟨r, hr, h1, h2⟩ := ih h
        exact ⟨r, by simp [hr], h1, h2⟩

theorem scanRuns_skip_running (before rest : List PipelineRun)
    (hb : ∀ p ∈ before, p.running = true) :
    scanRuns (before ++ rest) = scanRuns rest := by
  induction before with
  | nil => rfl
  | cons p ps ih =>
    have hp : p.running = true := hb p (by simp)
    simp only [PipelineRun.running, Bool.and_eq_true, Bool.not_eq_true'] at hp
    have hs : scanConditions p.conditions = none := failed_eq_false_iff.mp hp.1
    have hps : ∀ x ∈ ps, x.running = true := fun x hx => hb x (by simp [hx])
    simp [scanRuns, hs, hp.2, ih hps]

theorem pollFunc_done {listed : ListResult} (h : (pollFunc listed).1 = true) :
    ∃ items, listed = .ok items ∧ ∃ r ∈ items,
      r.completionTime.isSome = true ∧ ∀ c ∈ r.conditions, c.IsFalse = false := by
  cases listed with
  | error err => simp [pollFunc] at h
  | ok items =>
    refine ⟨items, rfl, ?_⟩
    unfold pollFunc at h
    by_cases h0 : items.length = 0
    · simp [h0] at h
    · simp only [h0, if_false] at h
      exact scanRuns_done h

/-! ## The wait loop -/

theorem PollImmediate_success {α : Type} (condition : α → Bool × Option GoError)
    (obs : List α) (h : (PollImmediate condition obs).1 = none) :
    ∃ before last, obs = before ++ last :: (PollImmediate condition obs).2 ∧
      condition last = (true, none) ∧ ∀ b ∈ before, condition b = (false, none) := by
  induction obs with
  | nil => simp [PollImmediate] at h
  | cons o later ih =>
    unfold PollImmediate at h ⊢
    rcases hc : condition o with ⟨done, _ | err⟩
    · cases done with
      | true => exact ⟨[], o, by simp, hc, by simp⟩
      | false =>
        simp only [hc] at h ⊢
        obtain ⟨before, last, h1, h2, h3⟩ := ih h
        refine ⟨o :: before, last, by simpa using h1, h2, ?_⟩
        intro b hb
        rcases List.mem_cons.mp hb with rfl | hb
        · exact hc
        · exact h3 b hb
    · simp [hc] at h

theorem PollImmediate_skip {α : Type} (condition : α → Bool × Option GoError)
    (before rest : List α) (hb : ∀ b ∈ before, condition b = (false, none)) :
    PollImmediate condition (before ++ rest) = PollImmediate condition rest := by
  induction before with
  | nil => rfl
  | cons b bs ih =>
    have h0 : condition b = (false, none) := hb b (by simp)
    have hbs : ∀ x ∈ bs, condition x = (false, none) := fun x hx => hb x (by simp [hx])
    simp [PollImmediate, h0, ih hbs]

theorem stageLogs_err_none (c : EpinioClient) (id : String) :
    (stageLogs c id).err = none ↔ (waitForPipelineRun c id).1 = none := by
  unfold stageLogs
  cases (waitForPipelineRun c id).1 <;> simp

/-! ## Claims about the staging coordinator -/

/-- C6: if the wait (or `stageLogs`, the `Await`) reports success, then the last
poll made returned a list holding a run whose completion time is set and none
of whose conditions is false; hence the polls made did not all return the
empty list. -/
theorem C6_success_only_after_completed_run (c : EpinioClient) (id : String)
    (h : (waitForPipelineRun c id).1 = none ∨ (stageLogs c id).err = none) :
    ∃ before last items r,
      c.pipelineRuns = before ++ last :: (waitForPipelineRun c id).2 ∧
      last (EpinioStageIDLabel ++ "=" ++ id) = .ok items ∧
      r ∈ items ∧ r.completionTime ≠ none ∧ (∀ cond ∈ r.conditions, cond.IsFalse = false) ∧
      ¬ (∀ a ∈ before ++ [last], a (EpinioStageIDLabel ++ "=" ++ id) = .ok []) := by
  have hw : (waitForPipelineRun c id).1 = none := by
    rcases h with h | h
    · exact h
    · exact (stageLogs_err_none c id).mp h
  unfold waitForPipelineRun at hw ⊢
  cases hn : c.newForConfig with
  | some err => simp [hn] at hw
  | none =>
    simp only [hn] at hw ⊢
    obtain ⟨before, last, h1, h2, _⟩ := PollImmediate_success _ _ hw
    have h2b : pollFunc (last (EpinioStageIDLabel ++ "=" ++ id)) = (true, none) := h2
    have hd : (pollFunc (last (EpinioStageIDLabel ++ "=" ++ id))).1 = true := by
      rw [h2b]
    obtain ⟨items, hi, r, hr, hct, hcs⟩ := pollFunc_done hd
    refine ⟨before, last, items, r, h1, hi, hr, ?_, hcs, ?_⟩
    · intro hnone
      simp [hnone] at hct
    · intro hall
      have := hall last (by simp)
      rw [hi] at this
      injection this with this
      subst this
      simp at hr

/-- Witness of C6 on the scenario of the spec. -/
theorem C6_success_only_after_completed_run_witness :
    ∃ before last items r,
      scenarioClient.pipelineRuns
        = before ++ last :: (waitForPipelineRun scenarioClient "abc123").2 ∧
      last (EpinioStageIDLabel ++ "=" ++ "abc123") = .ok items ∧
      r ∈ items ∧ r.completionTime ≠ none ∧ (∀ cond ∈ r.conditions, cond.IsFalse = false) ∧
      ¬ (∀ a ∈ before ++ [last], a (EpinioStageIDLabel ++ "=" ++ "abc123") = .ok []) :=
  C6_success_only_after_completed_run scenarioClient "abc123" (Or.inl (by decide))

/-- C7, as stated, fails: in the list `[completedRun, brokenRun]` a run has a
false condition, yet the poll function returns `(true, nil)`, success. -/
theorem C7_counterexample :
    (∃ r ∈ [completedRun, brokenRun], r.failed = true) ∧
      pollFunc (.ok [completedRun, brokenRun]) = (true, none) := by
  refine ⟨⟨brokenRun, by simp, by decide⟩, by decide⟩

/-- C7, amended: if a run of the polled list has a false condition and no run
standing before it completed cleanly (completion time set, no false condition),
the poll function returns an error: not success, not keep-polling. -/
theorem C7_failed_run_not_preceded_by_success (before after : List PipelineRun)
    (r : PipelineRun) (hr : r.failed = true)
    (hb : ∀ p ∈ before, p.succeeded = false) :
    ∃ err, pollFunc (.ok (before ++ r :: after)) = (false, some err) := by
  have hscan : ∃ err, scanRuns (before ++ r :: after) = (false, some err) := by
    induction before with
    | nil =>
      obtain ⟨err, he⟩ := failed_scanConditions hr
      exact ⟨err, by simp [scanRuns, he]⟩
    | cons p ps ih =>
      have hp : p.succeeded = false := hb p (by simp)
      have hps : ∀ x ∈ ps, x.succeeded = false := fun x hx => hb x (by simp [hx])
      obtain ⟨err, he⟩ := ih hps
      cases hs : scanConditions p.conditions with
      | some e => exact ⟨e, by simp [scanRuns, hs]⟩
      | none =>
        have hf : p.failed = false := failed_eq_false_iff.mpr hs
        have hct : p.completionTime.isSome = false := by
          simpa [PipelineRun.succeeded, hf] using hp
        exact ⟨err, by simpa [scanRuns, hs, hct] using he⟩
  have hlen : (before ++ r :: after).length ≠ 0 := by simp
  simpa only [pollFunc, hlen, if_false] using hscan

/-- Witness of the amended C7: the failing run stands first. -/
theorem C7_failed_run_not_preceded_by_success_witness :
    ∃ err, pollFunc (.ok ([] ++ brokenRun :: [completedRun])) = (false, some err) :=
  C7_failed_run_not_preceded_by_success [] [completedRun] brokenRun (by decide) (by simp)

/-- C8, as stated, fails: the run's condition list holds a false condition with
message `second failure`, and the wait and `stageLogs` report `first failure`. -/
theorem C8_counterexample :
    (∃ cond ∈ twiceBrokenRun.conditions,
        cond.IsFalse = true ∧ cond.message = "second failure") ∧
      (waitForPipelineRun twiceBrokenClient "abc123").1
        = some (GoError.new "first failure") ∧
      (stageLogs twiceBrokenClient "abc123").err
        = some (GoError.wrap (GoError.new "first failure") "waiting for staging failed") ∧
      GoError.new "first failure" ≠ GoError.new "second failure" := by
  refine ⟨⟨⟨"False", "second failure"⟩, by simp [twiceBrokenRun], by decide, rfl⟩,
    by decide, by decide, by decide⟩

/-- C8, amended: when the earlier polls kept polling, the runs listed before
run `r` are still running, and `cond` is the first false condition of `r`, the
wait fails with an error whose text is exactly the message of `cond`, and
`stageLogs` reports that error wrapped under `waiting for staging failed`,
whose cause carries exactly that message. -/
theorem C8_first_failed_message_verbatim (c : EpinioClient) (id : String)
    (earlier later : List (String → ListResult)) (last : String → ListResult)
    (pre post : List PipelineRun) (r : PipelineRun)
    (cs1 cs2 : List Condition) (cond : Condition)
    (hcfg : c.newForConfig = none)
    (hruns : c.pipelineRuns = earlier ++ last :: later)
    (hearlier : ∀ a ∈ earlier, pollFunc (a (EpinioStageIDLabel ++ "=" ++ id)) = (false, none))
    (hlast : last (EpinioStageIDLabel ++ "=" ++ id) = .ok (pre ++ r :: post))
    (hpre : ∀ p ∈ pre, p.running = true)
    (hconds : r.conditions = cs1 ++ cond :: cs2)
    (hcs1 : ∀ x ∈ cs1, x.IsFalse = false)
    (hcond : cond.IsFalse = true) :
    waitForPipelineRun c id = (some (GoError.new cond.message), later) ∧
      (GoError.new cond.message).Error = cond.message ∧
      (stageLogs c id).err
        = some (GoError.wrap (GoError.new cond.message) "waiting for staging failed") ∧
      (GoError.wrap (GoError.new cond.message) "waiting for staging failed").Cause.Error
        = cond.message := by
  have hpoll : pollFunc (last (EpinioStageIDLabel ++ "=" ++ id))
      = (false, some (GoError.new cond.message)) := by
    have hlen : (pre ++ r :: post).length ≠ 0 := by simp
    rw [hlast]
    simp only [pollFunc, hlen, if_false]
    rw [scanRuns_skip_running pre (r :: post) hpre]
    simp [scanRuns, hconds, scanConditions_first cs1 cs2 cond hcs1 hcond]
  have hw : waitForPipelineRun c id = (some (GoError.new cond.message), later) := by
    unfold waitForPipelineRun
    simp only [hcfg, hruns]
    rw [PollImmediate_skip _ earlier (last :: later) hearlier]
    simp [PollImmediate, hpoll]
  refine ⟨hw, rfl, ?_, rfl⟩
  simp [stageLogs, hw]

/-- Witness of the amended C8: a run with two false conditions reports the
first one. -/
theorem C8_first_failed_message_verbatim_witness :
    waitForPipelineRun twiceBrokenClient "abc123"
        = (some (GoError.new "first failure"), []) ∧
      (GoError.new "first failure").Error = "first failure" ∧
      (stageLogs twiceBrokenClient "abc123").err
        = some (GoError.wrap (GoError.new "first failure") "waiting for staging failed") ∧
      (GoError.wrap (GoError.new "first failure") "waiting for staging failed").Cause.Error
        = "first failure" :=
  C8_first_failed_message_verbatim twiceBrokenClient "abc123" [] []
    (answerFor [twiceBrokenRun]) [] [] twiceBrokenRun []
    [{ status := "False", message := "second failure" }]
    { status := "False", message := "first failure" }
    rfl rfl (by simp) (by simp [answerFor, abcSelector, EpinioStageIDLabel]) (by simp) rfl
    (by simp) (by decide)

/-- C9: when the first `k` polls return no matching run and the next poll
returns a list whose first run that is not still running has its completion
time set and no false condition, the wait makes exactly `k + 1` polls, each of
the first `k` yields keep-polling, and the wait and `stageLogs` return success
leaving every later answer unpolled. -/
theorem C9_success_at_first_completed_poll (c : EpinioClient) (id : String) (k : Nat)
    (earlier later : List (String → ListResult)) (last : String → ListResult)
    (pre post : List PipelineRun) (r : PipelineRun)
    (hcfg : c.newForConfig = none)
    (hruns : c.pipelineRuns = earlier ++ last :: later)
    (hk : earlier.length = k)
    (hearlier : ∀ a ∈ earlier, a (EpinioStageIDLabel ++ "=" ++ id) = .ok [])
    (hlast : last (EpinioStageIDLabel ++ "=" ++ id) = .ok (pre ++ r :: post))
    (hpre : ∀ p ∈ pre, p.running = true)
    (hdone : r.completionTime.isSome = true)
    (hclean : ∀ cond ∈ r.conditions, cond.IsFalse = false) :
    waitForPipelineRun c id = (none, later) ∧
      pollsMade c id = k + 1 ∧
      (∀ a ∈ earlier, pollFunc (a (EpinioStageIDLabel ++ "=" ++ id)) = (false, none)) ∧
      (stageLogs c id).err = none := by
  have hkeep : ∀ a ∈ earlier,
      pollFunc (a (EpinioStageIDLabel ++ "=" ++ id)) = (false, none) := by
    intro a ha
    rw [hearlier a ha]
    rfl
  have hpoll : pollFunc (last (EpinioStageIDLabel ++ "=" ++ id)) = (true, none) := by
    have hlen : (pre ++ r :: post).length ≠ 0 := by simp
    rw [hlast]
    simp only [pollFunc, hlen, if_false]
    rw [scanRuns_skip_running pre (r :: post) hpre]
    simp [scanRuns, scanConditions_eq_none.mpr hclean, hdone]
  have hw : waitForPipelineRun c id = (none, later) := by
    unfold waitForPipelineRun
    simp only [hcfg, hruns]
    rw [PollImmediate_skip _ earlier (last :: later) hkeep]
    simp [PollImmediate, hpoll]
  refine ⟨hw, ?_, hkeep, (stageLogs_err_none c id).mpr (by rw [hw])⟩
  simp only [pollsMade, hw, hruns, List.length_append, List.length_cons, hk]
  omega

/-- Witness of C9: the scenario of the spec, stage id `abc123`, `k = 3`. -/
theorem C9_success_at_first_completed_poll_witness :
    waitForPipelineRun scenarioClient "abc123" = (none, [answerFor [brokenRun]]) ∧
      pollsMade scenarioClient "abc123" = 3 + 1 ∧
      (∀ a ∈ [answerFor [], answerFor [], answerFor []],
        pollFunc (a (EpinioStageIDLabel ++ "=" ++ "abc123")) = (false, none)) ∧
      (stageLogs scenarioClient "abc123").err = none :=
  C9_success_at_first_completed_poll scenarioClient "abc123" 3
    [answerFor [], answerFor [], answerFor []] [answerFor [brokenRun]]
    (answerFor [completedRun]) [] [] completedRun
    rfl rfl rfl (by simp [answerFor, abcSelector, EpinioStageIDLabel])
    (by simp [answerFor, abcSelector, EpinioStageIDLabel]) (by simp) (by decide) (by decide)

/-! ## Claims about the validation of a deploy request -/

/-- C1: a deploy request whose body decodes, whose app name and org equal those
of the URL and whose instance count is present and negative is answered with
the bad-request error of title `instances param should be integer equal or
greater than zero`, and neither the cluster state nor the record of calls
changes: no call is made. -/
theorem C1_negative_instances_rejected {σ : Type} (m : Models) (api : ClusterAPI σ)
    (r : Request) (s : σ) (log : List Event) (bodyBytes : String) (req : DeployRequest)
    (n : Int)
    (hbody : r.body = .ok bodyBytes) (hdecode : m.unmarshal bodyBytes = .ok req)
    (hname : r.app = req.app.name) (horg : r.org = req.app.org)
    (hinst : req.instances = some n) (hneg : n < 0) :
    Deploy m (traced api) r (s, log)
        = (.returned (some (.NewBadRequest
            "instances param should be integer equal or greater than zero" [])), (s, log)) ∧
      Deploy m api r s
        = (.returned (some (.NewBadRequest
            "instances param should be integer equal or greater than zero" [])), s) ∧
      (APIError.NewBadRequest
        "instances param should be integer equal or greater than zero" []).status = 400 ∧
      (APIError.NewBadRequest
        "instances param should be integer equal or greater than zero" []).title
        = "instances param should be integer equal or greater than zero" := by
  refine ⟨?_, ?_, rfl, rfl⟩ <;>
  simp [Deploy, hbody, hdecode, hname, horg, hinst, hneg]

/-- C2: a deploy request whose body names another app, or another org, than the
URL is answered with a bad-request error, whatever its instance count, and
neither the cluster state nor the record of calls changes: no call is made. -/
theorem C2_mismatched_appref_rejected {σ : Type} (m : Models) (api : ClusterAPI σ)
    (r : Request) (s : σ) (log : List Event) (bodyBytes : String) (req : DeployRequest)
    (hbody : r.body = .ok bodyBytes) (hdecode : m.unmarshal bodyBytes = .ok req)
    (hdiff : r.app ≠ req.app.name ∨ r.org ≠ req.app.org) :
    ∃ msg,
      (msg = "name parameter from URL does not match name param in body" ∨
        msg = "org parameter from URL does not match org param in body") ∧
      Deploy m (traced api) r (s, log)
        = (.returned (some (.NewBadRequest msg [])), (s, log)) ∧
      Deploy m api r s = (.returned (some (.NewBadRequest msg [])), s) ∧
      (APIError.NewBadRequest msg []).status = 400 := by
  by_cases hname : r.app = req.app.name
  · have horg : r.org ≠ req.app.org := by
      rcases hdiff with h | h
      · exact absurd hname h
      · exact h
    refine ⟨"org parameter from URL does not match org param in body", Or.inr rfl,
      ?_, ?_, rfl⟩ <;>
    simp [Deploy, hbody, hdecode, hname, horg]
  · refine ⟨"name parameter from URL does not match name param in body", Or.inl rfl,
      ?_, ?_, rfl⟩ <;>
    simp [Deploy, hbody, hdecode, hname]

/-! ## The record of calls of `Deploy` -/

theorem eachEvent_nil (Q : Event → List Event → Prop) : EachEvent [] Q := by
  intro before ev after h
  simp at h

theorem eachEvent_cons (x : Event) (l : List Event) (Q : Event → List Event → Prop) :
    EachEvent (x :: l) Q ↔ Q x l ∧ EachEvent l Q := by
  constructor
  · intro h
    exact ⟨h [] x l rfl, fun before ev after hl => h (x :: before) ev after (by simp [hl])⟩
  · rintro ⟨hx, hl⟩ before ev after h
    rcases before with _ | ⟨b, bs⟩
    · simp at h
      obtain ⟨rfl, rfl⟩ := h
      exact hx
    · simp at h
      exact hl bs ev after h.2

theorem cleanup_aborts {σ : Type} (api : ClusterAPI σ) (req : DeployRequest) (s : σ)
    (log : List Event) :
    ∃ evs, (deployCleanup (traced api) req (s, log)).2.2 = log ++ evs ∧
      EachEvent evs (AbortsAt (deployCleanup (traced api) req (s, log)).1) := by
  unfold deployCleanup
  by_cases hid : req.stage.id = ""
  · exact ⟨[], by simp [hid], eachEvent_nil _⟩
  · simp only [ne_eq, hid, not_false_eq_true, if_true, traced, record]
    rcases api.unstage req.app req.stage.id s with ⟨_ | err, s1⟩ <;>
    · refine ⟨[_], by simp; rfl, ?_⟩
      simp [eachEvent_cons, eachEvent_nil, AbortsAt, Event.abortsWith, Call.onObject]

theorem ingress_aborts {σ : Type} (api : ClusterAPI σ) (req : DeployRequest)
    (owner : OwnerReference) (s : σ) (log : List Event) :
    ∃ evs, (deployIngress (traced api) req owner (s, log)).2.2 = log ++ evs ∧
      EachEvent evs (AbortsAt (deployIngress (traced api) req owner (s, log)).1) := by
  unfold deployIngress
  rcases hb : newAppIngress req.app req.route with berr | ing
  · simp [newAppIngress] at hb
  simp only [traced, record]
  generalize ing.SetOwnerReferences [owner] = ing1
  rcases api.ingressCreate req.app.org ing1 s with ⟨_ | err, s1⟩
  · obtain ⟨evs, h1, h2⟩ := cleanup_aborts api req s1 (log ++ [⟨Call.ingressCreate _ _, .done⟩])
    refine ⟨_ :: evs, by simpa [traced, record] using h1, ?_⟩
    rw [eachEvent_cons]
    exact ⟨by simp [AbortsAt, Event.abortsWith, Reply.ofError], h2⟩
  · simp only []
    by_cases hae : IsAlreadyExists err = true
    · simp only [hae, if_true]
      rcases api.ingressUpdate req.app.org _ s1 with ⟨_ | err2, s2⟩
      · obtain ⟨evs, h1, h2⟩ := cleanup_aborts api req s2
          (log ++ [⟨Call.ingressCreate _ _, .failed err⟩] ++ [⟨Call.ingressUpdate _ _, .done⟩])
        refine ⟨_ :: _ :: evs, by simpa [traced, record] using h1, ?_⟩
        rw [eachEvent_cons, eachEvent_cons]
        exact ⟨by simp [AbortsAt, Event.abortsWith, Reply.ofError, Call.isCreate, hae],
          by simp [AbortsAt, Event.abortsWith, Reply.ofError], h2⟩
      · refine ⟨[_, _], List.append_assoc _ _ _, ?_⟩
        simp [eachEvent_cons, eachEvent_nil, AbortsAt, Event.abortsWith, Reply.ofError,
          Call.isCreate, hae]
    · simp only [hae]
      refine ⟨[_], by simp; rfl, ?_⟩
      simp [eachEvent_cons, eachEvent_nil, AbortsAt, Event.abortsWith, Reply.ofError]

theorem service_aborts {σ : Type} (api : ClusterAPI σ) (req : DeployRequest)
    (owner : OwnerReference) (s : σ) (log : List Event) :
    ∃ evs, (deployService (traced api) req owner (s, log)).2.2 = log ++ evs ∧
      EachEvent evs (AbortsAt (deployService (traced api) req owner (s, log)).1) := by
  unfold deployService
  rcases hb : newAppService req.app with berr | svc
  · simp [newAppService] at hb
  simp only [traced, record]
  generalize svc.SetOwnerReferences [owner] = svc1
  rcases api.serviceCreate req.app.org svc1 s with ⟨_ | err, s1⟩
  · obtain ⟨evs, h1, h2⟩ := ingress_aborts api req owner s1
      (log ++ [⟨Call.serviceCreate _ _, .done⟩])
    refine ⟨_ :: evs, by simpa [traced, record] using h1, ?_⟩
    rw [eachEvent_cons]
    exact ⟨by simp [AbortsAt, Event.abortsWith, Reply.ofError], h2⟩
  · simp only []
    by_cases hae : IsAlreadyExists err = true
    · simp only [hae, if_true]
      rcases api.serviceGet req.app.org _ s1 with ⟨err2 | service, s2⟩
      · refine ⟨[_, _], List.append_assoc _ _ _, ?_⟩
        simp [eachEvent_cons, eachEvent_nil, AbortsAt, Event.abortsWith, Reply.ofError,
          Reply.ofExcept, Call.isCreate, Call.isDeploymentGet, hae]
      · simp only []
        rcases api.serviceUpdate req.app.org _ s2 with ⟨_ | err3, s3⟩
        · obtain ⟨evs, h1, h2⟩ := ingress_aborts api req owner s3
            (log ++ [⟨Call.serviceCreate _ _, .failed err⟩]
              ++ [⟨Call.serviceGet _ _, .service service⟩] ++ [⟨Call.serviceUpdate _ _, .done⟩])
          refine ⟨_ :: _ :: _ :: evs, by simpa [traced, record] using h1, ?_⟩
          rw [eachEvent_cons, eachEvent_cons, eachEvent_cons]
          exact ⟨by simp [AbortsAt, Event.abortsWith, Reply.ofError, Call.isCreate, hae],
            by simp [AbortsAt, Event.abortsWith, Reply.ofExcept],
            by simp [AbortsAt, Event.abortsWith, Reply.ofError], h2⟩
        · refine ⟨[_, _, _], by simp only [List.append_assoc]; rfl, ?_⟩
          simp [eachEvent_cons, eachEvent_nil, AbortsAt, Event.abortsWith, Reply.ofError,
            Reply.ofExcept, Call.isCreate, hae]
    · simp only [hae]
      refine ⟨[_], by simp; rfl, ?_⟩
      simp [eachEvent_cons, eachEvent_nil, AbortsAt, Event.abortsWith, Reply.ofError]

theorem workload_aborts {σ : Type} (m : Models) (api : ClusterAPI σ) (req : DeployRequest)
    (owner : OwnerReference) (deployParams : deployParam) (s : σ) (log : List Event) :
    ∃ evs, (deployWorkload m (traced api) req owner deployParams (s, log)).2.2 = log ++ evs ∧
      EachEvent evs
        (AbortsAt (deployWorkload m (traced api) req owner deployParams (s, log)).1) := by
  unfold deployWorkload
  rcases hb : newAppDeployment m req.stage.id deployParams with berr | d
  · simp [newAppDeployment] at hb
  simp only [traced, record]
  generalize d.SetOwnerReferences [owner] = d1
  rcases api.deploymentCreate req.app.org d1 s with ⟨_ | err, s1⟩
  · obtain ⟨evs, h1, h2⟩ := service_aborts api req owner s1
      (log ++ [⟨Call.deploymentCreate _ _, .done⟩])
    refine ⟨_ :: evs, by simpa [traced, record] using h1, ?_⟩
    rw [eachEvent_cons]
    exact ⟨by simp [AbortsAt, Event.abortsWith, Reply.ofError], h2⟩
  · simp only []
    by_cases hae : IsAlreadyExists err = true
    · simp only [hae, if_true]
      rcases api.deploymentUpdate req.app.org _ s1 with ⟨_ | err2, s2⟩
      · obtain ⟨evs, h1, h2⟩ := service_aborts api req owner s2
          (log ++ [⟨Call.deploymentCreate _ _, .failed err⟩] ++ [⟨Call.deploymentUpdate _ _, .done⟩])
        refine ⟨_ :: _ :: evs, by simpa [traced, record] using h1, ?_⟩
        rw [eachEvent_cons, eachEvent_cons]
        exact ⟨by simp [AbortsAt, Event.abortsWith, Reply.ofError, Call.isCreate, hae],
          by simp [AbortsAt, Event.abortsWith, Reply.ofError], h2⟩
      · refine ⟨[_, _], List.append_assoc _ _ _, ?_⟩
        simp [eachEvent_cons, eachEvent_nil, AbortsAt, Event.abortsWith, Reply.ofError,
          Call.isCreate, hae]
    · simp only [hae]
      refine ⟨[_], by simp; rfl, ?_⟩
      simp [eachEvent_cons, eachEvent_nil, AbortsAt, Event.abortsWith, Reply.ofError]

theorem instances_aborts {σ : Type} (m : Models) (api : ClusterAPI σ) (req : DeployRequest)
    (owner : OwnerReference) (instances : Int) (s : σ) (log : List Event) :
    ∃ evs, (deployInstances m (traced api) req owner instances (s, log)).2.2 = log ++ evs ∧
      EachEvent evs
        (AbortsAt (deployInstances m (traced api) req owner instances (s, log)).1) := by
  unfold deployInstances
  simp only [traced, record]
  rcases api.mainDomain s with ⟨err | dom, s1⟩
  · refine ⟨[_], by simp; rfl, ?_⟩
    simp [eachEvent_cons, eachEvent_nil, AbortsAt, Event.abortsWith, Call.onObject]
  · simp only []
    rcases api.environment req.app s1 with ⟨err | env, s2⟩
    · refine ⟨[_, _], List.append_assoc _ _ _, ?_⟩
      simp [eachEvent_cons, eachEvent_nil, AbortsAt, Event.abortsWith, Call.onObject]
    · obtain ⟨evs, h1, h2⟩ := workload_aborts m api req owner
        { appRef := req.app, git := req.git, route := req.route, owner := owner,
          environment := env, instances := instances, domain := dom,
          imageURL := req.imageURL, stage := { id := "" } } s2
        (log ++ [⟨Call.mainDomain, .domain dom⟩] ++ [⟨Call.environment req.app, .environment env⟩])
      refine ⟨_ :: _ :: evs, by simpa [traced, record] using h1, ?_⟩
      rw [eachEvent_cons, eachEvent_cons]
      exact ⟨by simp [AbortsAt, Event.abortsWith, Call.onObject],
        by simp [AbortsAt, Event.abortsWith, Call.onObject], h2⟩

theorem validated_aborts {σ : Type} (m : Models) (api : ClusterAPI σ) (req : DeployRequest)
    (s : σ) (log : List Event) :
    ∃ evs, (deployValidated m (traced api) req (s, log)).2.2 = log ++ evs ∧
      EachEvent evs (AbortsAt (deployValidated m (traced api) req (s, log)).1) := by
  unfold deployValidated
  simp only [traced, record]
  rcases api.getCluster s with ⟨_ | err, s1⟩
  · simp only []
    rcases api.applicationGet req.app s1 with ⟨err | cr, s2⟩
    · simp only []
      by_cases hnf : IsNotFound err = true
      · simp only [hnf, if_true]
        refine ⟨[_, _], List.append_assoc _ _ _, ?_⟩
        simp [eachEvent_cons, eachEvent_nil, AbortsAt, Event.abortsWith, Call.onObject]
      · simp only [hnf]
        refine ⟨[_, _], List.append_assoc _ _ _, ?_⟩
        simp [eachEvent_cons, eachEvent_nil, AbortsAt, Event.abortsWith, Call.onObject]
    · simp only []
      rcases hinst : req.instances with _ | n
      · simp only [existingReplica, traced, record]
        rcases api.deploymentGet req.app.org req.app.name s2 with ⟨err | d, s3⟩
        · simp only []
          by_cases hnf : IsNotFound err = true
          · simp only [hnf, if_true]
            obtain ⟨evs, h1, h2⟩ := instances_aborts m api req
              { apiVersion := cr.apiVersion, kind := cr.kind, name := cr.name, uid := cr.uid }
              DefaultInstances s3
              (log ++ [⟨Call.getCluster, .done⟩] ++ [⟨Call.applicationGet req.app, .application cr⟩]
                ++ [⟨Call.deploymentGet req.app.org req.app.name, .failed err⟩])
            refine ⟨_ :: _ :: _ :: evs, by simpa [traced, record] using h1, ?_⟩
            rw [eachEvent_cons, eachEvent_cons, eachEvent_cons]
            exact ⟨by simp [AbortsAt, Event.abortsWith, Call.onObject],
              by simp [AbortsAt, Event.abortsWith, Call.onObject],
              by simp [AbortsAt, Event.abortsWith, Call.isDeploymentGet, hnf], h2⟩
          · simp only [hnf]
            refine ⟨[_, _, _], by simp only [List.append_assoc]; rfl, ?_⟩
            simp [eachEvent_cons, eachEvent_nil, AbortsAt, Event.abortsWith, Call.onObject,
              Reply.ofError, Reply.ofExcept]
        · simp only []
          rcases hrep : d.spec.replicas with _ | n
          · refine ⟨[_, _, _], by simp only [List.append_assoc]; rfl, ?_⟩
            simp [eachEvent_cons, eachEvent_nil, AbortsAt, Event.abortsWith, Call.onObject,
              Reply.ofError, Reply.ofExcept]
          · obtain ⟨evs, h1, h2⟩ := instances_aborts m api req
              { apiVersion := cr.apiVersion, kind := cr.kind, name := cr.name, uid := cr.uid }
              n s3
              (log ++ [⟨Call.getCluster, .done⟩] ++ [⟨Call.applicationGet req.app, .application cr⟩]
                ++ [⟨Call.deploymentGet req.app.org req.app.name, .deployment d⟩])
            refine ⟨_ :: _ :: _ :: evs, by simpa [traced, record] using h1, ?_⟩
            rw [eachEvent_cons, eachEvent_cons, eachEvent_cons]
            exact ⟨by simp [AbortsAt, Event.abortsWith, Call.onObject],
              by simp [AbortsAt, Event.abortsWith, Call.onObject],
              by simp [AbortsAt, Event.abortsWith, Reply.ofExcept], h2⟩
      · obtain ⟨evs, h1, h2⟩ := instances_aborts m api req
          { apiVersion := cr.apiVersion, kind := cr.kind, name := cr.name, uid := cr.uid }
          n s2
          (log ++ [⟨Call.getCluster, .done⟩] ++ [⟨Call.applicationGet req.app, .application cr⟩])
        refine ⟨_ :: _ :: evs, by simpa [traced, record] using h1, ?_⟩
        rw [eachEvent_cons, eachEvent_cons]
        exact ⟨by simp [AbortsAt, Event.abortsWith, Call.onObject],
          by simp [AbortsAt, Event.abortsWith, Call.onObject], h2⟩
  · refine ⟨[_], rfl, ?_⟩
    simp [eachEvent_cons, eachEvent_nil, AbortsAt, Event.abortsWith, Call.onObject]

theorem Deploy_cases {σ : Type} (m : Models) (api : ClusterAPI σ) (r : Request) (s : σ) :
    (∃ apiErr, Deploy m api r s = (.returned (some apiErr), s)) ∨
    (∃ bodyBytes req, r.body = .ok bodyBytes ∧ m.unmarshal bodyBytes = .ok req ∧
      r.app = req.app.name ∧ r.org = req.app.org ∧
      (∀ n, req.instances = some n → 0 ≤ n) ∧
      Deploy m api r s = deployValidated m api req s) := by
  unfold Deploy
  cases hb : r.body with
  | error err => exact Or.inl ⟨_, rfl⟩
  | ok bodyBytes =>
    cases hd : m.unmarshal bodyBytes with
    | error err =>
      exact Or.inl
        ⟨.NewBadRequest "Failed to unmarshal deploy request " [err.Error], by simp [hd]⟩
    | ok req =>
      simp only [hd]
      by_cases hname : r.app = req.app.name
      · by_cases horg : r.org = req.app.org
        · cases hi : req.instances with
          | none =>
            exact Or.inr ⟨bodyBytes, req, rfl, hd, hname, horg, by simp [hi],
              by simp [hname, horg, hi]⟩
          | some n =>
            by_cases hn : n < 0
            · exact Or.inl
                ⟨.NewBadRequest "instances param should be integer equal or greater than zero" [],
                  by simp [hname, horg, hi, hn]⟩
            · refine Or.inr ⟨bodyBytes, req, rfl, hd, hname, horg, ?_, by simp [hname, horg, hi, hn]⟩
              intro k hk
              rw [hi] at hk
              injection hk with hk
              omega
        · exact Or.inl
            ⟨.NewBadRequest "org parameter from URL does not match org param in body" [],
              by simp [hname, horg]⟩
      · exact Or.inl
          ⟨.NewBadRequest "name parameter from URL does not match name param in body" [],
            by simp [hname]⟩

theorem deploy_aborts {σ : Type} (m : Models) (api : ClusterAPI σ) (r : Request) (s : σ) :
    EachEvent (Deploy m (traced api) r (s, [])).2.2
      (AbortsAt (Deploy m (traced api) r (s, [])).1) := by
  rcases Deploy_cases m (traced api) r (s, []) with ⟨apiErr, h⟩ | ⟨_, req, _, _, _, _, _, h⟩
  · rw [h]
    exact eachEvent_nil _
  · rw [h]
    obtain ⟨evs, h1, h2⟩ := validated_aborts m api req s []
    rw [h1]
    simpa using h2

/-- C10, as stated, fails: with no instance count in the request and no
workload in the cluster, the `Get` of the workload fails (with not-found), it is
not a `Create`, and `Deploy` goes on with further calls and returns success. -/
theorem C10_counterexample :
    ∃ before ev after err,
      (Deploy (demoModels (demoRequest none "")) (traced simAPI) demoHTTP
        (emptyCluster, [])).2.2 = before ++ ev :: after ∧
      ev.call = .deploymentGet "workspace" "demo" ∧ ev.call.onObject = true ∧
      ev.reply = .failed err ∧
      ¬ (ev.call.isCreate = true ∧ IsAlreadyExists err = true) ∧
      after ≠ [] ∧
      (Deploy (demoModels (demoRequest none "")) (traced simAPI) demoHTTP
        (emptyCluster, [])).1 = .returned none := by
  refine ⟨[⟨.getCluster, .done⟩, ⟨.applicationGet demoApp, .application demoCR⟩],
    ⟨.deploymentGet "workspace" "demo", .failed (SimCluster.errNotFound "demo")⟩,
    ((Deploy (demoModels (demoRequest none "")) (traced simAPI) demoHTTP
        (emptyCluster, [])).2.2).drop 3,
    SimCluster.errNotFound "demo", ?_, rfl, rfl, rfl, ?_, ?_, ?_⟩
  · decide
  · decide
  · decide
  · decide

/-- C10, amended: in every execution of `Deploy`, a `Get`, `Create` or `Update`
call on a deployment, service or ingress that fails with an error other than
already-exists from a `Create` and other than not-found from the `Get` of the
workload (the lookup of the current replica count) is the last call made, and
`Deploy` returns the internal error made from that error. -/
theorem C10_other_failures_abort {σ : Type} (m : Models) (api : ClusterAPI σ)
    (r : Request) (s : σ) (before after : List Event) (ev : Event) (err : GoError)
    (hlog : (Deploy m (traced api) r (s, [])).2.2 = before ++ ev :: after)
    (hobj : ev.call.onObject = true)
    (hfail : ev.reply = .failed err)
    (hcreate : ¬ (ev.call.isCreate = true ∧ IsAlreadyExists err = true))
    (hget : ¬ (ev.call.isDeploymentGet = true ∧ IsNotFound err = true)) :
    after = [] ∧
      (Deploy m (traced api) r (s, [])).1 = .returned (some (.InternalError err [])) :=
  deploy_aborts m api r s before ev after hlog err ⟨hobj, hfail, hcreate, hget⟩

/-- Witness of the amended C10: the `Create` of the ingress fails with a
time-out; it is the seventh and last call and `Deploy` returns the internal
error of that time-out. -/
theorem C10_other_failures_abort_witness :
    ([] : List Event) = [] ∧
      (Deploy (demoModels (demoRequest (some 2) "abc123")) (traced brokenIngressAPI) demoHTTP
        (emptyCluster, [])).1
        = .returned (some
            (.InternalError (.status .unknown "etcdserver: request timed out") [])) :=
  C10_other_failures_abort (demoModels (demoRequest (some 2) "abc123")) brokenIngressAPI
    demoHTTP emptyCluster
    (((Deploy (demoModels (demoRequest (some 2) "abc123")) (traced brokenIngressAPI) demoHTTP
        (emptyCluster, [])).2.2).take 6)
    []
    ⟨.ingressCreate "workspace" demoIngress,
      .failed (.status .unknown "etcdserver: request timed out")⟩
    (.status .unknown "etcdserver: request timed out")
    (by decide) rfl rfl (by decide) (by decide)

theorem cleanup_carries {σ : Type} (api : ClusterAPI σ) (req : DeployRequest) (s : σ)
    (log : List Event) :
    ∃ evs, (deployCleanup (traced api) req (s, log)).2.2 = log ++ evs ∧
      EachEvent evs CarriesForward := by
  unfold deployCleanup
  by_cases hid : req.stage.id = ""
  · exact ⟨[], by simp [hid], eachEvent_nil _⟩
  · simp only [ne_eq, hid, not_false_eq_true, if_true, traced, record]
    rcases api.unstage req.app req.stage.id s with ⟨_ | err, s1⟩ <;>
    · refine ⟨[_], rfl, ?_⟩
      simp [eachEvent_cons, eachEvent_nil, CarriesForward]

theorem ingress_carries {σ : Type} (api : ClusterAPI σ) (req : DeployRequest)
    (owner : OwnerReference) (s : σ) (log : List Event) :
    ∃ evs, (deployIngress (traced api) req owner (s, log)).2.2 = log ++ evs ∧
      EachEvent evs CarriesForward := by
  unfold deployIngress
  rcases hb : newAppIngress req.app req.route with berr | ing
  · simp [newAppIngress] at hb
  have hrv : (ing.SetOwnerReferences [owner]).objectMeta.resourceVersion = "" := by
    simp only [newAppIngress, Except.ok.injEq] at hb
    subst hb
    rfl
  simp only [traced, record]
  generalize ing.SetOwnerReferences [owner] = ing1 at hrv ⊢
  rcases api.ingressCreate req.app.org ing1 s with ⟨_ | err, s1⟩
  · obtain ⟨evs, h1, h2⟩ := cleanup_carries api req s1 (log ++ [⟨Call.ingressCreate _ _, .done⟩])
    refine ⟨_ :: evs, by simpa [traced, record] using h1, ?_⟩
    rw [eachEvent_cons]
    exact ⟨by simp [CarriesForward, Reply.ofError], h2⟩
  · simp only []
    by_cases hae : IsAlreadyExists err = true
    · simp only [hae, if_true]
      rcases api.ingressUpdate req.app.org ing1 s1 with ⟨_ | err2, s2⟩
      · obtain ⟨evs, h1, h2⟩ := cleanup_carries api req s2
          (log ++ [⟨Call.ingressCreate _ _, .failed err⟩] ++ [⟨Call.ingressUpdate _ _, .done⟩])
        refine ⟨_ :: _ :: evs, by simpa [traced, record] using h1, ?_⟩
        rw [eachEvent_cons, eachEvent_cons]
        refine ⟨?_, by simp [CarriesForward, Reply.ofError], h2⟩
        simp [CarriesForward, Reply.ofError, hrv]
      · refine ⟨[_, _], List.append_assoc _ _ _, ?_⟩
        simp [eachEvent_cons, eachEvent_nil, CarriesForward, Reply.ofError, hrv]
    · simp only [hae]
      refine ⟨[_], rfl, ?_⟩
      simp [eachEvent_cons, eachEvent_nil, CarriesForward, Reply.ofError, hae]

theorem carries_serviceCreate (ns : String) (svc : Service) (err : GoError) (reply : Reply)
    (rest : List Event)
    (h : ∀ fetched, reply = .service fetched →
      ∃ reply2 rest2, rest = ⟨.serviceUpdate ns (svc.carrying fetched), reply2⟩ :: rest2) :
    CarriesForward ⟨.serviceCreate ns svc, .failed err⟩
      (⟨.serviceGet ns svc.objectMeta.name, reply⟩ :: rest) := by
  refine ⟨?_, ?_, ?_⟩
  · intro ns2 svc2 err2 heq _
    simp only [Event.mk.injEq, Call.serviceCreate.injEq, Reply.failed.injEq] at heq
    obtain ⟨⟨rfl, rfl⟩, rfl⟩ := heq
    exact ⟨reply, rest, rfl, h⟩
  · intro ns2 d err2 heq
    simp at heq
  · intro ns2 ing err2 heq
    simp at heq

theorem service_carries {σ : Type} (api : ClusterAPI σ) (req : DeployRequest)
    (owner : OwnerReference) (s : σ) (log : List Event) :
    ∃ evs, (deployService (traced api) req owner (s, log)).2.2 = log ++ evs ∧
      EachEvent evs CarriesForward := by
  unfold deployService
  rcases hb : newAppService req.app with berr | svc
  · simp [newAppService] at hb
  simp only [traced, record]
  generalize svc.SetOwnerReferences [owner] = svc1
  rcases api.serviceCreate req.app.org svc1 s with ⟨_ | err, s1⟩
  · obtain ⟨evs, h1, h2⟩ := ingress_carries api req owner s1
      (log ++ [⟨Call.serviceCreate _ _, .done⟩])
    refine ⟨_ :: evs, by simpa [traced, record] using h1, ?_⟩
    rw [eachEvent_cons]
    exact ⟨by simp [CarriesForward, Reply.ofError], h2⟩
  · simp only []
    by_cases hae : IsAlreadyExists err = true
    · simp only [hae, if_true]
      rcases api.serviceGet req.app.org svc1.objectMeta.name s1 with ⟨err2 | service, s2⟩
      · refine ⟨[_, _], List.append_assoc _ _ _, ?_⟩
        rw [eachEvent_cons, eachEvent_cons]
        exact ⟨carries_serviceCreate _ _ _ _ _ (by simp [Reply.ofExcept]),
          by simp [CarriesForward, Reply.ofExcept], eachEvent_nil _⟩
      · simp only []
        rcases api.serviceUpdate req.app.org _ s2 with ⟨_ | err3, s3⟩
        · obtain ⟨evs, h1, h2⟩ := ingress_carries api req owner s3
            (log ++ [⟨Call.serviceCreate _ _, .failed err⟩]
              ++ [⟨Call.serviceGet _ _, .service service⟩] ++ [⟨Call.serviceUpdate _ _, .done⟩])
          refine ⟨_ :: _ :: _ :: evs, by simpa [traced, record] using h1, ?_⟩
          rw [eachEvent_cons, eachEvent_cons, eachEvent_cons]
          refine ⟨carries_serviceCreate _ _ _ _ _ ?_,
            by simp [CarriesForward, Reply.ofExcept],
            by simp [CarriesForward, Reply.ofError], h2⟩
          intro fetched hf
          injection hf with hf
          subst hf
          exact ⟨_, _, rfl⟩
        · refine ⟨[_, _, _], by simp only [List.append_assoc]; rfl, ?_⟩
          rw [eachEvent_cons, eachEvent_cons, eachEvent_cons]
          refine ⟨carries_serviceCreate _ _ _ _ _ ?_,
            by simp [CarriesForward, Reply.ofExcept],
            by simp [CarriesForward, Reply.ofError], eachEvent_nil _⟩
          intro fetched hf
          simp only [Reply.ofExcept] at hf
          injection hf with hf
          subst hf
          exact ⟨_, _, rfl⟩
    · simp only [hae]
      refine ⟨[_], rfl, ?_⟩
      simp [eachEvent_cons, eachEvent_nil, CarriesForward, Reply.ofError, hae]

theorem workload_carries {σ : Type} (m : Models) (api : ClusterAPI σ) (req : DeployRequest)
    (owner : OwnerReference) (deployParams : deployParam) (s : σ) (log : List Event) :
    ∃ evs, (deployWorkload m (traced api) req owner deployParams (s, log)).2.2 = log ++ evs ∧
      EachEvent evs CarriesForward := by
  unfold deployWorkload
  rcases hb : newAppDeployment m req.stage.id deployParams with berr | d
  · simp [newAppDeployment] at hb
  have hrv : (d.SetOwnerReferences [owner]).objectMeta.resourceVersion = "" := by
    simp only [newAppDeployment, Except.ok.injEq] at hb
    subst hb
    rfl
  simp only [traced, record]
  generalize d.SetOwnerReferences [owner] = d1 at hrv ⊢
  rcases api.deploymentCreate req.app.org d1 s with ⟨_ | err, s1⟩
  · obtain ⟨evs, h1, h2⟩ := service_carries api req owner s1
      (log ++ [⟨Call.deploymentCreate _ _, .done⟩])
    refine ⟨_ :: evs, by simpa [traced, record] using h1, ?_⟩
    rw [eachEvent_cons]
    exact ⟨by simp [CarriesForward, Reply.ofError], h2⟩
  · simp only []
    by_cases hae : IsAlreadyExists err = true
    · simp only [hae, if_true]
      rcases api.deploymentUpdate req.app.org d1 s1 with ⟨_ | err2, s2⟩
      · obtain ⟨evs, h1, h2⟩ := service_carries api req owner s2
          (log ++ [⟨Call.deploymentCreate _ _, .failed err⟩] ++ [⟨Call.deploymentUpdate _ _, .done⟩])
        refine ⟨_ :: _ :: evs, by simpa [traced, record] using h1, ?_⟩
        rw [eachEvent_cons, eachEvent_cons]
        exact ⟨by simp [CarriesForward, Reply.ofError, hrv],
          by simp [CarriesForward, Reply.ofError], h2⟩
      · refine ⟨[_, _], List.append_assoc _ _ _, ?_⟩
        simp [eachEvent_cons, eachEvent_nil, CarriesForward, Reply.ofError, hrv]
    · simp only [hae]
      refine ⟨[_], rfl, ?_⟩
      simp [eachEvent_cons, eachEvent_nil, CarriesForward, Reply.ofError, hae]

theorem instances_carries {σ : Type} (m : Models) (api : ClusterAPI σ) (req : DeployRequest)
    (owner : OwnerReference) (instances : Int) (s : σ) (log : List Event) :
    ∃ evs, (deployInstances m (traced api) req owner instances (s, log)).2.2 = log ++ evs ∧
      EachEvent evs CarriesForward := by
  unfold deployInstances
  simp only [traced, record]
  rcases api.mainDomain s with ⟨err | dom, s1⟩
  · refine ⟨[_], rfl, ?_⟩
    simp [eachEvent_cons, eachEvent_nil, CarriesForward]
  · simp only []
    rcases api.environment req.app s1 with ⟨err | env, s2⟩
    · refine ⟨[_, _], List.append_assoc _ _ _, ?_⟩
      simp [eachEvent_cons, eachEvent_nil, CarriesForward]
    · obtain ⟨evs, h1, h2⟩ := workload_carries m api req owner
        { appRef := req.app, git := req.git, route := req.route, owner := owner,
          environment := env, instances := instances, domain := dom,
          imageURL := req.imageURL, stage := { id := "" } } s2
        (log ++ [⟨Call.mainDomain, .domain dom⟩] ++ [⟨Call.environment req.app, .environment env⟩])
      refine ⟨_ :: _ :: evs, by simpa [traced, record] using h1, ?_⟩
      rw [eachEvent_cons, eachEvent_cons]
      exact ⟨by simp [CarriesForward], by simp [CarriesForward], h2⟩

theorem validated_carries {σ : Type} (m : Models) (api : ClusterAPI σ) (req : DeployRequest)
    (s : σ) (log : List Event) :
    ∃ evs, (deployValidated m (traced api) req (s, log)).2.2 = log ++ evs ∧
      EachEvent evs CarriesForward := by
  unfold deployValidated
  simp only [traced, record]
  rcases api.getCluster s with ⟨_ | err, s1⟩
  · simp only []
    rcases api.applicationGet req.app s1 with ⟨err | cr, s2⟩
    · simp only []
      by_cases hnf : IsNotFound err = true
      · simp only [hnf, if_true]
        refine ⟨[_, _], List.append_assoc _ _ _, ?_⟩
        simp [eachEvent_cons, eachEvent_nil, CarriesForward]
      · simp only [hnf]
        refine ⟨[_, _], List.append_assoc _ _ _, ?_⟩
        simp [eachEvent_cons, eachEvent_nil, CarriesForward]
    · simp only []
      rcases hinst : req.instances with _ | n
      · simp only [existingReplica, traced, record]
        rcases api.deploymentGet req.app.org req.app.name s2 with ⟨err | d, s3⟩
        · simp only []
          by_cases hnf : IsNotFound err = true
          · simp only [hnf, if_true]
            obtain ⟨evs, h1, h2⟩ := instances_carries m api req
              { apiVersion := cr.apiVersion, kind := cr.kind, name := cr.name, uid := cr.uid }
              DefaultInstances s3
              (log ++ [⟨Call.getCluster, .done⟩] ++ [⟨Call.applicationGet req.app, .application cr⟩]
                ++ [⟨Call.deploymentGet req.app.org req.app.name, .failed err⟩])
            refine ⟨_ :: _ :: _ :: evs, by simpa [traced, record] using h1, ?_⟩
            rw [eachEvent_cons, eachEvent_cons, eachEvent_cons]
            exact ⟨by simp [CarriesForward], by simp [CarriesForward],
              by simp [CarriesForward], h2⟩
          · simp only [hnf]
            refine ⟨[_, _, _], by simp only [List.append_assoc]; rfl, ?_⟩
            simp [eachEvent_cons, eachEvent_nil, CarriesForward]
        · simp only []
          rcases hrep : d.spec.replicas with _ | n
          · refine ⟨[_, _, _], by simp only [List.append_assoc]; rfl, ?_⟩
            simp [eachEvent_cons, eachEvent_nil, CarriesForward]
          · obtain ⟨evs, h1, h2⟩ := instances_carries m api req
              { apiVersion := cr.apiVersion, kind := cr.kind, name := cr.name, uid := cr.uid }
              n s3
              (log ++ [⟨Call.getCluster, .done⟩] ++ [⟨Call.applicationGet req.app, .application cr⟩]
                ++ [⟨Call.deploymentGet req.app.org req.app.name, .deployment d⟩])
            refine ⟨_ :: _ :: _ :: evs, by simpa [traced, record] using h1, ?_⟩
            rw [eachEvent_cons, eachEvent_cons, eachEvent_cons]
            exact ⟨by simp [CarriesForward], by simp [CarriesForward],
              by simp [CarriesForward], h2⟩
      · obtain ⟨evs, h1, h2⟩ := instances_carries m api req
          { apiVersion := cr.apiVersion, kind := cr.kind, name := cr.name, uid := cr.uid }
          n s2
          (log ++ [⟨Call.getCluster, .done⟩] ++ [⟨Call.applicationGet req.app, .application cr⟩])
        refine ⟨_ :: _ :: evs, by simpa [traced, record] using h1, ?_⟩
        rw [eachEvent_cons, eachEvent_cons]
        exact ⟨by simp [CarriesForward], by simp [CarriesForward], h2⟩
  · refine ⟨[_], rfl, ?_⟩
    simp [eachEvent_cons, eachEvent_nil, CarriesForward]

theorem deploy_carries {σ : Type} (m : Models) (api : ClusterAPI σ) (r : Request) (s : σ) :
    EachEvent (Deploy m (traced api) r (s, [])).2.2 CarriesForward := by
  rcases Deploy_cases m (traced api) r (s, []) with ⟨apiErr, h⟩ | ⟨_, req, _, _, _, _, _, h⟩
  · rw [h]
    exact eachEvent_nil _
  · rw [h]
    obtain ⟨evs, h1, h2⟩ := validated_carries m api req s []
    rw [h1]
    simpa using h2

theorem cleanup_noWorkload {σ : Type} (api : ClusterAPI σ) (req : DeployRequest) (s : σ)
    (log : List Event) :
    ∃ evs, (deployCleanup (traced api) req (s, log)).2.2 = log ++ evs ∧
      ∀ ev ∈ evs, ev.call.onWorkload = false := by
  unfold deployCleanup
  by_cases hid : req.stage.id = ""
  · exact ⟨[], by simp [hid], by simp⟩
  · simp only [ne_eq, hid, not_false_eq_true, if_true, traced, record]
    rcases api.unstage req.app req.stage.id s with ⟨_ | err, s1⟩ <;>
    · refine ⟨[_], rfl, ?_⟩
      simp [Call.onWorkload]

theorem ingress_noWorkload {σ : Type} (api : ClusterAPI σ) (req : DeployRequest)
    (owner : OwnerReference) (s : σ) (log : List Event) :
    ∃ evs, (deployIngress (traced api) req owner (s, log)).2.2 = log ++ evs ∧
      ∀ ev ∈ evs, ev.call.onWorkload = false := by
  unfold deployIngress
  rcases hb : newAppIngress req.app req.route with berr | ing
  · simp [newAppIngress] at hb
  simp only [traced, record]
  generalize ing.SetOwnerReferences [owner] = ing1
  rcases api.ingressCreate req.app.org ing1 s with ⟨_ | err, s1⟩
  · obtain ⟨evs, h1, h2⟩ := cleanup_noWorkload api req s1 (log ++ [⟨Call.ingressCreate _ _, .done⟩])
    refine ⟨_ :: evs, by simpa [traced, record] using h1, ?_⟩
    simpa [Call.onWorkload] using h2
  · simp only []
    by_cases hae : IsAlreadyExists err = true
    · simp only [hae, if_true]
      rcases api.ingressUpdate req.app.org ing1 s1 with ⟨_ | err2, s2⟩
      · obtain ⟨evs, h1, h2⟩ := cleanup_noWorkload api req s2
          (log ++ [⟨Call.ingressCreate _ _, .failed err⟩] ++ [⟨Call.ingressUpdate _ _, .done⟩])
        refine ⟨_ :: _ :: evs, by simpa [traced, record] using h1, ?_⟩
        simpa [Call.onWorkload] using h2
      · refine ⟨[_, _], List.append_assoc _ _ _, ?_⟩
        simp [Call.onWorkload]
    · simp only [hae]
      refine ⟨[_], rfl, ?_⟩
      simp [Call.onWorkload]

theorem service_noWorkload {σ : Type} (api : ClusterAPI σ) (req : DeployRequest)
    (owner : OwnerReference) (s : σ) (log : List Event) :
    ∃ evs, (deployService (traced api) req owner (s, log)).2.2 = log ++ evs ∧
      ∀ ev ∈ evs, ev.call.onWorkload = false := by
  unfold deployService
  rcases hb : newAppService req.app with berr | svc
  · simp [newAppService] at hb
  simp only [traced, record]
  generalize svc.SetOwnerReferences [owner] = svc1
  rcases api.serviceCreate req.app.org svc1 s with ⟨_ | err, s1⟩
  · obtain ⟨evs, h1, h2⟩ := ingress_noWorkload api req owner s1
      (log ++ [⟨Call.serviceCreate _ _, .done⟩])
    refine ⟨_ :: evs, by simpa [traced, record] using h1, ?_⟩
    simpa [Call.onWorkload] using h2
  · simp only []
    by_cases hae : IsAlreadyExists err = true
    · simp only [hae, if_true]
      rcases api.serviceGet req.app.org svc1.objectMeta.name s1 with ⟨err2 | service, s2⟩
      · refine ⟨[_, _], List.append_assoc _ _ _, ?_⟩
        simp [Call.onWorkload]
      · simp only []
        rcases api.serviceUpdate req.app.org _ s2 with ⟨_ | err3, s3⟩
        · obtain ⟨evs, h1, h2⟩ := ingress_noWorkload api req owner s3
            (log ++ [⟨Call.serviceCreate _ _, .failed err⟩]
              ++ [⟨Call.serviceGet _ _, .service service⟩] ++ [⟨Call.serviceUpdate _ _, .done⟩])
          refine ⟨_ :: _ :: _ :: evs, by simpa [traced, record] using h1, ?_⟩
          simpa [Call.onWorkload] using h2
        · refine ⟨[_, _, _], by simp only [List.append_assoc]; rfl, ?_⟩
          simp [Call.onWorkload]
    · simp only [hae]
      refine ⟨[_], rfl, ?_⟩
      simp [Call.onWorkload]

theorem workload_replicas {σ : Type} (m : Models) (api : ClusterAPI σ) (req : DeployRequest)
    (owner : OwnerReference) (deployParams : deployParam) (s : σ) (log : List Event) :
    ∃ evs, (deployWorkload m (traced api) req owner deployParams (s, log)).2.2 = log ++ evs ∧
      (∃ ev ∈ evs, ev.call.isCreate = true ∧ ev.call.onWorkload = true) ∧
      (∀ ev ∈ evs, ev.call.onWorkload = true →
        ev.call.appliedReplicas = some (some deployParams.instances)) := by
  unfold deployWorkload
  rcases hb : newAppDeployment m req.stage.id deployParams with berr | d
  · simp [newAppDeployment] at hb
  have hrep : (d.SetOwnerReferences [owner]).spec.replicas = some deployParams.instances := by
    simp only [newAppDeployment, Except.ok.injEq] at hb
    subst hb
    rfl
  simp only [traced, record]
  generalize d.SetOwnerReferences [owner] = d1 at hrep ⊢
  rcases api.deploymentCreate req.app.org d1 s with ⟨_ | err, s1⟩
  · obtain ⟨evs, h1, h2⟩ := service_noWorkload api req owner s1
      (log ++ [⟨Call.deploymentCreate _ _, .done⟩])
    refine ⟨_ :: evs, by simpa [traced, record] using h1, ⟨⟨Call.deploymentCreate req.app.org d1, _⟩, List.mem_cons_self _ _, rfl, rfl⟩, ?_⟩
    intro ev hev hw
    rcases List.mem_cons.mp hev with rfl | hev
    · simp [Call.appliedReplicas, hrep]
    · simp [h2 ev hev] at hw
  · simp only []
    by_cases hae : IsAlreadyExists err = true
    · simp only [hae, if_true]
      rcases api.deploymentUpdate req.app.org d1 s1 with ⟨_ | err2, s2⟩
      · obtain ⟨evs, h1, h2⟩ := service_noWorkload api req owner s2
          (log ++ [⟨Call.deploymentCreate _ _, .failed err⟩] ++ [⟨Call.deploymentUpdate _ _, .done⟩])
        refine ⟨_ :: _ :: evs, by simpa [traced, record] using h1,
          ⟨⟨Call.deploymentCreate req.app.org d1, _⟩, List.mem_cons_self _ _, rfl, rfl⟩, ?_⟩
        intro ev hev hw
        rcases List.mem_cons.mp hev with rfl | hev
        · simp [Call.appliedReplicas, hrep]
        rcases List.mem_cons.mp hev with rfl | hev
        · simp [Call.appliedReplicas, hrep]
        · simp [h2 ev hev] at hw
      · refine ⟨[_, _], List.append_assoc _ _ _, ⟨⟨Call.deploymentCreate req.app.org d1, _⟩, List.mem_cons_self _ _, rfl, rfl⟩, ?_⟩
        simp [Call.appliedReplicas, hrep]
    · simp only [hae]
      refine ⟨[_], rfl, ⟨⟨Call.deploymentCreate req.app.org d1, _⟩, List.mem_cons_self _ _, rfl, rfl⟩, ?_⟩
      simp [Call.appliedReplicas, hrep]

theorem instances_replicas {σ : Type} (m : Models) (api : ClusterAPI σ) (req : DeployRequest)
    (owner : OwnerReference) (instances : Int) (s : σ) (log : List Event) :
    ∃ evs, (deployInstances m (traced api) req owner instances (s, log)).2.2 = log ++ evs ∧
      ((∃ ev ∈ evs, ev.call.isCreate = true ∧ ev.call.onWorkload = true) ∨
        (∃ ev ∈ evs, ∃ err, ev.reply = .failed err ∧ ev.call.onObject = false)) ∧
      (∀ ev ∈ evs, ev.call.onWorkload = true →
        ev.call.appliedReplicas = some (some instances)) := by
  unfold deployInstances
  simp only [traced, record]
  rcases api.mainDomain s with ⟨err | dom, s1⟩
  · refine ⟨[_], rfl, Or.inr ⟨_, List.mem_cons_self _ _, err, rfl, rfl⟩, ?_⟩
    simp [Call.onWorkload]
  · simp only []
    rcases api.environment req.app s1 with ⟨err | env, s2⟩
    · refine ⟨[_, ⟨Call.environment req.app, _⟩], List.append_assoc _ _ _,
        Or.inr ⟨⟨Call.environment req.app, .failed err⟩, by simp [Reply.ofExcept], err, rfl, rfl⟩,
        ?_⟩
      simp [Call.onWorkload]
    · obtain ⟨evs, h1, h2, h3⟩ := workload_replicas m api req owner
        { appRef := req.app, git := req.git, route := req.route, owner := owner,
          environment := env, instances := instances, domain := dom,
          imageURL := req.imageURL, stage := { id := "" } } s2
        (log ++ [⟨Call.mainDomain, .domain dom⟩] ++ [⟨Call.environment req.app, .environment env⟩])
      refine ⟨_ :: _ :: evs, by simpa [traced, record] using h1, Or.inl ?_, ?_⟩
      · obtain ⟨ev, hev, hc⟩ := h2
        exact ⟨ev, by simp [hev], hc⟩
      · intro ev hev hw
        rcases List.mem_cons.mp hev with rfl | hev
        · simp [Call.onWorkload] at hw
        rcases List.mem_cons.mp hev with rfl | hev
        · simp [Call.onWorkload] at hw
        · exact h3 ev hev hw

theorem not_isDeploymentGet_of_applied {c : Call} {reps : Option Int}
    (h : c.appliedReplicas = some reps) : c.isDeploymentGet = false := by
  cases c <;> simp [Call.appliedReplicas, Call.isDeploymentGet] at h ⊢

theorem onWorkload_of_applied {c : Call} {reps : Option Int}
    (h : c.appliedReplicas = some reps) : c.onWorkload = true := by
  cases c <;> simp [Call.appliedReplicas, Call.onWorkload] at h ⊢

theorem onWorkload_of_isDeploymentGet {c : Call} (h : c.isDeploymentGet = true) :
    c.onWorkload = true ∧ c.appliedReplicas = none := by
  cases c <;> simp [Call.appliedReplicas, Call.onWorkload, Call.isDeploymentGet] at h ⊢

theorem validated_replicas {σ : Type} (m : Models) (api : ClusterAPI σ) (req : DeployRequest)
    (s : σ) (log : List Event) :
    ∃ evs, (deployValidated m (traced api) req (s, log)).2.2 = log ++ evs ∧
      ReplicasExplained req (deployValidated m (traced api) req (s, log)).1 evs := by
  unfold deployValidated
  simp only [traced, record]
  rcases api.getCluster s with ⟨_ | err, s1⟩
  · simp only []
    rcases api.applicationGet req.app s1 with ⟨err | cr, s2⟩
    · simp only []
      have hfail : ∃ ev ∈ [(⟨Call.getCluster, Reply.ofError none⟩ : Event),
          ⟨Call.applicationGet req.app, Reply.ofExcept Reply.application (Except.error err)⟩],
          ∃ e, ev.reply = .failed e ∧
            (ev.call.onObject = false ∨
              (ev.call.isDeploymentGet = true ∧ IsNotFound e = false)) :=
        ⟨⟨Call.applicationGet req.app, .failed err⟩, by simp [Reply.ofExcept], err, rfl,
          Or.inl rfl⟩
      by_cases hnf : IsNotFound err = true
      · simp only [hnf, if_true]
        refine ⟨[_, _], List.append_assoc _ _ _, Or.inr (Or.inl hfail), ?_, ?_⟩ <;>
          simp [Call.appliedReplicas, Call.isDeploymentGet]
      · simp only [hnf]
        refine ⟨[_, _], List.append_assoc _ _ _, Or.inr (Or.inl hfail), ?_, ?_⟩ <;>
          simp [Call.appliedReplicas, Call.isDeploymentGet]
    · simp only []
      rcases hinst : req.instances with _ | n
      · simp only [existingReplica, traced, record]
        rcases api.deploymentGet req.app.org req.app.name s2 with ⟨err | d, s3⟩
        · simp only []
          by_cases hnf : IsNotFound err = true
          · simp only [hnf, if_true]
            obtain ⟨evs, h1, h2, h3⟩ := instances_replicas m api req
              { apiVersion := cr.apiVersion, kind := cr.kind, name := cr.name, uid := cr.uid }
              DefaultInstances s3
              (log ++ [⟨Call.getCluster, .done⟩] ++ [⟨Call.applicationGet req.app, .application cr⟩]
                ++ [⟨Call.deploymentGet req.app.org req.app.name, .failed err⟩])
            refine ⟨_ :: _ :: _ :: evs, by simpa [traced, record] using h1, ?_, by simp [hinst], ?_⟩
            · rcases h2 with ⟨ev, hev, hc⟩ | ⟨ev, hev, e, he, hc⟩
              · exact Or.inl ⟨ev, by simp [hev], hc⟩
              · exact Or.inr (Or.inl ⟨ev, by simp [hev], e, he, Or.inl hc⟩)
            · intro _ ev hev reps hreps
              refine ⟨.failed err, by simp [Reply.ofExcept], ?_, Or.inr ⟨err, rfl, hnf, ?_⟩⟩
              · intro ev2 hev2 hget
                simp only [List.mem_cons] at hev2
                rcases hev2 with rfl | rfl | rfl | hev2
                · simp [Call.isDeploymentGet] at hget
                · simp [Call.isDeploymentGet] at hget
                · simp [Reply.ofExcept]
                · have := h3 ev2 hev2 (onWorkload_of_isDeploymentGet hget).1
                  simp [(onWorkload_of_isDeploymentGet hget).2] at this
              · simp only [List.mem_cons] at hev
                rcases hev with rfl | rfl | rfl | hev
                · simp [Call.appliedReplicas] at hreps
                · simp [Call.appliedReplicas] at hreps
                · simp [Call.appliedReplicas] at hreps
                · have := h3 ev hev (onWorkload_of_applied hreps)
                  rw [hreps] at this
                  injection this
          · simp only [hnf]
            refine ⟨[_, _, _], by simp only [List.append_assoc]; rfl, Or.inr (Or.inl ?_), by simp [hinst], ?_⟩
            · exact ⟨⟨Call.deploymentGet req.app.org req.app.name, .failed err⟩,
                by simp [Reply.ofExcept], err, rfl, Or.inr ⟨rfl, by simpa using hnf⟩⟩
            · simp [Call.appliedReplicas]
        · simp only []
          rcases hrep : d.spec.replicas with _ | n
          · refine ⟨[_, _, _], by simp only [List.append_assoc]; rfl,
              Or.inr (Or.inr ⟨d, by simp [Reply.ofExcept], hrep, rfl⟩), by simp [hinst], ?_⟩
            simp [Call.appliedReplicas]
          · obtain ⟨evs, h1, h2, h3⟩ := instances_replicas m api req
              { apiVersion := cr.apiVersion, kind := cr.kind, name := cr.name, uid := cr.uid }
              n s3
              (log ++ [⟨Call.getCluster, .done⟩] ++ [⟨Call.applicationGet req.app, .application cr⟩]
                ++ [⟨Call.deploymentGet req.app.org req.app.name, .deployment d⟩])
            refine ⟨_ :: _ :: _ :: evs, by simpa [traced, record] using h1, ?_, by simp [hinst], ?_⟩
            · rcases h2 with ⟨ev, hev, hc⟩ | ⟨ev, hev, e, he, hc⟩
              · exact Or.inl ⟨ev, by simp [hev], hc⟩
              · exact Or.inr (Or.inl ⟨ev, by simp [hev], e, he, Or.inl hc⟩)
            · intro _ ev hev reps hreps
              refine ⟨.deployment d, by simp [Reply.ofExcept], ?_, Or.inl ⟨d, n, rfl, hrep, ?_⟩⟩
              · intro ev2 hev2 hget
                simp only [List.mem_cons] at hev2
                rcases hev2 with rfl | rfl | rfl | hev2
                · simp [Call.isDeploymentGet] at hget
                · simp [Call.isDeploymentGet] at hget
                · simp [Reply.ofExcept]
                · have := h3 ev2 hev2 (onWorkload_of_isDeploymentGet hget).1
                  simp [(onWorkload_of_isDeploymentGet hget).2] at this
              · simp only [List.mem_cons] at hev
                rcases hev with rfl | rfl | rfl | hev
                · simp [Call.appliedReplicas] at hreps
                · simp [Call.appliedReplicas] at hreps
                · simp [Call.appliedReplicas] at hreps
                · have := h3 ev hev (onWorkload_of_applied hreps)
                  rw [hreps] at this
                  injection this
      · obtain ⟨evs, h1, h2, h3⟩ := instances_replicas m api req
          { apiVersion := cr.apiVersion, kind := cr.kind, name := cr.name, uid := cr.uid }
          n s2
          (log ++ [⟨Call.getCluster, .done⟩] ++ [⟨Call.applicationGet req.app, .application cr⟩])
        refine ⟨_ :: _ :: evs, by simpa [traced, record] using h1, ?_, ?_, by simp [hinst]⟩
        · rcases h2 with ⟨ev, hev, hc⟩ | ⟨ev, hev, e, he, hc⟩
          · exact Or.inl ⟨ev, by simp [hev], hc⟩
          · exact Or.inr (Or.inl ⟨ev, by simp [hev], e, he, Or.inl hc⟩)
        · intro k hk ev hev
          rw [hinst] at hk
          injection hk with hk
          subst hk
          simp only [List.mem_cons] at hev
          rcases hev with rfl | rfl | hev
          · simp [Call.appliedReplicas, Call.isDeploymentGet]
          · simp [Call.appliedReplicas, Call.isDeploymentGet]
          · constructor
            · cases hg : ev.call.isDeploymentGet with
              | false => rfl
              | true =>
                have := h3 ev hev (onWorkload_of_isDeploymentGet hg).1
                simp [(onWorkload_of_isDeploymentGet hg).2] at this
            · intro reps hreps
              have := h3 ev hev (onWorkload_of_applied hreps)
              rw [hreps] at this
              injection this
  · refine ⟨[_], rfl, Or.inr (Or.inl ⟨⟨Call.getCluster, .failed err⟩, by simp [Reply.ofError],
      err, rfl, Or.inl rfl⟩), ?_, ?_⟩ <;>
      simp [Call.appliedReplicas, Call.isDeploymentGet]

theorem Deploy_valid {σ : Type} (m : Models) (api : ClusterAPI σ) (r : Request) (s : σ)
    (bodyBytes : String) (req : DeployRequest)
    (hbody : r.body = .ok bodyBytes) (hdecode : m.unmarshal bodyBytes = .ok req)
    (hname : r.app = req.app.name) (horg : r.org = req.app.org)
    (hnonneg : ∀ n, req.instances = some n → 0 ≤ n) :
    Deploy m api r s = deployValidated m api req s := by
  cases hi : req.instances with
  | none => simp [Deploy, hbody, hdecode, hname, horg, hi]
  | some n =>
    have hn : ¬ n < 0 := by
      have := hnonneg n hi
      omega
    simp [Deploy, hbody, hdecode, hname, horg, hi, hn]

/-! ## Claims about the deploy reconciler -/

/-- Witness of C1: the request of the acceptance test, with -3 instances. -/
theorem C1_negative_instances_rejected_witness :
    Deploy (demoModels (demoRequest (some (-3)) "")) (traced simAPI) demoHTTP
          (emptyCluster, [])
        = (.returned (some (.NewBadRequest
            "instances param should be integer equal or greater than zero" [])),
          (emptyCluster, [])) ∧
      Deploy (demoModels (demoRequest (some (-3)) "")) simAPI demoHTTP emptyCluster
        = (.returned (some (.NewBadRequest
            "instances param should be integer equal or greater than zero" [])),
          emptyCluster) ∧
      (APIError.NewBadRequest
        "instances param should be integer equal or greater than zero" []).status = 400 ∧
      (APIError.NewBadRequest
        "instances param should be integer equal or greater than zero" []).title
        = "instances param should be integer equal or greater than zero" :=
  C1_negative_instances_rejected (demoModels (demoRequest (some (-3)) "")) simAPI demoHTTP
    emptyCluster [] "ok" (demoRequest (some (-3)) "") (-3) rfl rfl rfl rfl rfl (by decide)

/-- Witness of C2: the URL names the application `other`, the body `demo`; the
instance count of the body is negative as well. -/
theorem C2_mismatched_appref_rejected_witness :
    ∃ msg,
      (msg = "name parameter from URL does not match name param in body" ∨
        msg = "org parameter from URL does not match org param in body") ∧
      Deploy (demoModels (demoRequest (some (-3)) "")) (traced simAPI) otherHTTP
          (emptyCluster, [])
        = (.returned (some (.NewBadRequest msg [])), (emptyCluster, [])) ∧
      Deploy (demoModels (demoRequest (some (-3)) "")) simAPI otherHTTP emptyCluster
        = (.returned (some (.NewBadRequest msg [])), emptyCluster) ∧
      (APIError.NewBadRequest msg []).status = 400 :=
  C2_mismatched_appref_rejected (demoModels (demoRequest (some (-3)) "")) simAPI otherHTTP
    emptyCluster [] "ok" (demoRequest (some (-3)) "") rfl rfl (Or.inl (by decide))

/-- C4, as stated, fails for the workload: in the second deploy of the examples
the `Create` of the workload reports already-exists and the next call is the
`Update` of the same object; no `Get` of the workload is in the record, and the
object handed to `Update` has an empty version token while the stored workload
has the version token `1`. -/
theorem C4_counterexample :
    ∃ before after stored,
      redeployLog = before ++
        ⟨.deploymentCreate "workspace" demoDeployment,
          .failed (SimCluster.errAlreadyExists "demo")⟩ ::
        ⟨.deploymentUpdate "workspace" demoDeployment, .done⟩ :: after ∧
      IsAlreadyExists (SimCluster.errAlreadyExists "demo") = true ∧
      (∀ ev ∈ redeployLog, ev.call.isDeploymentGet = false) ∧
      deployedCluster.deployments.get "workspace" "demo" = some stored ∧
      stored.objectMeta.resourceVersion = "1" ∧
      demoDeployment.objectMeta.resourceVersion = "" := by
  refine ⟨redeployLog.take 4, redeployLog.drop 6,
    SimCluster.admitDeployment "workspace" "1" demoDeployment, ?_, rfl, ?_, ?_, rfl, rfl⟩
  · decide
  · decide
  · decide

/-- C4, amended: in every execution of `Deploy`, when the `Create` of the
service reports already-exists the next call is the `Get` of the service of
that name, and when that `Get` returns a service the next call is the `Update`
of the built service carrying the version token and the internal address of
the fetched one. When the `Create` of the workload, or of the ingress, reports
already-exists, the next call is the `Update` of the very object handed to
`Create`, whose version token is empty; no `Get` comes in between. -/
theorem C4_service_carries_cluster_fields {σ : Type} (m : Models) (api : ClusterAPI σ)
    (r : Request) (s : σ) (before after : List Event) (ev : Event)
    (hlog : (Deploy m (traced api) r (s, [])).2.2 = before ++ ev :: after) :
    (∀ ns svc err, ev = ⟨.serviceCreate ns svc, .failed err⟩ → IsAlreadyExists err = true →
      ∃ reply rest, after = ⟨.serviceGet ns svc.objectMeta.name, reply⟩ :: rest ∧
        ∀ fetched, reply = .service fetched →
          ∃ reply2 rest2,
            rest = ⟨.serviceUpdate ns (svc.carrying fetched), reply2⟩ :: rest2) ∧
    (∀ ns d err, ev = ⟨.deploymentCreate ns d, .failed err⟩ → IsAlreadyExists err = true →
      d.objectMeta.resourceVersion = "" ∧
        ∃ reply rest, after = ⟨.deploymentUpdate ns d, reply⟩ :: rest) ∧
    (∀ ns ing err, ev = ⟨.ingressCreate ns ing, .failed err⟩ → IsAlreadyExists err = true →
      ing.objectMeta.resourceVersion = "" ∧
        ∃ reply rest, after = ⟨.ingressUpdate ns ing, reply⟩ :: rest) :=
  deploy_carries m api r s before ev after hlog

/-- Witness of the amended C4: the seventh call of the second deploy of the
examples is the `Create` of the service, which reports already-exists. -/
theorem C4_service_carries_cluster_fields_witness :
    ∃ reply rest, redeployLog.drop 7 = ⟨.serviceGet "workspace" "demo", reply⟩ :: rest ∧
      ∀ fetched, reply = .service fetched →
        ∃ reply2 rest2,
          rest = ⟨.serviceUpdate "workspace" (demoService.carrying fetched), reply2⟩ :: rest2 :=
  (C4_service_carries_cluster_fields (demoModels (demoRequest (some 2) "")) simAPI demoHTTP
    deployedCluster (redeployLog.take 6)
    (redeployLog.drop 7)
    ⟨.serviceCreate "workspace" demoService, .failed (SimCluster.errAlreadyExists "demo")⟩
    (by decide)).1 "workspace" demoService (SimCluster.errAlreadyExists "demo") rfl rfl

/-- The three cases of the replica count on the cluster of the examples: an
instance count of 3 in the request is applied; without one, the 2 replicas of
the stored workload are kept; without one and without workload, 1 is applied. -/
theorem replica_count_examples :
    ((Deploy (demoModels (demoRequest (some 3) "")) simAPI demoHTTP deployedCluster).2.deployments.get
        "workspace" "demo").map (fun d => d.spec.replicas) = some (some 3) ∧
    ((Deploy (demoModels (demoRequest none "")) simAPI demoHTTP deployedCluster).2.deployments.get
        "workspace" "demo").map (fun d => d.spec.replicas) = some (some 2) ∧
    ((Deploy (demoModels (demoRequest none "")) simAPI demoHTTP emptyCluster).2.deployments.get
        "workspace" "demo").map (fun d => d.spec.replicas) = some (some 1) := by
  decide

/-! ## `Deploy` on the cluster of section 6 -/

theorem Store.get_put {α : Type} (st : Store α) (ns name : String) (a : α) :
    (st.put ns name a).get ns name = some a := by
  induction st with
  | nil => simp [Store.put, Store.get]
  | cons kv rest ih =>
    obtain ⟨k, b⟩ := kv
    by_cases hk : k = (ns, name)
    · simp [Store.put, Store.get, hk]
    · simp [Store.put, Store.get, hk, ih]

theorem sim_unstage_idem (app : AppRef) (id : String) (c : SimCluster) :
    (SimCluster.unstage app id (SimCluster.unstage app id c).2).2
      = (SimCluster.unstage app id c).2 := by
  simp [SimCluster.unstage, List.filter_filter]

theorem simAPI_unstage : simAPI.unstage = SimCluster.unstage := rfl
theorem simAPI_ingressCreate : simAPI.ingressCreate = SimCluster.ingressCreate := rfl
theorem simAPI_ingressUpdate : simAPI.ingressUpdate = SimCluster.ingressUpdate := rfl
theorem simAPI_serviceCreate : simAPI.serviceCreate = SimCluster.serviceCreate := rfl
theorem simAPI_serviceUpdate : simAPI.serviceUpdate = SimCluster.serviceUpdate := rfl
theorem simAPI_serviceGet : simAPI.serviceGet = SimCluster.serviceGet := rfl
theorem simAPI_deploymentCreate : simAPI.deploymentCreate = SimCluster.deploymentCreate := rfl
theorem simAPI_deploymentUpdate : simAPI.deploymentUpdate = SimCluster.deploymentUpdate := rfl
theorem simAPI_deploymentGet : simAPI.deploymentGet = SimCluster.deploymentGet := rfl
theorem simAPI_applicationGet : simAPI.applicationGet = SimCluster.applicationGet := rfl
theorem simAPI_environment : simAPI.environment = SimCluster.environment := rfl
theorem simAPI_mainDomain (c : SimCluster) : simAPI.mainDomain c = (.ok c.domain, c) := rfl
theorem simAPI_getCluster (c : SimCluster) : simAPI.getCluster c = (none, c) := rfl

theorem sim_cleanup (req : DeployRequest) (c : SimCluster) :
    ∃ c2, deployCleanup simAPI req c = (.returned none, c2) ∧
      c2.deployments = c.deployments ∧ c2.services = c.services ∧
      c2.ingresses = c.ingresses ∧ c.sameRegistry c2 ∧ c2.stagingClean req ∧
      (c.stagingClean req → c2 = c) := by
  unfold deployCleanup
  by_cases hid : req.stage.id = ""
  · refine ⟨c, by simp [hid], rfl, rfl, rfl, ⟨rfl, rfl, rfl⟩, ?_, fun _ => rfl⟩
    intro h
    exact absurd hid h
  · refine ⟨(SimCluster.unstage req.app req.stage.id c).2, ?_, rfl, rfl, rfl, ⟨rfl, rfl, rfl⟩,
      ?_, ?_⟩
    · simp [hid, simAPI_unstage, SimCluster.unstage]
    · intro _
      exact sim_unstage_idem _ _ _
    · intro h
      exact h hid

theorem sim_ingress (req : DeployRequest) (owner : OwnerReference) (c : SimCluster)
    (ing : Ingress) (hb : newAppIngress req.app req.route = .ok ing) :
    ∃ c2, deployIngress simAPI req owner c = (.returned none, c2) ∧
      (∃ rv, c2.ingresses.get req.app.org req.app.name
        = some (SimCluster.admitIngress req.app.org rv (ing.SetOwnerReferences [owner]))) ∧
      c2.deployments = c.deployments ∧ c2.services = c.services ∧
      c.sameRegistry c2 ∧ c2.stagingClean req ∧
      ((∃ rv, c.ingresses.get req.app.org req.app.name
          = some (SimCluster.admitIngress req.app.org rv (ing.SetOwnerReferences [owner]))) →
        c.stagingClean req → c2 = c) := by
  have hname : (ing.SetOwnerReferences [owner]).objectMeta.name = req.app.name := by
    simp only [newAppIngress, Except.ok.injEq] at hb
    subst hb
    rfl
  have hrv : (ing.SetOwnerReferences [owner]).objectMeta.resourceVersion = "" := by
    simp only [newAppIngress, Except.ok.injEq] at hb
    subst hb
    rfl
  unfold deployIngress
  simp only [hb, simAPI_ingressCreate, simAPI_ingressUpdate]
  generalize ing.SetOwnerReferences [owner] = ing1 at hname hrv ⊢
  cases hget0 : c.ingresses.get req.app.org req.app.name with
  | none =>
    have hget : c.ingresses.get req.app.org ing1.objectMeta.name = none := by
      rw [hname]; exact hget0
    obtain ⟨c2, h1, h2, h3, h4, h5, h6, _⟩ := sim_cleanup req
      { c with
        ingresses := c.ingresses.put req.app.org ing1.objectMeta.name
          (SimCluster.admitIngress req.app.org c.freshVersion ing1),
        nextVersion := c.nextVersion + 1 }
    refine ⟨c2, ?_, ⟨c.freshVersion, ?_⟩, h2, h3, h5, h6, ?_⟩
    · simp only [SimCluster.ingressCreate, hget]
      exact h1
    · rw [h4, ← hname]
      exact Store.get_put _ _ _ _
    · rintro ⟨rv, hrv2⟩
      simp at hrv2
  | some cur =>
    have hget : c.ingresses.get req.app.org ing1.objectMeta.name = some cur := by
      rw [hname]; exact hget0
    by_cases hsame : SimCluster.admitIngress req.app.org cur.objectMeta.resourceVersion ing1 = cur
    · obtain ⟨c2, h1, h2, h3, h4, h5, h6, h7⟩ := sim_cleanup req c
      refine ⟨c2, ?_, ⟨cur.objectMeta.resourceVersion, ?_⟩, h2, h3, h5, h6, fun _ hc => h7 hc⟩
      · simp only [SimCluster.ingressCreate, SimCluster.ingressUpdate, hget,
          SimCluster.errAlreadyExists, IsAlreadyExists, hrv, hsame, if_true, ne_eq,
          not_true_eq_false, false_and, if_false]
        exact h1
      · rw [h4, hget0, hsame]
    · obtain ⟨c2, h1, h2, h3, h4, h5, h6, _⟩ := sim_cleanup req
        { c with
          ingresses := c.ingresses.put req.app.org ing1.objectMeta.name
            (SimCluster.admitIngress req.app.org c.freshVersion ing1),
          nextVersion := c.nextVersion + 1 }
      refine ⟨c2, ?_, ⟨c.freshVersion, ?_⟩, h2, h3, h5, h6, ?_⟩
      · simp only [SimCluster.ingressCreate, SimCluster.ingressUpdate, hget,
          SimCluster.errAlreadyExists, IsAlreadyExists, hrv, hsame, if_true, ne_eq,
          not_true_eq_false, false_and, if_false]
        exact h1
      · rw [h4, ← hname]
        exact Store.get_put _ _ _ _
      · rintro ⟨rv, hrv2⟩ _
        injection hrv2 with hrv2
        exfalso
        apply hsame
        rw [hrv2]
        rfl

theorem sim_service (req : DeployRequest) (owner : OwnerReference) (c : SimCluster)
    (svc : Service) (ing : Ingress) (hs : newAppService req.app = .ok svc)
    (hb : newAppIngress req.app req.route = .ok ing) :
    ∃ c2, deployService simAPI req owner c = (.returned none, c2) ∧
      (∃ rv ip, c2.services.get req.app.org req.app.name
        = some (SimCluster.admitService req.app.org rv
            { svc.SetOwnerReferences [owner] with
              spec := { (svc.SetOwnerReferences [owner]).spec with clusterIP := ip } })) ∧
      (∃ rv, c2.ingresses.get req.app.org req.app.name
        = some (SimCluster.admitIngress req.app.org rv (ing.SetOwnerReferences [owner]))) ∧
      c2.deployments = c.deployments ∧
      c.sameRegistry c2 ∧ c2.stagingClean req ∧
      ((∃ rv ip, c.services.get req.app.org req.app.name
          = some (SimCluster.admitService req.app.org rv
              { svc.SetOwnerReferences [owner] with
                spec := { (svc.SetOwnerReferences [owner]).spec with clusterIP := ip } })) →
        (∃ rv, c.ingresses.get req.app.org req.app.name
          = some (SimCluster.admitIngress req.app.org rv (ing.SetOwnerReferences [owner]))) →
        c.stagingClean req → c2 = c) := by
  have hname : (svc.SetOwnerReferences [owner]).objectMeta.name = req.app.name := by
    simp only [newAppService, Except.ok.injEq] at hs
    subst hs
    rfl
  have hip : (svc.SetOwnerReferences [owner]).spec.clusterIP = "" := by
    simp only [newAppService, Except.ok.injEq] at hs
    subst hs
    rfl
  unfold deployService
  simp only [hs, simAPI_serviceCreate, simAPI_serviceUpdate, simAPI_serviceGet]
  generalize svc.SetOwnerReferences [owner] = svc1 at hname hip ⊢
  cases hget0 : c.services.get req.app.org req.app.name with
  | none =>
    have hget : c.services.get req.app.org svc1.objectMeta.name = none := by
      rw [hname]; exact hget0
    obtain ⟨c2, h1, h2, h3, h4, h5, h6, _⟩ := sim_ingress req owner
      { c with
        services := c.services.put req.app.org svc1.objectMeta.name
          (SimCluster.admitService req.app.org c.freshVersion
            { svc1 with spec := { svc1.spec with clusterIP := c.freshAddress } }),
        nextVersion := c.nextVersion + 1,
        nextAddress := c.nextAddress + 1 } ing hb
    refine ⟨c2, ?_, ⟨c.freshVersion, c.freshAddress, ?_⟩, h2, h3, h5, h6, ?_⟩
    · simp only [SimCluster.serviceCreate, hget, hip, if_true]
      exact h1
    · rw [h4, ← hname]
      exact Store.get_put _ _ _ _
    · rintro ⟨rv, ip, hrv2⟩
      simp at hrv2
  | some cur =>
    have hget : c.services.get req.app.org svc1.objectMeta.name = some cur := by
      rw [hname]; exact hget0
    by_cases hsame : SimCluster.admitService req.app.org cur.objectMeta.resourceVersion
        (svc1.carrying cur) = cur
    · obtain ⟨c2, h1, h2, h3, h4, h5, h6, h7⟩ := sim_ingress req owner c ing hb
      refine ⟨c2, ?_, ⟨cur.objectMeta.resourceVersion, cur.spec.clusterIP, ?_⟩,
        h2, h3, h5, h6, fun _ hi hc => h7 hi hc⟩
      · simp only [Service.carrying] at hsame
        simp only [SimCluster.serviceCreate, SimCluster.serviceUpdate, SimCluster.serviceGet,
          hget, SimCluster.errAlreadyExists, IsAlreadyExists, hsame, if_true, ne_eq,
          not_true_eq_false, and_false, if_false]
        exact h1
      · rw [h4, hget0]
        congr 1
        rw [← hsame]
        rfl
    · obtain ⟨c2, h1, h2, h3, h4, h5, h6, _⟩ := sim_ingress req owner
        { c with
          services := c.services.put req.app.org svc1.objectMeta.name
            (SimCluster.admitService req.app.org c.freshVersion (svc1.carrying cur)),
          nextVersion := c.nextVersion + 1 } ing hb
      refine ⟨c2, ?_, ⟨c.freshVersion, cur.spec.clusterIP, ?_⟩, h2, h3, h5, h6, ?_⟩
      · simp only [Service.carrying] at hsame
        simp only [SimCluster.serviceCreate, SimCluster.serviceUpdate, SimCluster.serviceGet,
          hget, SimCluster.errAlreadyExists, IsAlreadyExists, hsame, if_true, ne_eq,
          not_true_eq_false, and_false, if_false]
        exact h1
      · rw [h4, ← hname]
        exact Store.get_put _ _ _ _
      · rintro ⟨rv, ip, hrv2⟩ _ _
        injection hrv2 with hrv2
        exfalso
        apply hsame
        rw [hrv2]
        rfl

theorem sim_workload (m : Models) (req : DeployRequest) (owner : OwnerReference)
    (deployParams : deployParam) (c : SimCluster) (d : Deployment) (svc : Service)
    (ing : Ingress) (hp : deployParams.appRef = req.app)
    (hd : newAppDeployment m req.stage.id deployParams = .ok d)
    (hs : newAppService req.app = .ok svc)
    (hb : newAppIngress req.app req.route = .ok ing) :
    ∃ c2, deployWorkload m simAPI req owner deployParams c = (.returned none, c2) ∧
      (∃ rv, c2.deployments.get req.app.org req.app.name
        = some (SimCluster.admitDeployment req.app.org rv (d.SetOwnerReferences [owner]))) ∧
      (∃ rv ip, c2.services.get req.app.org req.app.name
        = some (SimCluster.admitService req.app.org rv
            { svc.SetOwnerReferences [owner] with
              spec := { (svc.SetOwnerReferences [owner]).spec with clusterIP := ip } })) ∧
      (∃ rv, c2.ingresses.get req.app.org req.app.name
        = some (SimCluster.admitIngress req.app.org rv (ing.SetOwnerReferences [owner]))) ∧
      c.sameRegistry c2 ∧ c2.stagingClean req ∧
      ((∃ rv, c.deployments.get req.app.org req.app.name
          = some (SimCluster.admitDeployment req.app.org rv (d.SetOwnerReferences [owner]))) →
        (∃ rv ip, c.services.get req.app.org req.app.name
          = some (SimCluster.admitService req.app.org rv
              { svc.SetOwnerReferences [owner] with
                spec := { (svc.SetOwnerReferences [owner]).spec with clusterIP := ip } })) →
        (∃ rv, c.ingresses.get req.app.org req.app.name
          = some (SimCluster.admitIngress req.app.org rv (ing.SetOwnerReferences [owner]))) →
        c.stagingClean req → c2 = c) := by
  have hname : (d.SetOwnerReferences [owner]).objectMeta.name = req.app.name := by
    simp only [newAppDeployment, Except.ok.injEq] at hd
    subst hd
    exact congrArg AppRef.name hp
  have hrv : (d.SetOwnerReferences [owner]).objectMeta.resourceVersion = "" := by
    simp only [newAppDeployment, Except.ok.injEq] at hd
    subst hd
    rfl
  unfold deployWorkload
  simp only [hd, simAPI_deploymentCreate, simAPI_deploymentUpdate]
  generalize d.SetOwnerReferences [owner] = d1 at hname hrv ⊢
  cases hget0 : c.deployments.get req.app.org req.app.name with
  | none =>
    have hget : c.deployments.get req.app.org d1.objectMeta.name = none := by
      rw [hname]; exact hget0
    obtain ⟨c2, h1, h2, h3, h4, h5, h6, _⟩ := sim_service req owner
      { c with
        deployments := c.deployments.put req.app.org d1.objectMeta.name
          (SimCluster.admitDeployment req.app.org c.freshVersion d1),
        nextVersion := c.nextVersion + 1 } svc ing hs hb
    refine ⟨c2, ?_, ⟨c.freshVersion, ?_⟩, h2, h3, h5, h6, ?_⟩
    · simp only [SimCluster.deploymentCreate, hget]
      exact h1
    · rw [h4, ← hname]
      exact Store.get_put _ _ _ _
    · rintro ⟨rv, hrv2⟩
      simp at hrv2
  | some cur =>
    have hget : c.deployments.get req.app.org d1.objectMeta.name = some cur := by
      rw [hname]; exact hget0
    by_cases hsame :
        SimCluster.admitDeployment req.app.org cur.objectMeta.resourceVersion d1 = cur
    · obtain ⟨c2, h1, h2, h3, h4, h5, h6, h7⟩ := sim_service req owner c svc ing hs hb
      refine ⟨c2, ?_, ⟨cur.objectMeta.resourceVersion, ?_⟩, h2, h3, h5, h6,
        fun _ hsv hi hc => h7 hsv hi hc⟩
      · simp only [SimCluster.deploymentCreate, SimCluster.deploymentUpdate, hget,
          SimCluster.errAlreadyExists, IsAlreadyExists, hrv, hsame, if_true, ne_eq,
          not_true_eq_false, false_and, if_false]
        exact h1
      · rw [h4, hget0, hsame]
    · obtain ⟨c2, h1, h2, h3, h4, h5, h6, _⟩ := sim_service req owner
        { c with
          deployments := c.deployments.put req.app.org d1.objectMeta.name
            (SimCluster.admitDeployment req.app.org c.freshVersion d1),
          nextVersion := c.nextVersion + 1 } svc ing hs hb
      refine ⟨c2, ?_, ⟨c.freshVersion, ?_⟩, h2, h3, h5, h6, ?_⟩
      · simp only [SimCluster.deploymentCreate, SimCluster.deploymentUpdate, hget,
          SimCluster.errAlreadyExists, IsAlreadyExists, hrv, hsame, if_true, ne_eq,
          not_true_eq_false, false_and, if_false]
        exact h1
      · rw [h4, ← hname]
        exact Store.get_put _ _ _ _
      · rintro ⟨rv, hrv2⟩ _ _ _
        injection hrv2 with hrv2
        exfalso
        apply hsame
        rw [hrv2]
        rfl

theorem Store.mem_of_get {α : Type} {st : Store α} {ns name : String} {a : α}
    (h : st.get ns name = some a) : ∃ kv ∈ st, kv.2 = a := by
  induction st with
  | nil => simp [Store.get] at h
  | cons kv rest ih =>
    obtain ⟨k, b⟩ := kv
    by_cases hk : k = (ns, name)
    · simp [Store.get, hk] at h
      exact ⟨(k, b), by simp, h⟩
    · simp [Store.get, hk] at h
      obtain ⟨kv, hkv, h2⟩ := ih h
      exact ⟨kv, by simp [hkv], h2⟩

theorem sim_deployParams_eq (req : DeployRequest) (owner : OwnerReference) (n : Int)
    (c c2 : SimCluster) (h : c.sameRegistry c2) :
    c2.deployParams req owner n = c.deployParams req owner n := by
  obtain ⟨_, h2, h3⟩ := h
  simp [SimCluster.deployParams, h2, h3]

theorem sim_instances (m : Models) (req : DeployRequest) (owner : OwnerReference) (n : Int)
    (c : SimCluster) :
    ∃ c2, deployInstances m simAPI req owner n c = (.returned none, c2) ∧
      c.sameRegistry c2 ∧ c2.settled m req owner n ∧
      (c.settled m req owner n → c2 = c) := by
  cases hd : newAppDeployment m req.stage.id (c.deployParams req owner n) with
  | error err => simp [newAppDeployment] at hd
  | ok d =>
  cases hs : newAppService req.app with
  | error err => simp [newAppService] at hs
  | ok svc =>
  cases hb : newAppIngress req.app req.route with
  | error err => simp [newAppIngress] at hb
  | ok ing =>
  obtain ⟨c2, h1, h2, h3, h4, h5, h6, h7⟩ := sim_workload m req owner
    (c.deployParams req owner n) c d svc ing rfl hd hs hb
  refine ⟨c2, ?_, h5, ⟨d, svc, ing, ?_, hs, hb, h2, h3, h4, h6⟩, ?_⟩
  · unfold deployInstances
    simp only [simAPI_mainDomain, simAPI_environment, SimCluster.environment]
    exact h1
  · rw [sim_deployParams_eq req owner n c c2 h5]
    exact hd
  · rintro ⟨d2, svc2, ing2, hd2, hs2, hb2, g1, g2, g3, g4⟩
    rw [hd] at hd2
    rw [hs] at hs2
    rw [hb] at hb2
    injection hd2 with hd2
    injection hs2 with hs2
    injection hb2 with hb2
    subst hd2 hs2 hb2
    exact h7 g1 g2 g3 g4

theorem sim_settled_replicas (m : Models) (req : DeployRequest) (owner : OwnerReference)
    (n : Int) (c : SimCluster) (h : c.settled m req owner n) :
    ∃ d0, c.deployments.get req.app.org req.app.name = some d0 ∧ d0.spec.replicas = some n := by
  obtain ⟨d, _, _, hd, _, _, ⟨rv, hget⟩, _⟩ := h
  simp only [newAppDeployment, Except.ok.injEq] at hd
  subst hd
  exact ⟨_, hget, rfl⟩

theorem sim_validated_again (m : Models) (req : DeployRequest) (c2 : SimCluster)
    (cr : ApplicationCR) (n : Int) (happ : c2.applications.lookup req.app = some cr)
    (hset : c2.settled m req cr.ownerReference n)
    (hk : ∀ k, req.instances = some k → k = n) :
    deployValidated m simAPI req c2 = (.returned none, c2) := by
  obtain ⟨c3, g1, _, _, g4⟩ := sim_instances m req cr.ownerReference n c2
  have g5 := g4 hset
  subst g5
  unfold deployValidated
  simp only [simAPI_getCluster, simAPI_applicationGet, SimCluster.applicationGet, happ]
  cases hi : req.instances with
  | some k =>
    simp only []
    rw [hk k hi]
    exact g1
  | none =>
    obtain ⟨d0, hget, hrep⟩ := sim_settled_replicas m req cr.ownerReference n c3 hset
    simp only [existingReplica, simAPI_deploymentGet, SimCluster.deploymentGet, hget, hrep]
    exact g1

theorem sim_validated_first (m : Models) (req : DeployRequest) (c : SimCluster)
    (cr : ApplicationCR) (happ : c.applications.lookup req.app = some cr)
    (hwf : c.wellFormed) :
    ∃ c2 n, deployValidated m simAPI req c = (.returned none, c2) ∧
      c.sameRegistry c2 ∧ c2.settled m req cr.ownerReference n ∧
      (∀ k, req.instances = some k → k = n) := by
  unfold deployValidated
  simp only [simAPI_getCluster, simAPI_applicationGet, SimCluster.applicationGet, happ]
  cases hi : req.instances with
  | some k =>
    obtain ⟨c2, g1, g2, g3, _⟩ := sim_instances m req cr.ownerReference k c
    refine ⟨c2, k, g1, g2, g3, ?_⟩
    intro k2 hk2
    injection hk2 with hk2
    exact hk2.symm
  | none =>
    simp only [existingReplica, simAPI_deploymentGet, SimCluster.deploymentGet]
    cases hget : c.deployments.get req.app.org req.app.name with
    | none =>
      obtain ⟨c2, g1, g2, g3, _⟩ := sim_instances m req cr.ownerReference DefaultInstances c
      refine ⟨c2, DefaultInstances, ?_, g2, g3, ?_⟩
      · simp only [SimCluster.errNotFound, IsNotFound, if_true]
        exact g1
      · intro k2 hk2
        cases hk2
    | some d0 =>
      obtain ⟨kv, hkv, hkv2⟩ := Store.mem_of_get hget
      have hrep := hwf kv hkv
      rw [hkv2] at hrep
      cases hr : d0.spec.replicas with
      | none => exact absurd hr hrep
      | some N =>
        obtain ⟨c2, g1, g2, g3, _⟩ := sim_instances m req cr.ownerReference N c
        refine ⟨c2, N, ?_, g2, g3, ?_⟩
        · simp only [hr]
          exact g1
        · intro k2 hk2
          cases hk2

/-- C3: on the cluster of section 6, for a deploy request that passes
validation and whose application resource exists, two `Deploy` calls in a row
both succeed, the workload, the service and the ingress stored under the key of
the application after the second call are those stored after the first, the
internal address of the service is the same, and indeed the whole cluster state
after the second call is the state after the first. -/
theorem C3_redeploy_idempotent (m : Models) (r : Request) (c : SimCluster)
    (bodyBytes : String) (req : DeployRequest) (cr : ApplicationCR)
    (hbody : r.body = .ok bodyBytes) (hdecode : m.unmarshal bodyBytes = .ok req)
    (hname : r.app = req.app.name) (horg : r.org = req.app.org)
    (hnonneg : ∀ n, req.instances = some n → 0 ≤ n)
    (happ : c.applications.lookup req.app = some cr)
    (hwf : c.wellFormed) :
    (Deploy m simAPI r c).1 = .returned none ∧
    (Deploy m simAPI r (Deploy m simAPI r c).2).1 = .returned none ∧
    (∃ d, (Deploy m simAPI r c).2.deployments.get req.app.org req.app.name = some d ∧
      (Deploy m simAPI r (Deploy m simAPI r c).2).2.deployments.get req.app.org req.app.name
        = some d) ∧
    (∃ svc, (Deploy m simAPI r c).2.services.get req.app.org req.app.name = some svc ∧
      (Deploy m simAPI r (Deploy m simAPI r c).2).2.services.get req.app.org req.app.name
        = some svc) ∧
    (∃ ing, (Deploy m simAPI r c).2.ingresses.get req.app.org req.app.name = some ing ∧
      (Deploy m simAPI r (Deploy m simAPI r c).2).2.ingresses.get req.app.org req.app.name
        = some ing) ∧
    ((Deploy m simAPI r (Deploy m simAPI r c).2).2.services.get req.app.org req.app.name).map
        (fun svc => svc.spec.clusterIP)
      = ((Deploy m simAPI r c).2.services.get req.app.org req.app.name).map
        (fun svc => svc.spec.clusterIP) ∧
    (Deploy m simAPI r (Deploy m simAPI r c).2).2 = (Deploy m simAPI r c).2 := by
  obtain ⟨c2, n, h1, h2, h3, h4⟩ := sim_validated_first m req c cr happ hwf
  have happ2 : c2.applications.lookup req.app = some cr := by
    rw [h2.1]; exact happ
  have h5 := sim_validated_again m req c2 cr n happ2 h3 h4
  have e1 : Deploy m simAPI r c = (.returned none, c2) := by
    rw [Deploy_valid m simAPI r c bodyBytes req hbody hdecode hname horg hnonneg]
    exact h1
  have e2 : Deploy m simAPI r c2 = (.returned none, c2) := by
    rw [Deploy_valid m simAPI r c2 bodyBytes req hbody hdecode hname horg hnonneg]
    exact h5
  obtain ⟨d, svc, ing, _, _, _, ⟨rv1, g1⟩, ⟨rv2, ip, g2⟩, ⟨rv3, g3⟩, _⟩ := h3
  simp only [e1, e2]
  exact ⟨trivial, trivial, ⟨_, g1, g1⟩, ⟨_, g2, g2⟩, ⟨_, g3, g3⟩, trivial, trivial⟩

/-- Witness of C3: two deploys of the application of the examples, with stage id
`abc123` and no instance count, on the cluster where nothing is deployed. -/
theorem C3_redeploy_idempotent_witness :
    (Deploy (demoModels (demoRequest none "abc123")) simAPI demoHTTP emptyCluster).1
        = .returned none ∧
      (Deploy (demoModels (demoRequest none "abc123")) simAPI demoHTTP
          (Deploy (demoModels (demoRequest none "abc123")) simAPI demoHTTP emptyCluster).2).2
        = (Deploy (demoModels (demoRequest none "abc123")) simAPI demoHTTP emptyCluster).2 :=
  ⟨(C3_redeploy_idempotent (demoModels (demoRequest none "abc123")) demoHTTP emptyCluster "ok"
      (demoRequest none "abc123") demoCR rfl rfl rfl rfl (by simp [demoRequest]) rfl
      (by intro kv hkv; cases hkv)).1,
    (C3_redeploy_idempotent (demoModels (demoRequest none "abc123")) demoHTTP emptyCluster "ok"
      (demoRequest none "abc123") demoCR rfl rfl rfl rfl (by simp [demoRequest]) rfl
      (by intro kv hkv; cases hkv)).2.2.2.2.2.2⟩

/-! ## Claims about the resource builders -/

theorem stageLabel_lookup (name org stageID : String) :
    StringMap.get
      (StringMap.set
        [("app.kubernetes.io/name", name), ("app.kubernetes.io/part-of", org),
         ("app.kubernetes.io/component", "application"),
         ("app.kubernetes.io/managed-by", "epinio")]
        "epinio.suse.org/stage-id" stageID) "epinio.suse.org/stage-id" = some stageID := by
  simp [StringMap.get, StringMap.set, List.lookup]

theorem stageLabel_keeps (name org stageID : String) :
    StringMap.set
        [("app.kubernetes.io/name", name), ("app.kubernetes.io/part-of", org),
         ("app.kubernetes.io/component", "application"),
         ("app.kubernetes.io/managed-by", "epinio")]
        "epinio.suse.org/stage-id" stageID
      = [("app.kubernetes.io/name", name), ("app.kubernetes.io/part-of", org),
         ("app.kubernetes.io/component", "application"),
         ("app.kubernetes.io/managed-by", "epinio"),
         ("epinio.suse.org/stage-id", stageID)] := by
  simp [StringMap.set]

/-- C12, as stated, fails: for the stage id `abc123` the label set of the
workload object itself, its metadata labels, does not contain the key
`epinio.suse.org/stage-id`. -/
theorem C12_counterexample :
    ∃ d, newAppDeployment (demoModels (demoRequest none "abc123")) "abc123" demoParams = .ok d ∧
      d.objectMeta.labels.get "epinio.suse.org/stage-id" = none :=
  ⟨_, rfl, by decide⟩

/-- C12, amended: for a non-empty stage id the label set of the pod template of
the workload built by `newAppDeployment` contains `epinio.suse.org/stage-id`
equal to the stage id, while the metadata labels of the workload object and
the match labels of its selector do not contain that key; for the empty stage
id none of the three label sets contains it. -/
theorem C12_stage_label_on_pod_template (m : Models) (stageID : String)
    (deployParams : deployParam) (hstage : stageID ≠ "") :
    ∃ d sel d0 sel0,
      newAppDeployment m stageID deployParams = .ok d ∧ d.spec.selector = some sel ∧
      d.spec.template.objectMeta.labels.get "epinio.suse.org/stage-id" = some stageID ∧
      d.objectMeta.labels.get "epinio.suse.org/stage-id" = none ∧
      sel.matchLabels.get "epinio.suse.org/stage-id" = none ∧
      newAppDeployment m "" deployParams = .ok d0 ∧ d0.spec.selector = some sel0 ∧
      d0.spec.template.objectMeta.labels.get "epinio.suse.org/stage-id" = none ∧
      d0.objectMeta.labels.get "epinio.suse.org/stage-id" = none ∧
      sel0.matchLabels.get "epinio.suse.org/stage-id" = none := by
  refine ⟨_, _, _, _, rfl, rfl, ?_, ?_, ?_, rfl, rfl, ?_, ?_, ?_⟩
  · simp [hstage, stageLabel_lookup]
  all_goals simp [StringMap.get, List.lookup]

/-- Witness of the amended C12: the stage id `abc123`. -/
theorem C12_stage_label_on_pod_template_witness :
    ∃ d sel d0 sel0,
      newAppDeployment (demoModels (demoRequest none "abc123")) "abc123" demoParams = .ok d ∧
      d.spec.selector = some sel ∧
      d.spec.template.objectMeta.labels.get "epinio.suse.org/stage-id" = some "abc123" ∧
      d.objectMeta.labels.get "epinio.suse.org/stage-id" = none ∧
      sel.matchLabels.get "epinio.suse.org/stage-id" = none ∧
      newAppDeployment (demoModels (demoRequest none "abc123")) "" demoParams = .ok d0 ∧
      d0.spec.selector = some sel0 ∧
      d0.spec.template.objectMeta.labels.get "epinio.suse.org/stage-id" = none ∧
      d0.objectMeta.labels.get "epinio.suse.org/stage-id" = none ∧
      sel0.matchLabels.get "epinio.suse.org/stage-id" = none :=
  C12_stage_label_on_pod_template (demoModels (demoRequest none "abc123")) "abc123" demoParams
    (by decide)

/-- C13: for every application and route, `newAppIngress` returns an ingress
with exactly one rule, for the host `route`, with exactly one path `/` whose
backend is the service named and ported as the service `newAppService`
returns for the application (the name of the application, port 8080), and with
exactly one TLS entry, for the host `route`, whose secret is named `route`
followed by `-tls`. -/
theorem C13_ingress_routes_to_service (appRef : AppRef) (route : String) :
    ∃ ing svc port,
      newAppIngress appRef route = .ok ing ∧ newAppService appRef = .ok svc ∧
      svc.spec.ports = [port] ∧
      ing.spec.rules =
        [{ host := route,
           http := some
             [{ backendService := some { name := svc.objectMeta.name, portNumber := port.port },
                path := "/", pathType := some "ImplementationSpecific" }] }] ∧
      svc.objectMeta.name = appRef.name ∧ port.port = 8080 ∧
      ing.spec.tls = [{ hosts := [route], secretName := route ++ "-tls" }] :=
  ⟨_, _, _, rfl, rfl, rfl, rfl, rfl, rfl, rfl⟩

/-- C14: for every deploy parameters and stage id, `newAppDeployment` returns,
without error, a workload named after the application, whose replica count is
the instance count of the parameters, whose pod template has exactly one
container, with the image of the parameters and exactly one container port,
8080, and whose pod spec sets `AutomountServiceAccountToken` to false. -/
theorem C14_workload_descriptor (m : Models) (stageID : String) (deployParams : deployParam) :
    ∃ d c,
      newAppDeployment m stageID deployParams = .ok d ∧
      d.objectMeta.name = deployParams.appRef.name ∧
      d.spec.replicas = some deployParams.instances ∧
      d.spec.template.spec.containers = [c] ∧
      c.image = deployParams.imageURL ∧
      c.ports = [{ containerPort := 8080 }] ∧
      d.spec.template.spec.automountServiceAccountToken = some false :=
  ⟨_, _, rfl, rfl, rfl, rfl, rfl, rfl, rfl⟩

/-- C15: for every stage id and deploy parameters, the selector of the service
`newAppService` returns for the application of the parameters has exactly the
keys `app.kubernetes.io/name`, with the name of the application, the identity
label of the workload, and `app.kubernetes.io/component`, with `application`;
every key and value of it is present in the pod-template labels of the workload
`newAppDeployment` returns, which carry that name and that component; and the
service has exactly one port, TCP 8080 with target port 8080, the one container
port of the workload. -/
theorem C15_service_selects_workload_pods (m : Models) (stageID : String)
    (deployParams : deployParam) :
    ∃ d svc c,
      newAppDeployment m stageID deployParams = .ok d ∧
      newAppService deployParams.appRef = .ok svc ∧
      svc.spec.selector.selects d.spec.template.objectMeta.labels ∧
      svc.spec.selector.get "app.kubernetes.io/name" = some deployParams.appRef.name ∧
      svc.spec.selector.get "app.kubernetes.io/component" = some "application" ∧
      (∀ kv ∈ svc.spec.selector,
        kv.1 = "app.kubernetes.io/name" ∨ kv.1 = "app.kubernetes.io/component") ∧
      d.spec.template.objectMeta.labels.get "app.kubernetes.io/name"
        = some deployParams.appRef.name ∧
      d.spec.template.objectMeta.labels.get "app.kubernetes.io/component"
        = some "application" ∧
      svc.spec.ports = [{ port := 8080, protocol := "TCP", targetPort := 8080 }] ∧
      d.spec.template.spec.containers = [c] ∧
      c.ports = [{ containerPort := 8080 }] := by
  have hsel : ∀ kv ∈ [("app.kubernetes.io/component", "application"),
      ("app.kubernetes.io/name", deployParams.appRef.name)],
      StringMap.get (if stageID ≠ "" then
          StringMap.set [("app.kubernetes.io/name", deployParams.appRef.name),
            ("app.kubernetes.io/part-of", deployParams.appRef.org),
            ("app.kubernetes.io/component", "application"),
            ("app.kubernetes.io/managed-by", "epinio")] "epinio.suse.org/stage-id" stageID
        else [("app.kubernetes.io/name", deployParams.appRef.name),
            ("app.kubernetes.io/part-of", deployParams.appRef.org),
            ("app.kubernetes.io/component", "application"),
            ("app.kubernetes.io/managed-by", "epinio")]) kv.1 = some kv.2 := by
    intro kv hkv
    by_cases hstage : stageID = ""
    · simp at hkv
      rcases hkv with rfl | rfl <;> simp [hstage, StringMap.get, List.lookup]
    · simp at hkv
      rcases hkv with rfl | rfl <;> simp [hstage, stageLabel_keeps, StringMap.get, List.lookup]
  refine ⟨_, _, _, rfl, rfl, hsel, ?_, ?_, ?_, ?_, ?_, rfl, rfl, rfl⟩
  · simp [StringMap.get, List.lookup]
  · simp [StringMap.get, List.lookup]
  · intro kv hkv
    simp at hkv
    rcases hkv with rfl | rfl <;> simp
  · exact hsel ("app.kubernetes.io/name", deployParams.appRef.name) (by simp)
  · exact hsel ("app.kubernetes.io/component", "application") (by simp)

/-- C20: for every deploy parameters and every stage id, every key and value of
the match labels of the selector of the workload `newAppDeployment` returns is
present in the labels of its pod template; the selector is the one built for
the empty stage id, and the pod-template labels give every key of the selector
the value they give it for the empty stage id. -/
theorem C20_workload_selects_own_pods (m : Models) (stageID : String)
    (deployParams : deployParam) :
    ∃ d sel d0,
      newAppDeployment m stageID deployParams = .ok d ∧
      d.spec.selector = some sel ∧
      sel.matchLabels.selects d.spec.template.objectMeta.labels ∧
      newAppDeployment m "" deployParams = .ok d0 ∧
      d0.spec.selector = some sel ∧
      ∀ kv ∈ sel.matchLabels,
        d.spec.template.objectMeta.labels.get kv.1
          = d0.spec.template.objectMeta.labels.get kv.1 := by
  refine ⟨_, _, _, rfl, rfl, ?_, rfl, rfl, ?_⟩
  · intro kv hkv
    by_cases hstage : stageID = ""
    · simp at hkv
      subst hkv
      simp [hstage, StringMap.get, List.lookup]
    · simp at hkv
      subst hkv
      simp [hstage, stageLabel_keeps, StringMap.get, List.lookup]
  · intro kv hkv
    by_cases hstage : stageID = ""
    · simp [hstage]
    · simp at hkv
      subst hkv
      simp [hstage, stageLabel_keeps, StringMap.get, List.lookup]

/-! ## Claims about the failures of a deploy request -/

/-- C11: for a deploy request that passes validation, when access to the
cluster is granted and the lookup of the application resource fails, `Deploy`
returns the application-is-not-known error if the failure is not-found and an
internal error made from the failure otherwise; the two are made by different
constructors and have different statuses, 404 and 500; in both cases the
record of calls holds the access to the cluster and the lookup and nothing
else, so no object is created or updated, and the cluster state is the one the
lookup left. -/
theorem C11_application_lookup_failure {σ : Type} (m : Models) (api : ClusterAPI σ)
    (r : Request) (s s1 s2 : σ) (bodyBytes : String) (req : DeployRequest) (err : GoError)
    (hbody : r.body = .ok bodyBytes) (hdecode : m.unmarshal bodyBytes = .ok req)
    (hname : r.app = req.app.name) (horg : r.org = req.app.org)
    (hnonneg : ∀ n, req.instances = some n → 0 ≤ n)
    (hcluster : api.getCluster s = (none, s1))
    (hlookup : api.applicationGet req.app s1 = (.error err, s2)) :
    (IsNotFound err = true →
      Deploy m api r s
        = (.returned (some
            (.AppIsNotKnown "cannot deploy app, application resource is missing")), s2)) ∧
    (IsNotFound err = false →
      Deploy m api r s
        = (.returned (some
            (.InternalError err ["failed to get the application resource"])), s2)) ∧
    (Deploy m (traced api) r (s, [])).2
      = (s2, [⟨.getCluster, .done⟩, ⟨.applicationGet req.app, .failed err⟩]) ∧
    (APIError.AppIsNotKnown "cannot deploy app, application resource is missing").status = 404 ∧
    (APIError.InternalError err ["failed to get the application resource"]).status = 500 ∧
    APIError.AppIsNotKnown "cannot deploy app, application resource is missing"
      ≠ APIError.InternalError err ["failed to get the application resource"] := by
  refine ⟨?_, ?_, ?_, rfl, rfl, by simp⟩
  · intro hnf
    rw [Deploy_valid m api r s bodyBytes req hbody hdecode hname horg hnonneg]
    simp [deployValidated, hcluster, hlookup, hnf]
  · intro hnf
    rw [Deploy_valid m api r s bodyBytes req hbody hdecode hname horg hnonneg]
    simp [deployValidated, hcluster, hlookup, hnf]
  · rw [Deploy_valid m (traced api) r (s, []) bodyBytes req hbody hdecode hname horg hnonneg]
    cases hnf : IsNotFound err <;>
      simp [deployValidated, traced, record, hcluster, hlookup, hnf, Reply.ofError,
        Reply.ofExcept]

/-- Witness of C11: the application of the examples is deployed to a cluster in
which it is not registered; to a cluster whose lookup fails with a not-found
error wrapped with a message; and to a cluster whose lookup times out. -/
theorem C11_application_lookup_failure_witness :
    Deploy (demoModels (demoRequest none "")) simAPI demoHTTP strangerCluster
      = (.returned (some
          (.AppIsNotKnown "cannot deploy app, application resource is missing")),
        strangerCluster) ∧
    Deploy (demoModels (demoRequest none ""))
        (lookupFailsWith (.wrap (SimCluster.errNotFound "demo") "getting the application"))
        demoHTTP emptyCluster
      = (.returned (some
          (.AppIsNotKnown "cannot deploy app, application resource is missing")),
        emptyCluster) ∧
    Deploy (demoModels (demoRequest none ""))
        (lookupFailsWith (.status .unknown "etcdserver: request timed out"))
        demoHTTP emptyCluster
      = (.returned (some
          (.InternalError (.status .unknown "etcdserver: request timed out")
            ["failed to get the application resource"])),
        emptyCluster) :=
  ⟨(C11_application_lookup_failure (demoModels (demoRequest none "")) simAPI demoHTTP
      strangerCluster strangerCluster strangerCluster "ok" (demoRequest none "")
      (SimCluster.errNotFound "demo") rfl rfl rfl rfl (by simp [demoRequest]) rfl rfl).1 rfl,
    (C11_application_lookup_failure (demoModels (demoRequest none ""))
      (lookupFailsWith (.wrap (SimCluster.errNotFound "demo") "getting the application"))
      demoHTTP emptyCluster emptyCluster emptyCluster "ok" (demoRequest none "")
      (.wrap (SimCluster.errNotFound "demo") "getting the application")
      rfl rfl rfl rfl (by simp [demoRequest]) rfl rfl).1 rfl,
    (C11_application_lookup_failure (demoModels (demoRequest none ""))
      (lookupFailsWith (.status .unknown "etcdserver: request timed out"))
      demoHTTP emptyCluster emptyCluster emptyCluster "ok" (demoRequest none "")
      (.status .unknown "etcdserver: request timed out")
      rfl rfl rfl rfl (by simp [demoRequest]) rfl rfl).2.1 rfl⟩

/-- C16: a request whose body does not decode as a deploy request is answered
with the bad-request error whose title is `Failed to unmarshal deploy request`
followed by a blank, with the text of the decoding error as its details, and
neither the cluster state nor the record of calls changes: no call is made. -/
theorem C16_undecodable_body_rejected {σ : Type} (m : Models) (api : ClusterAPI σ)
    (r : Request) (s : σ) (log : List Event) (bodyBytes : String) (err : GoError)
    (hbody : r.body = .ok bodyBytes) (hdecode : m.unmarshal bodyBytes = .error err) :
    Deploy m (traced api) r (s, log)
        = (.returned (some
            (.NewBadRequest "Failed to unmarshal deploy request " [err.Error])), (s, log)) ∧
      Deploy m api r s
        = (.returned (some
            (.NewBadRequest "Failed to unmarshal deploy request " [err.Error])), s) ∧
      (APIError.NewBadRequest "Failed to unmarshal deploy request " [err.Error]).status = 400 ∧
      (APIError.NewBadRequest "Failed to unmarshal deploy request " [err.Error]).title
        = "Failed to unmarshal deploy request" ++ " " := by
  have htitle : ("Failed to unmarshal deploy request " : String)
      = "Failed to unmarshal deploy request" ++ " " := by decide
  refine ⟨?_, ?_, rfl, htitle⟩ <;> simp [Deploy, hbody, hdecode]

/-- Witness of C16: a body whose instances field is not a number. -/
theorem C16_undecodable_body_rejected_witness :
    Deploy (demoModels (demoRequest none "")) (traced simAPI) garbledHTTP (emptyCluster, [])
        = (.returned (some
            (.NewBadRequest "Failed to unmarshal deploy request "
              [(GoError.new "invalid character in numeric literal").Error])),
          (emptyCluster, [])) ∧
      Deploy (demoModels (demoRequest none "")) simAPI garbledHTTP emptyCluster
        = (.returned (some
            (.NewBadRequest "Failed to unmarshal deploy request "
              [(GoError.new "invalid character in numeric literal").Error])), emptyCluster) ∧
      (APIError.NewBadRequest "Failed to unmarshal deploy request "
        [(GoError.new "invalid character in numeric literal").Error]).status = 400 ∧
      (APIError.NewBadRequest "Failed to unmarshal deploy request "
        [(GoError.new "invalid character in numeric literal").Error]).title
        = "Failed to unmarshal deploy request" ++ " " :=
  C16_undecodable_body_rejected (demoModels (demoRequest none "")) simAPI garbledHTTP
    emptyCluster [] "instances: thisisnotanumber"
    (GoError.new "invalid character in numeric literal") rfl (by simp [demoModels])

/-! ## Claims about the poll step -/

theorem scanConditions_eq_find (cs : List Condition) :
    scanConditions cs = (cs.find? Condition.IsFalse).map (fun c => GoError.new c.message) := by
  induction cs with
  | nil => rfl
  | cons c cs ih =>
    cases h : c.IsFalse <;> simp [scanConditions, List.find?, h, ih]

theorem scanRuns_eq_reference (runs : List PipelineRun) :
    scanRuns runs = (pollReference runs).toGo := by
  induction runs with
  | nil => rfl
  | cons pr rest ih =>
    cases hs : scanConditions pr.conditions with
    | some err =>
      have hf : pr.failed = true := by
        cases hfl : pr.failed with
        | true => rfl
        | false => rw [failed_eq_false_iff.mp hfl] at hs; cases hs
      rw [scanConditions_eq_find] at hs
      cases hfind : pr.conditions.find? Condition.IsFalse with
      | none => simp [hfind] at hs
      | some cond =>
        simp only [hfind, Option.map_some', Option.some.injEq] at hs
        have hs2 : scanConditions pr.conditions = some (GoError.new cond.message) := by
          rw [scanConditions_eq_find, hfind]; rfl
        simp [scanRuns, hs2, pollReference, List.find?, PipelineRun.terminal, hf, hfind,
          PollOutcome.toGo]
    | none =>
      have hf : pr.failed = false := failed_eq_false_iff.mpr hs
      have hfind : pr.conditions.find? Condition.IsFalse = none := by
        rw [scanConditions_eq_find] at hs
        cases h : pr.conditions.find? Condition.IsFalse with
        | none => rfl
        | some c => simp [h] at hs
      cases hc : pr.completionTime.isSome with
      | true =>
        simp [scanRuns, hs, hc, pollReference, List.find?, PipelineRun.terminal, hf, hfind,
          PollOutcome.toGo]
      | false =>
        simp only [scanRuns, hs, hc, ih]
        simp [pollReference, List.find?, PipelineRun.terminal, hf, hc]

theorem pollFunc_eq_scanRuns (runs : List PipelineRun) :
    pollFunc (.ok runs) = scanRuns runs := by
  cases runs with
  | nil => rfl
  | cons pr rest => simp [pollFunc]

theorem pollReference_first_terminal (before after : List PipelineRun) (t : PipelineRun)
    (hbefore : ∀ p ∈ before, p.terminal = false) (hterm : t.terminal = true) :
    pollReference (before ++ t :: after) = pollReference [t] := by
  induction before with
  | nil => simp [pollReference, List.find?, hterm]
  | cons p ps ih =>
    have hp : p.terminal = false := hbefore p (by simp)
    have hps : ∀ x ∈ ps, x.terminal = false := fun x hx => hbefore x (by simp [hx])
    have := ih hps
    simp only [pollReference, List.cons_append, List.find?, hp] at this ⊢
    exact this

/-- C19: one poll step over a returned list is the reference step: the first
terminal run of the list, in list order, decides, where a run is terminal when
it has a false condition or a completion time; the step fails with the message
of the first false condition of that run if it has one, also when the run has a
completion time, succeeds otherwise, and keeps polling when no run is
terminal, the empty list included. Hence the result of the step depends on no
run after the first terminal one. -/
theorem C19_poll_step_is_reference (before after other : List PipelineRun)
    (t : PipelineRun) (hbefore : ∀ p ∈ before, p.terminal = false)
    (hterm : t.terminal = true) :
    (∀ runs, pollFunc (.ok runs) = (pollReference runs).toGo) ∧
      pollFunc (.ok (before ++ t :: after)) = pollFunc (.ok (before ++ t :: other)) ∧
      pollFunc (.ok (before ++ t :: after)) = pollFunc (.ok [t]) ∧
      (∀ cond rest, t.conditions.find? Condition.IsFalse = some cond →
        pollFunc (.ok (before ++ t :: rest)) = (false, some (GoError.new cond.message))) ∧
      (t.conditions.find? Condition.IsFalse = none →
        ∀ rest, pollFunc (.ok (before ++ t :: rest)) = (true, none)) ∧
      pollFunc (.ok []) = (false, none) ∧
      pollFunc (.ok before) = (false, none) := by
  have href : ∀ runs, pollFunc (.ok runs) = (pollReference runs).toGo := by
    intro runs
    rw [pollFunc_eq_scanRuns, scanRuns_eq_reference]
  have hfirst : ∀ rest, pollFunc (.ok (before ++ t :: rest)) = pollFunc (.ok [t]) := by
    intro rest
    rw [href, href, pollReference_first_terminal before rest t hbefore hterm]
  refine ⟨href, by rw [hfirst, hfirst], hfirst after, ?_, ?_, rfl, ?_⟩
  · intro cond rest hcond
    rw [hfirst, href]
    simp [pollReference, List.find?, hterm, hcond, PollOutcome.toGo]
  · intro hnone rest
    rw [hfirst, href]
    simp [pollReference, List.find?, hterm, hnone, PollOutcome.toGo]
  · rw [href]
    have : before.find? PipelineRun.terminal = none := by
      rw [List.find?_eq_none]
      intro p hp
      simp [hbefore p hp]
    simp [pollReference, this, PollOutcome.toGo]

/-- Witness of C19: a running run, then a run with a false condition and a
completion time, then a cleanly completed run. -/
theorem C19_poll_step_is_reference_witness :
    pollFunc (.ok ([pendingRun] ++ failedCompletedRun :: [completedRun]))
      = (false, some (GoError.new "step build exited with code 1")) :=
  (C19_poll_step_is_reference [pendingRun] [completedRun] [] failedCompletedRun
    (by decide) (by decide)).2.2.2.1 ⟨"False", "step build exited with code 1"⟩ [completedRun]
    (by decide)

/-! ## Claims about the stop channel -/

theorem Chan.run_receives (ch : Chan) (k : Nat) :
    ∃ ch2, Chan.run ch (List.replicate k ChanOp.receive) = some ch2 ∧
      ch2.capacity = ch.capacity ∧ ch2.buffer.length ≤ ch.buffer.length := by
  induction k generalizing ch with
  | zero => exact ⟨ch, rfl, rfl, Nat.le_refl _⟩
  | succ k ih =>
    obtain ⟨ch2, h1, h2, h3⟩ := ih { ch with buffer := ch.buffer.tail }
    refine ⟨ch2, ?_, h2, ?_⟩
    · simpa [List.replicate, Chan.run, Chan.step] using h1
    · have : ch.buffer.tail.length ≤ ch.buffer.length := by simp
      exact Nat.le_trans h3 this

theorem Chan.run_append (ch : Chan) (ops1 ops2 : List ChanOp) :
    Chan.run ch (ops1 ++ ops2) = (Chan.run ch ops1).bind (fun ch2 => Chan.run ch2 ops2) := by
  induction ops1 generalizing ch with
  | nil => rfl
  | cons op ops ih =>
    cases h : ch.step op with
    | none => simp [Chan.run, h]
    | some ch2 => simp [Chan.run, h, ih]

/-- C17: in every execution of `stageLogs` the stop channel is made with a
buffer capacity of 1 and exactly one value is sent on it, after
`waitForPipelineRun` has returned, with an error or without, and before the
wait for the relay; so the number of sends does not exceed the capacity, and
the send does not block whatever number of times the relay looks for a value
before it and after it, also when the relay never does. -/
theorem C17_stop_send_never_blocks (c : EpinioClient) (stageID : String) (k j : Nat) :
    (stageLogs c stageID).steps
        = [.makeStopChan 1, .startRelay, .pollEnded (waitForPipelineRun c stageID).1,
           .sendStop true, .waitRelay] ∧
      (stageLogs c stageID).stopSent = [true] ∧
      (stageLogs c stageID).stopSent.length ≤ (Chan.make 1).capacity ∧
      (∃ ch, Chan.run (Chan.make 1)
          ((stageLogs c stageID).stopSent.map ChanOp.send) = some ch) ∧
      (∃ ch, Chan.run (Chan.make 1)
          (List.replicate k ChanOp.receive
            ++ (stageLogs c stageID).stopSent.map ChanOp.send
            ++ List.replicate j ChanOp.receive) = some ch) := by
  have hsteps : (stageLogs c stageID).steps
      = [.makeStopChan 1, .startRelay, .pollEnded (waitForPipelineRun c stageID).1,
         .sendStop true, .waitRelay] := by
    unfold stageLogs
    cases (waitForPipelineRun c stageID).1 <;> rfl
  have hsent : (stageLogs c stageID).stopSent = [true] := by
    simp [StageLogsResult.stopSent, hsteps, StageLogsStep.sent]
  refine ⟨hsteps, hsent, by simp [hsent, Chan.make], ⟨_, by rw [hsent]; rfl⟩, ?_⟩
  rw [hsent]
  obtain ⟨ch1, h1, hcap, hlen⟩ := Chan.run_receives (Chan.make 1) k
  have hempty : ch1.buffer.length = 0 := by
    simpa [Chan.make] using hlen
  have hcap1 : ch1.capacity = 1 := by simpa [Chan.make] using hcap
  obtain ⟨ch3, h3, _, _⟩ := Chan.run_receives { ch1 with buffer := ch1.buffer ++ [true] } j
  rw [hcap1] at h3
  refine ⟨ch3, ?_⟩
  rw [Chan.run_append, Chan.run_append, h1]
  simp [Chan.run, Chan.step, hempty, hcap1, h3]

/-! ## Claims about the cleanup of staging runs -/

theorem Call.stage_of_applies {c : Call} {kind : Kind} (h : c.applies = some kind) :
    c.stage = kind.stage := by
  cases c <;> simp [Call.applies] at h <;> subst h <;> rfl

theorem Call.stage_of_isUnstage {c : Call} (h : c.isUnstage = true) : c.stage = 4 := by
  cases c <;> first | rfl | simp [Call.isUnstage] at h

theorem Kind.stage_pos (kind : Kind) : 1 ≤ kind.stage ∧ kind.stage ≤ 3 := by
  cases kind <;> simp [Kind.stage]

theorem Kind.stage_inj {a b : Kind} (h : a.stage = b.stage) : a = b := by
  cases a <;> cases b <;> simp [Kind.stage] at h <;> rfl

theorem applied_append (kind : Kind) (a b : List Event) :
    applied kind (a ++ b) ↔ applied kind a ∨ applied kind b := by
  constructor
  · rintro ⟨ev, hev, h⟩
    rcases List.mem_append.mp hev with h1 | h1
    · exact Or.inl ⟨ev, h1, h⟩
    · exact Or.inr ⟨ev, h1, h⟩
  · rintro (⟨ev, hev, h⟩ | ⟨ev, hev, h⟩)
    · exact ⟨ev, List.mem_append.mpr (Or.inl hev), h⟩
    · exact ⟨ev, List.mem_append.mpr (Or.inr hev), h⟩

theorem not_applied_of_stage {kind : Kind} {evs : List Event}
    (h : ∀ ev ∈ evs, ev.call.stage ≠ kind.stage) : ¬ applied kind evs := by
  rintro ⟨ev, hev, _, ha⟩
  exact h ev hev (Call.stage_of_applies ha)

theorem not_unstage_of_stage {evs : List Event} {k : Nat} (hk : k ≠ 4)
    (h : ∀ ev ∈ evs, ev.call.stage = k) : ¬ ∃ ev ∈ evs, ev.call.isUnstage = true := by
  rintro ⟨ev, hev, hu⟩
  have := Call.stage_of_isUnstage hu
  rw [h ev hev] at this
  exact hk this

theorem eachEvent_append_of_forall (pre evs : List Event) (Q : Event → List Event → Prop)
    (hpre : ∀ ev ∈ pre, ∀ after, Q ev after) (h : EachEvent evs Q) :
    EachEvent (pre ++ evs) Q := by
  induction pre with
  | nil => exact h
  | cons p ps ih =>
    rw [List.cons_append, eachEvent_cons]
    exact ⟨hpre p (by simp) _, ih (fun ev hev => hpre ev (by simp [hev]))⟩

theorem cleanupSpec_abort (req : DeployRequest) (k : Nat) (out : Outcome) (pre : List Event)
    (kind : Kind) (hout : out ≠ .returned none) (hk : k ≤ kind.stage)
    (hstage : ∀ ev ∈ pre, k ≤ ev.call.stage)
    (hnot4 : ∀ ev ∈ pre, ev.call.isUnstage = false)
    (hnot : ¬ applied kind pre) : CleanupSpec req k out pre := by
  have hnou : ¬ ∃ ev ∈ pre, ev.call.isUnstage = true := by
    rintro ⟨ev, hev, hu⟩
    rw [hnot4 ev hev] at hu
    cases hu
  refine ⟨hstage, ⟨fun h => absurd h hnou, fun h => absurd (h.2 kind hk) hnot⟩, ?_, ?_, ?_,
    fun h => absurd h hout⟩
  · intro ev hev hu
    exact absurd ⟨ev, hev, hu⟩ hnou
  · have := eachEvent_append_of_forall pre []
      (fun ev after => ev.call.isUnstage = true → after = [] ∧ out = ev.reply.cleanupOutcome)
      (fun ev hev after hu => by rw [hnot4 ev hev] at hu; cases hu) (eachEvent_nil _)
    simpa using this
  · intro _ h
    exact absurd (h kind hk) hnot

theorem cleanupSpec_continue (req : DeployRequest) (out : Outcome) (pre evs : List Event)
    (kind : Kind) (hstage : ∀ ev ∈ pre, ev.call.stage = kind.stage)
    (happlied : applied kind pre) (h : CleanupSpec req (kind.stage + 1) out evs) :
    CleanupSpec req kind.stage out (pre ++ evs) := by
  obtain ⟨h1, h2, h3, h4, h5, h6⟩ := h
  have hk4 : kind.stage ≠ 4 := by have := kind.stage_pos; omega
  have hnou : ∀ ev ∈ pre, ev.call.isUnstage = false := by
    intro ev hev
    cases hu : ev.call.isUnstage with
    | false => rfl
    | true => exact absurd ⟨ev, hev, hu⟩ (not_unstage_of_stage hk4 hstage)
  have hfrom : AppliedFrom kind.stage (pre ++ evs) ↔ AppliedFrom (kind.stage + 1) evs := by
    constructor
    · intro h kind2 hk2
      rcases (applied_append kind2 pre evs).mp (h kind2 (by omega)) with hp | he
      · exact absurd hp (not_applied_of_stage (fun ev hev => by rw [hstage ev hev]; omega))
      · exact he
    · intro h kind2 hk2
      by_cases heq : kind2.stage = kind.stage
      · rw [Kind.stage_inj heq]
        exact (applied_append kind pre evs).mpr (Or.inl happlied)
      · exact (applied_append kind2 pre evs).mpr (Or.inr (h kind2 (by omega)))
  have hun : (∃ ev ∈ pre ++ evs, ev.call.isUnstage = true)
      ↔ (∃ ev ∈ evs, ev.call.isUnstage = true) := by
    constructor
    · rintro ⟨ev, hev, hu⟩
      rcases List.mem_append.mp hev with hp | he
      · rw [hnou ev hp] at hu; cases hu
      · exact ⟨ev, he, hu⟩
    · rintro ⟨ev, hev, hu⟩
      exact ⟨ev, List.mem_append.mpr (Or.inr hev), hu⟩
  refine ⟨?_, ?_, ?_, ?_, ?_, fun h => hfrom.mpr (h6 h)⟩
  · intro ev hev
    rcases List.mem_append.mp hev with hp | he
    · rw [hstage ev hp]
    · have := h1 ev he
      omega
  · rw [hun, hfrom]
    exact h2
  · intro ev hev hu
    rcases List.mem_append.mp hev with hp | he
    · rw [hnou ev hp] at hu; cases hu
    · exact h3 ev he hu
  · exact eachEvent_append_of_forall pre evs _
      (fun ev hev after hu => by rw [hnou ev hev] at hu; cases hu) h4
  · intro hid hall
    exact h5 hid (hfrom.mp hall)

theorem cleanupSpec_lookups (req : DeployRequest) (out : Outcome) (pre evs : List Event)
    (k : Nat) (hk : k ≤ 1) (hstage : ∀ ev ∈ pre, ev.call.stage = 0)
    (h : CleanupSpec req k out evs) : CleanupSpec req 0 out (pre ++ evs) := by
  obtain ⟨_, h2, h3, h4, h5, h6⟩ := h
  have hnou : ∀ ev ∈ pre, ev.call.isUnstage = false := by
    intro ev hev
    cases hu : ev.call.isUnstage with
    | false => rfl
    | true => exact absurd ⟨ev, hev, hu⟩ (not_unstage_of_stage (by decide) hstage)
  have hfrom : AppliedFrom 0 (pre ++ evs) ↔ AppliedFrom k evs := by
    constructor
    · intro h kind2 _
      rcases (applied_append kind2 pre evs).mp (h kind2 (Nat.zero_le _)) with hp | he
      · exact absurd hp (not_applied_of_stage (fun ev hev => by
          rw [hstage ev hev]; have := kind2.stage_pos; omega))
      · exact he
    · intro h kind2 _
      exact (applied_append kind2 pre evs).mpr
        (Or.inr (h kind2 (by have := kind2.stage_pos; omega)))
  have hun : (∃ ev ∈ pre ++ evs, ev.call.isUnstage = true)
      ↔ (∃ ev ∈ evs, ev.call.isUnstage = true) := by
    constructor
    · rintro ⟨ev, hev, hu⟩
      rcases List.mem_append.mp hev with hp | he
      · rw [hnou ev hp] at hu; cases hu
      · exact ⟨ev, he, hu⟩
    · rintro ⟨ev, hev, hu⟩
      exact ⟨ev, List.mem_append.mpr (Or.inr hev), hu⟩
  refine ⟨fun _ _ => Nat.zero_le _, ?_, ?_, ?_, ?_, fun h => hfrom.mpr (h6 h)⟩
  · rw [hun, hfrom]
    exact h2
  · intro ev hev hu
    rcases List.mem_append.mp hev with hp | he
    · rw [hnou ev hp] at hu; cases hu
    · exact h3 ev he hu
  · exact eachEvent_append_of_forall pre evs _
      (fun ev hev after hu => by rw [hnou ev hev] at hu; cases hu) h4
  · intro hid hall
    exact h5 hid (hfrom.mp hall)

theorem cleanup_spec {σ : Type} (api : ClusterAPI σ) (req : DeployRequest) (s : σ)
    (log : List Event) :
    ∃ evs, (deployCleanup (traced api) req (s, log)).2.2 = log ++ evs ∧
      CleanupSpec req 4 (deployCleanup (traced api) req (s, log)).1 evs := by
  have hfrom : ∀ evs, AppliedFrom 4 evs := by
    intro evs kind hk
    have := kind.stage_pos
    omega
  unfold deployCleanup
  by_cases hid : req.stage.id = ""
  · refine ⟨[], by simp [hid], by simp, ?_, by simp, eachEvent_nil _, ?_, fun _ => hfrom _⟩
    · simp [hid]
    · intro _ _
      simp [hid]
  · simp only [ne_eq, hid, not_false_eq_true, if_true, traced, record]
    rcases api.unstage req.app req.stage.id s with ⟨_ | err, s1⟩
    · refine ⟨[_], rfl, by simp [Call.stage], ?_, by simp, ?_, fun h => absurd h hid,
        fun _ => hfrom _⟩
      · simp [hid, hfrom, Call.isUnstage]
      · simp [eachEvent_cons, eachEvent_nil, Reply.ofError, Reply.cleanupOutcome]
    · refine ⟨[_], rfl, by simp [Call.stage], ?_, by simp, ?_, fun h => absurd h hid,
        fun _ => hfrom _⟩
      · simp [hid, hfrom, Call.isUnstage]
      · simp [eachEvent_cons, eachEvent_nil, Reply.ofError, Reply.cleanupOutcome]

theorem ingress_spec {σ : Type} (api : ClusterAPI σ) (req : DeployRequest)
    (owner : OwnerReference) (s : σ) (log : List Event) :
    ∃ evs, (deployIngress (traced api) req owner (s, log)).2.2 = log ++ evs ∧
      CleanupSpec req 3 (deployIngress (traced api) req owner (s, log)).1 evs := by
  unfold deployIngress
  rcases hb : newAppIngress req.app req.route with berr | ing
  · simp [newAppIngress] at hb
  simp only [traced, record]
  generalize ing.SetOwnerReferences [owner] = ing1
  rcases api.ingressCreate req.app.org ing1 s with ⟨_ | err, s1⟩
  · obtain ⟨evs, h1, h2⟩ := cleanup_spec api req s1 (log ++ [⟨Call.ingressCreate _ _, .done⟩])
    refine ⟨[_] ++ evs, by simpa [traced, record] using h1, ?_⟩
    exact cleanupSpec_continue req _ _ evs .ingress (by simp [Call.stage, Kind.stage])
      ⟨_, List.mem_singleton.mpr rfl, rfl, rfl⟩ h2
  · simp only []
    by_cases hae : IsAlreadyExists err = true
    · simp only [hae, if_true]
      rcases api.ingressUpdate req.app.org ing1 s1 with ⟨_ | err2, s2⟩
      · obtain ⟨evs, h1, h2⟩ := cleanup_spec api req s2
          (log ++ [⟨Call.ingressCreate _ _, .failed err⟩] ++ [⟨Call.ingressUpdate _ _, .done⟩])
        refine ⟨[_, _] ++ evs, by simpa [traced, record] using h1, ?_⟩
        exact cleanupSpec_continue req _ _ evs .ingress (by simp [Call.stage, Kind.stage])
          ⟨⟨Call.ingressUpdate req.app.org ing1, .done⟩, by simp, rfl, rfl⟩ h2
      · refine ⟨[_, _], List.append_assoc _ _ _, ?_⟩
        exact cleanupSpec_abort req 3 _ _ .ingress (by simp) (Nat.le_refl _) (by simp [Call.stage])
          (by simp [Call.isUnstage]) (by simp [applied, Reply.ofError])
    · simp only [hae]
      refine ⟨[_], rfl, ?_⟩
      exact cleanupSpec_abort req 3 _ _ .ingress (by simp) (Nat.le_refl _) (by simp [Call.stage])
        (by simp [Call.isUnstage]) (by simp [applied, Reply.ofError])

theorem service_spec {σ : Type} (api : ClusterAPI σ) (req : DeployRequest)
    (owner : OwnerReference) (s : σ) (log : List Event) :
    ∃ evs, (deployService (traced api) req owner (s, log)).2.2 = log ++ evs ∧
      CleanupSpec req 2 (deployService (traced api) req owner (s, log)).1 evs := by
  unfold deployService
  rcases hb : newAppService req.app with berr | svc
  · simp [newAppService] at hb
  simp only [traced, record]
  generalize svc.SetOwnerReferences [owner] = svc1
  rcases api.serviceCreate req.app.org svc1 s with ⟨_ | err, s1⟩
  · obtain ⟨evs, h1, h2⟩ := ingress_spec api req owner s1
      (log ++ [⟨Call.serviceCreate _ _, .done⟩])
    refine ⟨[_] ++ evs, by simpa [traced, record] using h1, ?_⟩
    exact cleanupSpec_continue req _ _ evs .service (by simp [Call.stage, Kind.stage])
      ⟨_, List.mem_singleton.mpr rfl, rfl, rfl⟩ h2
  · simp only []
    by_cases hae : IsAlreadyExists err = true
    · simp only [hae, if_true]
      rcases api.serviceGet req.app.org svc1.objectMeta.name s1 with ⟨err2 | service, s2⟩
      · refine ⟨[_, _], List.append_assoc _ _ _, ?_⟩
        exact cleanupSpec_abort req 2 _ _ .service (by simp) (Nat.le_refl _) (by simp [Call.stage])
          (by simp [Call.isUnstage]) (by simp [applied, Reply.ofError, Reply.ofExcept])
      · simp only []
        rcases api.serviceUpdate req.app.org _ s2 with ⟨_ | err3, s3⟩
        · obtain ⟨evs, h1, h2⟩ := ingress_spec api req owner s3
            (log ++ [⟨Call.serviceCreate _ _, .failed err⟩]
              ++ [⟨Call.serviceGet _ _, .service service⟩] ++ [⟨Call.serviceUpdate _ _, .done⟩])
          refine ⟨_ :: _ :: _ :: evs, by simpa [traced, record] using h1, ?_⟩
          exact cleanupSpec_continue req _ [_, _, _] evs .service (by simp [Call.stage, Kind.stage])
            ⟨_, List.mem_cons_of_mem _ (List.mem_cons_of_mem _ (List.mem_singleton.mpr rfl)),
              rfl, rfl⟩ h2
        · refine ⟨[_, _, _], by simp only [List.append_assoc]; rfl, ?_⟩
          exact cleanupSpec_abort req 2 _ _ .service (by simp) (Nat.le_refl _) (by simp [Call.stage])
            (by simp [Call.isUnstage])
            (by simp [applied, Reply.ofError, Reply.ofExcept, Call.applies])
    · simp only [hae]
      refine ⟨[_], rfl, ?_⟩
      exact cleanupSpec_abort req 2 _ _ .service (by simp) (Nat.le_refl _) (by simp [Call.stage])
        (by simp [Call.isUnstage]) (by simp [applied, Reply.ofError])

theorem workload_spec {σ : Type} (m : Models) (api : ClusterAPI σ) (req : DeployRequest)
    (owner : OwnerReference) (deployParams : deployParam) (s : σ) (log : List Event) :
    ∃ evs, (deployWorkload m (traced api) req owner deployParams (s, log)).2.2 = log ++ evs ∧
      CleanupSpec req 1 (deployWorkload m (traced api) req owner deployParams (s, log)).1
        evs := by
  unfold deployWorkload
  rcases hb : newAppDeployment m req.stage.id deployParams with berr | d
  · simp [newAppDeployment] at hb
  simp only [traced, record]
  generalize d.SetOwnerReferences [owner] = d1
  rcases api.deploymentCreate req.app.org d1 s with ⟨_ | err, s1⟩
  · obtain ⟨evs, h1, h2⟩ := service_spec api req owner s1
      (log ++ [⟨Call.deploymentCreate _ _, .done⟩])
    refine ⟨[_] ++ evs, by simpa [traced, record] using h1, ?_⟩
    exact cleanupSpec_continue req _ _ evs .workload (by simp [Call.stage, Kind.stage])
      ⟨_, List.mem_singleton.mpr rfl, rfl, rfl⟩ h2
  · simp only []
    by_cases hae : IsAlreadyExists err = true
    · simp only [hae, if_true]
      rcases api.deploymentUpdate req.app.org d1 s1 with ⟨_ | err2, s2⟩
      · obtain ⟨evs, h1, h2⟩ := service_spec api req owner s2
          (log ++ [⟨Call.deploymentCreate _ _, .failed err⟩] ++ [⟨Call.deploymentUpdate _ _, .done⟩])
        refine ⟨[_, _] ++ evs, by simpa [traced, record] using h1, ?_⟩
        exact cleanupSpec_continue req _ _ evs .workload (by simp [Call.stage, Kind.stage])
          ⟨⟨Call.deploymentUpdate req.app.org d1, .done⟩, by simp, rfl, rfl⟩ h2
      · refine ⟨[_, _], List.append_assoc _ _ _, ?_⟩
        exact cleanupSpec_abort req 1 _ _ .workload (by simp) (Nat.le_refl _) (by simp [Call.stage])
          (by simp [Call.isUnstage]) (by simp [applied, Reply.ofError])
    · simp only [hae]
      refine ⟨[_], rfl, ?_⟩
      exact cleanupSpec_abort req 1 _ _ .workload (by simp) (Nat.le_refl _) (by simp [Call.stage])
        (by simp [Call.isUnstage]) (by simp [applied, Reply.ofError])

theorem cleanupSpec_lookups_abort (req : DeployRequest) (out : Outcome) (pre : List Event)
    (hout : out ≠ .returned none) (hstage : ∀ ev ∈ pre, ev.call.stage = 0) :
    CleanupSpec req 0 out pre :=
  cleanupSpec_abort req 0 out pre .workload hout (Nat.zero_le _) (fun _ _ => Nat.zero_le _)
    (fun ev hev => by
      cases hu : ev.call.isUnstage with
      | false => rfl
      | true =>
        have := Call.stage_of_isUnstage hu
        rw [hstage ev hev] at this
        cases this)
    (not_applied_of_stage (fun ev hev => by rw [hstage ev hev]; decide))

theorem instances_spec {σ : Type} (m : Models) (api : ClusterAPI σ) (req : DeployRequest)
    (owner : OwnerReference) (instances : Int) (s : σ) (log : List Event) :
    ∃ evs, (deployInstances m (traced api) req owner instances (s, log)).2.2 = log ++ evs ∧
      CleanupSpec req 0 (deployInstances m (traced api) req owner instances (s, log)).1
        evs := by
  unfold deployInstances
  simp only [traced, record]
  rcases api.mainDomain s with ⟨err | dom, s1⟩
  · exact ⟨[_], rfl, cleanupSpec_lookups_abort req _ _ (by simp) (by simp [Call.stage])⟩
  · simp only []
    rcases api.environment req.app s1 with ⟨err | env, s2⟩
    · exact ⟨[_, _], List.append_assoc _ _ _,
        cleanupSpec_lookups_abort req _ _ (by simp) (by simp [Call.stage])⟩
    · obtain ⟨evs, h1, h2⟩ := workload_spec m api req owner
        { appRef := req.app, git := req.git, route := req.route, owner := owner,
          environment := env, instances := instances, domain := dom,
          imageURL := req.imageURL, stage := { id := "" } } s2
        (log ++ [⟨Call.mainDomain, .domain dom⟩] ++ [⟨Call.environment req.app, .environment env⟩])
      refine ⟨[_, _] ++ evs, by simpa [traced, record] using h1, ?_⟩
      exact cleanupSpec_lookups req _ _ evs 1 (Nat.le_refl _) (by simp [Call.stage]) h2

theorem validated_spec {σ : Type} (m : Models) (api : ClusterAPI σ) (req : DeployRequest)
    (s : σ) (log : List Event) :
    ∃ evs, (deployValidated m (traced api) req (s, log)).2.2 = log ++ evs ∧
      CleanupSpec req 0 (deployValidated m (traced api) req (s, log)).1 evs := by
  unfold deployValidated
  simp only [traced, record]
  rcases api.getCluster s with ⟨_ | err, s1⟩
  · simp only []
    rcases api.applicationGet req.app s1 with ⟨err | cr, s2⟩
    · simp only []
      by_cases hnf : IsNotFound err = true
      · simp only [hnf, if_true]
        exact ⟨[_, _], List.append_assoc _ _ _,
          cleanupSpec_lookups_abort req _ _ (by simp) (by simp [Call.stage])⟩
      · simp only [hnf]
        exact ⟨[_, _], List.append_assoc _ _ _,
          cleanupSpec_lookups_abort req _ _ (by simp) (by simp [Call.stage])⟩
    · simp only []
      rcases hinst : req.instances with _ | n
      · simp only [existingReplica, traced, record]
        rcases api.deploymentGet req.app.org req.app.name s2 with ⟨err | d, s3⟩
        · simp only []
          by_cases hnf : IsNotFound err = true
          · simp only [hnf, if_true]
            obtain ⟨evs, h1, h2⟩ := instances_spec m api req
              { apiVersion := cr.apiVersion, kind := cr.kind, name := cr.name, uid := cr.uid }
              DefaultInstances s3
              (log ++ [⟨Call.getCluster, .done⟩] ++ [⟨Call.applicationGet req.app, .application cr⟩]
                ++ [⟨Call.deploymentGet req.app.org req.app.name, .failed err⟩])
            refine ⟨_ :: _ :: _ :: evs, by simpa [traced, record] using h1, ?_⟩
            exact cleanupSpec_lookups req _ [_, _, _] evs 0 (Nat.zero_le _)
              (by simp [Call.stage]) h2
          · simp only [hnf]
            exact ⟨[_, _, _], by simp only [List.append_assoc]; rfl,
              cleanupSpec_lookups_abort req _ _ (by simp) (by simp [Call.stage])⟩
        · simp only []
          rcases hrep : d.spec.replicas with _ | n
          · exact ⟨[_, _, _], by simp only [List.append_assoc]; rfl,
              cleanupSpec_lookups_abort req _ _ (by simp) (by simp [Call.stage])⟩
          · obtain ⟨evs, h1, h2⟩ := instances_spec m api req
              { apiVersion := cr.apiVersion, kind := cr.kind, name := cr.name, uid := cr.uid }
              n s3
              (log ++ [⟨Call.getCluster, .done⟩] ++ [⟨Call.applicationGet req.app, .application cr⟩]
                ++ [⟨Call.deploymentGet req.app.org req.app.name, .deployment d⟩])
            refine ⟨_ :: _ :: _ :: evs, by simpa [traced, record] using h1, ?_⟩
            exact cleanupSpec_lookups req _ [_, _, _] evs 0 (Nat.zero_le _)
              (by simp [Call.stage]) h2
      · obtain ⟨evs, h1, h2⟩ := instances_spec m api req
          { apiVersion := cr.apiVersion, kind := cr.kind, name := cr.name, uid := cr.uid }
          n s2
          (log ++ [⟨Call.getCluster, .done⟩] ++ [⟨Call.applicationGet req.app, .application cr⟩])
        refine ⟨_ :: _ :: evs, by simpa [traced, record] using h1, ?_⟩
        exact cleanupSpec_lookups req _ [_, _] evs 0 (Nat.zero_le _)
          (by simp [Call.stage]) h2
  · exact ⟨[_], rfl, cleanupSpec_lookups_abort req _ _ (by simp) (by simp [Call.stage])⟩

theorem deploy_spec {σ : Type} (m : Models) (api : ClusterAPI σ) (r : Request) (s : σ)
    (bodyBytes : String) (req : DeployRequest)
    (hbody : r.body = .ok bodyBytes) (hdecode : m.unmarshal bodyBytes = .ok req) :
    CleanupSpec req 0 (Deploy m (traced api) r (s, [])).1
      (Deploy m (traced api) r (s, [])).2.2 := by
  rcases Deploy_cases m (traced api) r (s, []) with ⟨apiErr, h⟩ | ⟨b, req2, hb, hd, _, _, _, h⟩
  · rw [h]
    exact cleanupSpec_lookups_abort req _ [] (by simp) (by simp)
  · rw [hbody] at hb
    injection hb with hb
    subst hb
    rw [hdecode] at hd
    injection hd with hd
    subst hd
    rw [h]
    obtain ⟨evs, h1, h2⟩ := validated_spec m api req s []
    rw [h1]
    simpa using h2

theorem cleanupLast_extend {σ : Type} {api : ClusterAPI σ} {req : DeployRequest}
    {log : List Event} {run base : Outcome × σ × List Event} (pre : List Event)
    (hpre : ∀ ev ∈ pre, ev.call.isUnstage = false)
    (h : CleanupLast api req (log ++ pre) run base) : CleanupLast api req log run base := by
  obtain ⟨evs, h1, h2, h3⟩ := h
  refine ⟨pre ++ evs, by rw [h1, List.append_assoc], ?_, h3⟩
  intro ev hev
  rcases List.mem_append.mp hev with hp | he
  · exact hpre ev hp
  · exact h2 ev he

theorem cleanupLast_same {σ : Type} {api : ClusterAPI σ} {req : DeployRequest}
    {log : List Event} (out : Outcome) (s : σ) (pre : List Event)
    (hpre : ∀ ev ∈ pre, ev.call.isUnstage = false) :
    CleanupLast api req log (out, s, log ++ pre) (out, s, log ++ pre) :=
  ⟨pre, rfl, hpre, Or.inl rfl⟩

theorem cleanup_cleanupLast {σ : Type} (api : ClusterAPI σ) (req : DeployRequest) (s : σ)
    (log : List Event) :
    CleanupLast api req log (deployCleanup (traced api) req (s, log))
      (deployCleanup (skipCleanup (traced api)) req (s, log)) := by
  unfold deployCleanup
  by_cases hid : req.stage.id = ""
  · simp only [hid, ne_eq, not_true_eq_false, if_false]
    exact ⟨[], by simp, by simp, Or.inl rfl⟩
  · simp only [ne_eq, hid, not_false_eq_true, if_true, traced, record, skipCleanup]
    refine ⟨[], by simp, by simp, Or.inr ?_⟩
    rcases api.unstage req.app req.stage.id s with ⟨_ | err, s1⟩ <;>
      exact ⟨rfl, rfl, rfl⟩

theorem ingress_cleanupLast {σ : Type} (api : ClusterAPI σ) (req : DeployRequest)
    (owner : OwnerReference) (s : σ) (log : List Event) :
    CleanupLast api req log (deployIngress (traced api) req owner (s, log))
      (deployIngress (skipCleanup (traced api)) req owner (s, log)) := by
  unfold deployIngress
  rcases hb : newAppIngress req.app req.route with berr | ing
  · simp [newAppIngress] at hb
  simp only [traced, record, skipCleanup]
  generalize ing.SetOwnerReferences [owner] = ing1
  rcases api.ingressCreate req.app.org ing1 s with ⟨_ | err, s1⟩
  · have h := cleanup_cleanupLast api req s1
      (log ++ [⟨Call.ingressCreate req.app.org ing1, .done⟩])
    exact cleanupLast_extend [⟨Call.ingressCreate req.app.org ing1, .done⟩]
      (by simp [Call.isUnstage]) (by simpa [traced, record, skipCleanup] using h)
  · simp only []
    by_cases hae : IsAlreadyExists err = true
    · simp only [hae, if_true]
      rcases api.ingressUpdate req.app.org ing1 s1 with ⟨_ | err2, s2⟩
      · have h := cleanup_cleanupLast api req s2
          (log ++ [⟨Call.ingressCreate req.app.org ing1, .failed err⟩]
            ++ [⟨Call.ingressUpdate req.app.org ing1, .done⟩])
        exact cleanupLast_extend [⟨Call.ingressCreate req.app.org ing1, .failed err⟩,
            ⟨Call.ingressUpdate req.app.org ing1, .done⟩]
          (by simp [Call.isUnstage]) (by simpa [traced, record, skipCleanup] using h)
      · exact ⟨[_, _], List.append_assoc _ _ _, by simp [Call.isUnstage], Or.inl rfl⟩
    · simp only [hae]
      exact ⟨[_], rfl, by simp [Call.isUnstage], Or.inl rfl⟩

theorem service_cleanupLast {σ : Type} (api : ClusterAPI σ) (req : DeployRequest)
    (owner : OwnerReference) (s : σ) (log : List Event) :
    CleanupLast api req log (deployService (traced api) req owner (s, log))
      (deployService (skipCleanup (traced api)) req owner (s, log)) := by
  unfold deployService
  rcases hb : newAppService req.app with berr | svc
  · simp [newAppService] at hb
  simp only [traced, record, skipCleanup]
  generalize svc.SetOwnerReferences [owner] = svc1
  rcases api.serviceCreate req.app.org svc1 s with ⟨_ | err, s1⟩
  · have h := ingress_cleanupLast api req owner s1
      (log ++ [⟨Call.serviceCreate req.app.org svc1, .done⟩])
    exact cleanupLast_extend [⟨Call.serviceCreate req.app.org svc1, .done⟩]
      (by simp [Call.isUnstage]) (by simpa [traced, record, skipCleanup] using h)
  · simp only []
    by_cases hae : IsAlreadyExists err = true
    · simp only [hae, if_true]
      rcases api.serviceGet req.app.org svc1.objectMeta.name s1 with ⟨err2 | service, s2⟩
      · exact ⟨[_, _], List.append_assoc _ _ _, by simp [Call.isUnstage], Or.inl rfl⟩
      · simp only []
        generalize hsvc2 : ({ svc1 with
            objectMeta :=
              { svc1.objectMeta with resourceVersion := service.objectMeta.resourceVersion },
            spec := { svc1.spec with clusterIP := service.spec.clusterIP } } : Service) = svc2
        rcases api.serviceUpdate req.app.org svc2 s2 with ⟨_ | err3, s3⟩
        · have h := ingress_cleanupLast api req owner s3
            (log ++ [⟨Call.serviceCreate req.app.org svc1, .failed err⟩]
              ++ [⟨Call.serviceGet req.app.org svc1.objectMeta.name, .service service⟩]
              ++ [⟨Call.serviceUpdate req.app.org svc2, .done⟩])
          exact cleanupLast_extend [⟨Call.serviceCreate req.app.org svc1, .failed err⟩,
              ⟨Call.serviceGet req.app.org svc1.objectMeta.name, .service service⟩,
              ⟨Call.serviceUpdate req.app.org svc2, .done⟩]
            (by simp [Call.isUnstage]) (by simpa [traced, record, skipCleanup] using h)
        · exact ⟨[_, _, _], by simp only [List.append_assoc]; rfl, by simp [Call.isUnstage],
            Or.inl rfl⟩
    · simp only [hae]
      exact ⟨[_], rfl, by simp [Call.isUnstage], Or.inl rfl⟩

theorem workload_cleanupLast {σ : Type} (m : Models) (api : ClusterAPI σ)
    (req : DeployRequest) (owner : OwnerReference) (deployParams : deployParam) (s : σ)
    (log : List Event) :
    CleanupLast api req log (deployWorkload m (traced api) req owner deployParams (s, log))
      (deployWorkload m (skipCleanup (traced api)) req owner deployParams (s, log)) := by
  unfold deployWorkload
  rcases hb : newAppDeployment m req.stage.id deployParams with berr | d
  · simp [newAppDeployment] at hb
  simp only [traced, record, skipCleanup]
  generalize d.SetOwnerReferences [owner] = d1
  rcases api.deploymentCreate req.app.org d1 s with ⟨_ | err, s1⟩
  · have h := service_cleanupLast api req owner s1
      (log ++ [⟨Call.deploymentCreate req.app.org d1, .done⟩])
    exact cleanupLast_extend [⟨Call.deploymentCreate req.app.org d1, .done⟩]
      (by simp [Call.isUnstage]) (by simpa [traced, record, skipCleanup] using h)
  · simp only []
    by_cases hae : IsAlreadyExists err = true
    · simp only [hae, if_true]
      rcases api.deploymentUpdate req.app.org d1 s1 with ⟨_ | err2, s2⟩
      · have h := service_cleanupLast api req owner s2
          (log ++ [⟨Call.deploymentCreate req.app.org d1, .failed err⟩]
            ++ [⟨Call.deploymentUpdate req.app.org d1, .done⟩])
        exact cleanupLast_extend [⟨Call.deploymentCreate req.app.org d1, .failed err⟩,
            ⟨Call.deploymentUpdate req.app.org d1, .done⟩]
          (by simp [Call.isUnstage]) (by simpa [traced, record, skipCleanup] using h)
      · exact ⟨[_, _], List.append_assoc _ _ _, by simp [Call.isUnstage], Or.inl rfl⟩
    · simp only [hae]
      exact ⟨[_], rfl, by simp [Call.isUnstage], Or.inl rfl⟩

theorem instances_cleanupLast {σ : Type} (m : Models) (api : ClusterAPI σ)
    (req : DeployRequest) (owner : OwnerReference) (instances : Int) (s : σ)
    (log : List Event) :
    CleanupLast api req log (deployInstances m (traced api) req owner instances (s, log))
      (deployInstances m (skipCleanup (traced api)) req owner instances (s, log)) := by
  unfold deployInstances
  simp only [traced, record, skipCleanup]
  rcases api.mainDomain s with ⟨err | dom, s1⟩
  · exact ⟨[_], rfl, by simp [Call.isUnstage], Or.inl rfl⟩
  · simp only []
    rcases api.environment req.app s1 with ⟨err | env, s2⟩
    · exact ⟨[_, _], List.append_assoc _ _ _, by simp [Call.isUnstage], Or.inl rfl⟩
    · have h := workload_cleanupLast m api req owner
        { appRef := req.app, git := req.git, route := req.route, owner := owner,
          environment := env, instances := instances, domain := dom,
          imageURL := req.imageURL, stage := { id := "" } } s2
        (log ++ [⟨Call.mainDomain, .domain dom⟩] ++ [⟨Call.environment req.app, .environment env⟩])
      exact cleanupLast_extend [⟨Call.mainDomain, .domain dom⟩,
          ⟨Call.environment req.app, .environment env⟩]
        (by simp [Call.isUnstage]) (by simpa [traced, record, skipCleanup] using h)

theorem validated_cleanupLast {σ : Type} (m : Models) (api : ClusterAPI σ)
    (req : DeployRequest) (s : σ) (log : List Event) :
    CleanupLast api req log (deployValidated m (traced api) req (s, log))
      (deployValidated m (skipCleanup (traced api)) req (s, log)) := by
  unfold deployValidated
  simp only [traced, record, skipCleanup]
  rcases api.getCluster s with ⟨_ | err, s1⟩
  · simp only []
    rcases api.applicationGet req.app s1 with ⟨err | cr, s2⟩
    · simp only []
      by_cases hnf : IsNotFound err = true
      · simp only [hnf, if_true]
        exact ⟨[_, _], List.append_assoc _ _ _, by simp [Call.isUnstage], Or.inl rfl⟩
      · simp only [hnf]
        exact ⟨[_, _], List.append_assoc _ _ _, by simp [Call.isUnstage], Or.inl rfl⟩
    · simp only []
      rcases hinst : req.instances with _ | n
      · simp only [existingReplica, traced, record, skipCleanup]
        rcases api.deploymentGet req.app.org req.app.name s2 with ⟨err | d, s3⟩
        · simp only []
          by_cases hnf : IsNotFound err = true
          · simp only [hnf, if_true]
            have h := instances_cleanupLast m api req
              { apiVersion := cr.apiVersion, kind := cr.kind, name := cr.name, uid := cr.uid }
              DefaultInstances s3
              (log ++ [⟨Call.getCluster, .done⟩] ++ [⟨Call.applicationGet req.app, .application cr⟩]
                ++ [⟨Call.deploymentGet req.app.org req.app.name, .failed err⟩])
            exact cleanupLast_extend [⟨Call.getCluster, .done⟩,
                ⟨Call.applicationGet req.app, .application cr⟩,
                ⟨Call.deploymentGet req.app.org req.app.name, .failed err⟩]
              (by simp [Call.isUnstage]) (by simpa [traced, record, skipCleanup] using h)
          · simp only [hnf]
            exact ⟨[_, _, _], by simp only [List.append_assoc]; rfl,
              by simp [Call.isUnstage], Or.inl rfl⟩
        · simp only []
          rcases hrep : d.spec.replicas with _ | n
          · exact ⟨[_, _, _], by simp only [List.append_assoc]; rfl,
              by simp [Call.isUnstage], Or.inl rfl⟩
          · have h := instances_cleanupLast m api req
              { apiVersion := cr.apiVersion, kind := cr.kind, name := cr.name, uid := cr.uid }
              n s3
              (log ++ [⟨Call.getCluster, .done⟩] ++ [⟨Call.applicationGet req.app, .application cr⟩]
                ++ [⟨Call.deploymentGet req.app.org req.app.name, .deployment d⟩])
            exact cleanupLast_extend [⟨Call.getCluster, .done⟩,
                ⟨Call.applicationGet req.app, .application cr⟩,
                ⟨Call.deploymentGet req.app.org req.app.name, .deployment d⟩]
              (by simp [Call.isUnstage]) (by simpa [traced, record, skipCleanup] using h)
      · have h := instances_cleanupLast m api req
          { apiVersion := cr.apiVersion, kind := cr.kind, name := cr.name, uid := cr.uid }
          n s2
          (log ++ [⟨Call.getCluster, .done⟩] ++ [⟨Call.applicationGet req.app, .application cr⟩])
        exact cleanupLast_extend [⟨Call.getCluster, .done⟩,
            ⟨Call.applicationGet req.app, .application cr⟩]
          (by simp [Call.isUnstage]) (by simpa [traced, record, skipCleanup] using h)
  · exact ⟨[_], rfl, by simp [Call.isUnstage], Or.inl rfl⟩

theorem deploy_cleanupLast {σ : Type} (m : Models) (api : ClusterAPI σ) (r : Request) (s : σ)
    (bodyBytes : String) (req : DeployRequest)
    (hbody : r.body = .ok bodyBytes) (hdecode : m.unmarshal bodyBytes = .ok req) :
    CleanupLast api req [] (Deploy m (traced api) r (s, []))
      (Deploy m (skipCleanup (traced api)) r (s, [])) := by
  unfold Deploy
  simp only [hbody, hdecode]
  split
  · exact ⟨[], rfl, by simp, Or.inl rfl⟩
  · split
    · exact ⟨[], rfl, by simp, Or.inl rfl⟩
    · split
      · exact ⟨[], rfl, by simp, Or.inl rfl⟩
      · exact validated_cleanupLast m api req s []

theorem appliedFrom_zero (evs : List Event) :
    AppliedFrom 0 evs ↔
      (applied .workload evs ∧ applied .service evs ∧ applied .ingress evs) := by
  constructor
  · intro h
    exact ⟨h .workload (Nat.zero_le _), h .service (Nat.zero_le _), h .ingress (Nat.zero_le _)⟩
  · rintro ⟨hw, hs, hi⟩ kind _
    cases kind
    · exact hw
    · exact hs
    · exact hi

theorem applied_of_append_unstage {kind : Kind} {evs : List Event} {ev : Event}
    (hu : ev.call.isUnstage = true) (h : applied kind (evs ++ [ev])) : applied kind evs := by
  rcases (applied_append kind evs [ev]).mp h with h1 | ⟨ev2, hev2, _, ha⟩
  · exact h1
  · rw [List.mem_singleton.mp hev2] at ha
    have h4 := Call.stage_of_isUnstage hu
    have hk := Call.stage_of_applies ha
    have := kind.stage_pos
    omega

/-- C18: for every execution of `Deploy` on a request that decodes, with its
record of calls. The cleanup of superseded staging runs is called if and only
if the stage id of the request is not empty and the workload, the service and
the ingress were each applied by a `Create` or an `Update` that returned
without error. A cleanup call is `Unstage` for the application and the stage id
of the request; it is the one cleanup call and the last call of the record; the
record before it is the record of the same execution against the cluster whose
cleanup does nothing, in which the three objects were applied; it is made on
the state that execution left, and the state `Deploy` leaves is the state the
cleanup call returned: after the three applies `Deploy` does nothing to the
cluster but the cleanup call, it rolls nothing back. When the cleanup call
fails `Deploy` returns the internal error made from its error, of status 500,
and when it succeeds `Deploy` returns success. Whatever the cleanup call leaves
unchanged is in the final state as the three applies left it. `Deploy` returns
success only if the three objects were applied. When the stage id is empty no
cleanup call is made, and `Deploy` returns success once the three objects were
applied. -/
theorem C18_cleanup_after_three_applied {σ : Type} (m : Models) (api : ClusterAPI σ)
    (r : Request) (s : σ) (bodyBytes : String) (req : DeployRequest)
    (hbody : r.body = .ok bodyBytes) (hdecode : m.unmarshal bodyBytes = .ok req) :
    ((∃ ev ∈ (Deploy m (traced api) r (s, [])).2.2, ev.call.isUnstage = true) ↔
      (req.stage.id ≠ "" ∧
        applied .workload (Deploy m (traced api) r (s, [])).2.2 ∧
        applied .service (Deploy m (traced api) r (s, [])).2.2 ∧
        applied .ingress (Deploy m (traced api) r (s, [])).2.2)) ∧
    (∀ ev ∈ (Deploy m (traced api) r (s, [])).2.2, ev.call.isUnstage = true →
      ev.call = .unstage req.app req.stage.id ∧
      (Deploy m (traced api) r (s, [])).2.2
        = (Deploy m (skipCleanup (traced api)) r (s, [])).2.2 ++ [ev] ∧
      (∀ ev2 ∈ (Deploy m (skipCleanup (traced api)) r (s, [])).2.2,
        ev2.call.isUnstage = false) ∧
      applied .workload (Deploy m (skipCleanup (traced api)) r (s, [])).2.2 ∧
      applied .service (Deploy m (skipCleanup (traced api)) r (s, [])).2.2 ∧
      applied .ingress (Deploy m (skipCleanup (traced api)) r (s, [])).2.2 ∧
      ev.reply = Reply.ofError (api.unstage req.app req.stage.id
        (Deploy m (skipCleanup (traced api)) r (s, [])).2.1).1 ∧
      (Deploy m (traced api) r (s, [])).2.1
        = (api.unstage req.app req.stage.id
            (Deploy m (skipCleanup (traced api)) r (s, [])).2.1).2 ∧
      (∀ err, ev.reply = .failed err →
        (Deploy m (traced api) r (s, [])).1 = .returned (some (.InternalError err [])) ∧
        (APIError.InternalError err []).status = 500) ∧
      (ev.reply = .done → (Deploy m (traced api) r (s, [])).1 = .returned none)) ∧
    (∀ (α : Type) (obs : σ → α),
      (∀ st, obs (api.unstage req.app req.stage.id st).2 = obs st) →
      obs (Deploy m (traced api) r (s, [])).2.1
        = obs (Deploy m (skipCleanup (traced api)) r (s, [])).2.1) ∧
    ((Deploy m (traced api) r (s, [])).1 = .returned none →
      applied .workload (Deploy m (traced api) r (s, [])).2.2 ∧
      applied .service (Deploy m (traced api) r (s, [])).2.2 ∧
      applied .ingress (Deploy m (traced api) r (s, [])).2.2) ∧
    (req.stage.id = "" →
      (∀ ev ∈ (Deploy m (traced api) r (s, [])).2.2, ev.call.isUnstage = false) ∧
      (applied .workload (Deploy m (traced api) r (s, [])).2.2 →
        applied .service (Deploy m (traced api) r (s, [])).2.2 →
        applied .ingress (Deploy m (traced api) r (s, [])).2.2 →
        (Deploy m (traced api) r (s, [])).1 = .returned none)) := by
  obtain ⟨_, h2, h3, _, h5, h6⟩ := deploy_spec m api r s bodyBytes req hbody hdecode
  obtain ⟨evs, hb1, hb2, hb3⟩ := deploy_cleanupLast m api r s bodyBytes req hbody hdecode
  generalize Deploy m (traced api) r (s, []) = run at h2 h3 h5 h6 hb3 ⊢
  generalize Deploy m (skipCleanup (traced api)) r (s, []) = base at hb1 hb3 ⊢
  have hnoB : ∀ ev ∈ base.2.2, ev.call.isUnstage = false := by
    rw [hb1]
    simpa using hb2
  rw [appliedFrom_zero] at h2 h5 h6
  refine ⟨h2, ?_, ?_, h6, ?_⟩
  · intro ev hev hu
    rcases hb3 with hsame | ⟨hlog, hfin, hout⟩
    · rw [hsame] at hev
      rw [hnoB ev hev] at hu
      cases hu
    · have hev2 : ev = ⟨.unstage req.app req.stage.id,
          Reply.ofError (api.unstage req.app req.stage.id base.2.1).1⟩ := by
        rw [hlog] at hev
        rcases List.mem_append.mp hev with hp | hl
        · rw [hnoB ev hp] at hu
          cases hu
        · exact List.mem_singleton.mp hl
      have hall := (h2.mp ⟨ev, hev, hu⟩).2
      rw [hlog, ← hev2] at hall
      refine ⟨(h3 ev hev hu), by rw [hlog, hev2], hnoB, applied_of_append_unstage hu hall.1,
        applied_of_append_unstage hu hall.2.1, applied_of_append_unstage hu hall.2.2,
        by rw [hev2], hfin, ?_, ?_⟩
      · intro err herr
        rw [hev2] at herr
        simp only at herr
        rw [hout, herr]
        exact ⟨rfl, rfl⟩
      · intro hdone
        rw [hev2] at hdone
        simp only at hdone
        rw [hout, hdone]
        rfl
  · intro α obs hobs
    rcases hb3 with hsame | ⟨_, hfin, _⟩
    · rw [hsame]
    · rw [hfin, hobs]
  · intro hid
    have hno : ∀ ev ∈ run.2.2, ev.call.isUnstage = false := by
      intro ev hev
      cases hu : ev.call.isUnstage with
      | false => rfl
      | true => exact absurd hid (h2.mp ⟨ev, hev, hu⟩).1
    exact ⟨hno, fun hw hs hi => h5 hid ⟨hw, hs, hi⟩⟩

/-- Witness of C18: the application of the examples is deployed with stage id
`abc123` to a cluster whose cleanup fails. The three objects are applied, the
cleanup is called last, `Deploy` returns the internal error, and the three
objects are in the cluster as the execution without cleanup leaves them. -/
theorem C18_cleanup_after_three_applied_witness :
    (Deploy (demoModels (demoRequest (some 2) "abc123")) (traced brokenUnstageAPI)
        demoHTTP (emptyCluster, [])).2.2
      = (Deploy (demoModels (demoRequest (some 2) "abc123"))
          (skipCleanup (traced brokenUnstageAPI)) demoHTTP (emptyCluster, [])).2.2
        ++ [⟨.unstage demoApp "abc123",
            .failed (.status .unknown "pipelineruns: request timed out")⟩] ∧
    applied .workload (Deploy (demoModels (demoRequest (some 2) "abc123"))
        (skipCleanup (traced brokenUnstageAPI)) demoHTTP (emptyCluster, [])).2.2 ∧
    applied .service (Deploy (demoModels (demoRequest (some 2) "abc123"))
        (skipCleanup (traced brokenUnstageAPI)) demoHTTP (emptyCluster, [])).2.2 ∧
    applied .ingress (Deploy (demoModels (demoRequest (some 2) "abc123"))
        (skipCleanup (traced brokenUnstageAPI)) demoHTTP (emptyCluster, [])).2.2 ∧
    (Deploy (demoModels (demoRequest (some 2) "abc123")) (traced brokenUnstageAPI)
        demoHTTP (emptyCluster, [])).1
      = .returned (some
          (.InternalError (.status .unknown "pipelineruns: request timed out") [])) ∧
    ((Deploy (demoModels (demoRequest (some 2) "abc123")) (traced brokenUnstageAPI)
        demoHTTP (emptyCluster, [])).2.1.deployments.get "workspace" "demo").isSome = true ∧
    ((Deploy (demoModels (demoRequest (some 2) "abc123")) (traced brokenUnstageAPI)
        demoHTTP (emptyCluster, [])).2.1.services.get "workspace" "demo").isSome = true ∧
    ((Deploy (demoModels (demoRequest (some 2) "abc123")) (traced brokenUnstageAPI)
        demoHTTP (emptyCluster, [])).2.1.ingresses.get "workspace" "demo").isSome = true ∧
    (Deploy (demoModels (demoRequest (some 2) "abc123")) (traced brokenUnstageAPI)
        demoHTTP (emptyCluster, [])).2.1
      = (Deploy (demoModels (demoRequest (some 2) "abc123"))
          (skipCleanup (traced brokenUnstageAPI)) demoHTTP (emptyCluster, [])).2.1 := by
  have h := (C18_cleanup_after_three_applied (demoModels (demoRequest (some 2) "abc123"))
    brokenUnstageAPI demoHTTP emptyCluster "ok" (demoRequest (some 2) "abc123") rfl rfl).2.1
    ⟨.unstage demoApp "abc123", .failed (.status .unknown "pipelineruns: request timed out")⟩
    (by decide) rfl
  exact ⟨h.2.1, h.2.2.2.1, h.2.2.2.2.1, h.2.2.2.2.2.1,
    (h.2.2.2.2.2.2.2.2.1 _ rfl).1, by decide, by decide, by decide, by decide⟩

/-! ## Wrapped errors -/

/-- A `Create` of the workload that fails with an already-exists error wrapped
with a message is an already-exists failure: the second deploy of the examples
goes on with the `Update` of the same workload and succeeds. -/
theorem wrapped_alreadyExists_goes_on :
    ∃ d err rest,
      ((Deploy (demoModels (demoRequest (some 2) "")) (traced wrappingCreateAPI) demoHTTP
        (deployedCluster, [])).2.2).drop 4
        = ⟨.deploymentCreate "workspace" d, .failed (.wrap err "creating the workload")⟩ ::
          ⟨.deploymentUpdate "workspace" d, .done⟩ :: rest ∧
      IsAlreadyExists (.wrap err "creating the workload") = true ∧
      (Deploy (demoModels (demoRequest (some 2) "")) (traced wrappingCreateAPI) demoHTTP
        (deployedCluster, [])).1 = .returned none :=
  ⟨demoDeployment, SimCluster.errAlreadyExists "demo",
    ((Deploy (demoModels (demoRequest (some 2) "")) (traced wrappingCreateAPI) demoHTTP
        (deployedCluster, [])).2.2).drop 6, by decide, by decide, by decide⟩

/-! ## Claims about the replica count -/

theorem workload_created {σ : Type} (m : Models) (api : ClusterAPI σ) (req : DeployRequest)
    (owner : OwnerReference) (deployParams : deployParam) (s : σ) (log : List Event)
    (happ : deployParams.appRef = req.app) :
    CreatedWith api req deployParams.instances log s
      (deployWorkload m (traced api) req owner deployParams (s, log)).2.2 := by
  unfold deployWorkload
  rcases hb : newAppDeployment m req.stage.id deployParams with berr | d
  · simp [newAppDeployment] at hb
  have hrep : (d.SetOwnerReferences [owner]).spec.replicas = some deployParams.instances := by
    simp only [newAppDeployment, Except.ok.injEq] at hb
    subst hb
    rfl
  have hname : (d.SetOwnerReferences [owner]).objectMeta.name = req.app.name := by
    simp only [newAppDeployment, Except.ok.injEq] at hb
    subst hb
    rw [← happ]
    rfl
  simp only [traced, record]
  generalize d.SetOwnerReferences [owner] = d1 at hrep hname ⊢
  rcases hc : api.deploymentCreate req.app.org d1 s with ⟨_ | err, s1⟩
  · obtain ⟨evs, h1, _⟩ := service_noWorkload api req owner s1
      (log ++ [⟨Call.deploymentCreate req.app.org d1, .done⟩])
    refine ⟨d1, evs, hname, hrep, ?_⟩
    rw [hc]
    simpa [traced, record, Reply.ofError] using h1
  · simp only []
    by_cases hae : IsAlreadyExists err = true
    · simp only [hae, if_true]
      rcases api.deploymentUpdate req.app.org d1 s1 with ⟨_ | err2, s2⟩
      · obtain ⟨evs, h1, _⟩ := service_noWorkload api req owner s2
          (log ++ [⟨Call.deploymentCreate req.app.org d1, .failed err⟩]
            ++ [⟨Call.deploymentUpdate req.app.org d1, .done⟩])
        refine ⟨d1, ⟨Call.deploymentUpdate req.app.org d1, .done⟩ :: evs, hname, hrep, ?_⟩
        rw [hc]
        simpa [traced, record, Reply.ofError] using h1
      · refine ⟨d1, [⟨Call.deploymentUpdate req.app.org d1, .failed err2⟩], hname, hrep, ?_⟩
        rw [hc]
        simp [Reply.ofError]
    · simp only [hae]
      refine ⟨d1, [], hname, hrep, ?_⟩
      rw [hc]
      simp [Reply.ofError]

theorem instances_created {σ : Type} (m : Models) (api : ClusterAPI σ) (req : DeployRequest)
    (owner : OwnerReference) (instances : Int) (s s1 s2 : σ) (log : List Event)
    (dom : String) (env : EnvVariableList)
    (hdomain : api.mainDomain s = (.ok dom, s1))
    (henv : api.environment req.app s1 = (.ok env, s2)) :
    CreatedWith api req instances
      (log ++ [⟨.mainDomain, .domain dom⟩, ⟨.environment req.app, .environment env⟩]) s2
      (deployInstances m (traced api) req owner instances (s, log)).2.2 := by
  have h := workload_created m api req owner
    { appRef := req.app, git := req.git, route := req.route, owner := owner,
      environment := env, instances := instances, domain := dom,
      imageURL := req.imageURL, stage := { id := "" } } s2
    (log ++ [⟨.mainDomain, .domain dom⟩, ⟨.environment req.app, .environment env⟩]) rfl
  unfold deployInstances
  simp only [traced, record, hdomain, henv, Reply.ofExcept]
  simpa [traced, record] using h

theorem appliedReplicas_of_applies {c : Call} (h : c.applies = some .workload) :
    ∃ reps, c.appliedReplicas = some reps := by
  cases c <;> simp [Call.applies] at h <;> exact ⟨_, rfl⟩

/-- C5: for every deploy request that passes validation, with the record of
calls of `Deploy`. When the lookups before the workload succeed, the call after
them is the `Create` of a workload named after the application, with replica
count `n` when the request has the instance count `n`, and otherwise, after the
`Get` of the workload, with the replica count `N` of the workload the `Get`
returned, or with `DefaultInstances`, which is 1, when the `Get` reported
not-found. A `Create` of the workload that reports already-exists is followed
by the `Update` of the same workload; any other failure of the `Create`, and
any failure of the `Update`, is the last call and `Deploy` returns the internal
error made from it; and `Deploy` returns success only if a `Create` or an
`Update` of the workload returned without error. In the whole record, with an
instance count `n` no `Get` of the workload is made and every `Create` or
`Update` of the workload carries `n`; without one, every `Create` or `Update`
of the workload carries the count of the one `Get` of the workload, or
`DefaultInstances` when it reported not-found. The record holds a `Create` of
the workload unless a call that is not on one of the three objects failed, or
the `Get` of the workload failed with another error than not-found, or it
returned a workload with a nil replica count, on which `Deploy` panics. -/
theorem C5_effective_instance_count {σ : Type} (m : Models) (api : ClusterAPI σ)
    (r : Request) (s : σ) (bodyBytes : String) (req : DeployRequest)
    (hbody : r.body = .ok bodyBytes) (hdecode : m.unmarshal bodyBytes = .ok req)
    (hname : r.app = req.app.name) (horg : r.org = req.app.org)
    (hnonneg : ∀ n, req.instances = some n → 0 ≤ n) :
    (∀ n, req.instances = some n →
      ∀ s1 cr s2 dom s3 env s4,
        api.getCluster s = (none, s1) →
        api.applicationGet req.app s1 = (.ok cr, s2) →
        api.mainDomain s2 = (.ok dom, s3) →
        api.environment req.app s3 = (.ok env, s4) →
        CreatedWith api req n
          [⟨.getCluster, .done⟩, ⟨.applicationGet req.app, .application cr⟩,
           ⟨.mainDomain, .domain dom⟩, ⟨.environment req.app, .environment env⟩]
          s4 (Deploy m (traced api) r (s, [])).2.2) ∧
    (req.instances = none →
      ∀ s1 cr s2 d0 N s3 dom s4 env s5,
        api.getCluster s = (none, s1) →
        api.applicationGet req.app s1 = (.ok cr, s2) →
        api.deploymentGet req.app.org req.app.name s2 = (.ok d0, s3) →
        d0.spec.replicas = some N →
        api.mainDomain s3 = (.ok dom, s4) →
        api.environment req.app s4 = (.ok env, s5) →
        CreatedWith api req N
          [⟨.getCluster, .done⟩, ⟨.applicationGet req.app, .application cr⟩,
           ⟨.deploymentGet req.app.org req.app.name, .deployment d0⟩,
           ⟨.mainDomain, .domain dom⟩, ⟨.environment req.app, .environment env⟩]
          s5 (Deploy m (traced api) r (s, [])).2.2) ∧
    (req.instances = none →
      ∀ s1 cr s2 err s3 dom s4 env s5,
        api.getCluster s = (none, s1) →
        api.applicationGet req.app s1 = (.ok cr, s2) →
        api.deploymentGet req.app.org req.app.name s2 = (.error err, s3) →
        IsNotFound err = true →
        api.mainDomain s3 = (.ok dom, s4) →
        api.environment req.app s4 = (.ok env, s5) →
        CreatedWith api req DefaultInstances
          [⟨.getCluster, .done⟩, ⟨.applicationGet req.app, .application cr⟩,
           ⟨.deploymentGet req.app.org req.app.name, .failed err⟩,
           ⟨.mainDomain, .domain dom⟩, ⟨.environment req.app, .environment env⟩]
          s5 (Deploy m (traced api) r (s, [])).2.2) ∧
    DefaultInstances = 1 ∧
    EachEvent (Deploy m (traced api) r (s, [])).2.2 (fun ev after =>
      (∀ ns d err, ev = ⟨.deploymentCreate ns d, .failed err⟩ →
        IsAlreadyExists err = true →
        ∃ reply rest, after = ⟨.deploymentUpdate ns d, reply⟩ :: rest) ∧
      (∀ ns d err, ev = ⟨.deploymentCreate ns d, .failed err⟩ →
        IsAlreadyExists err = false →
        after = [] ∧
        (Deploy m (traced api) r (s, [])).1 = .returned (some (.InternalError err []))) ∧
      (∀ ns d err, ev = ⟨.deploymentUpdate ns d, .failed err⟩ →
        after = [] ∧
        (Deploy m (traced api) r (s, [])).1 = .returned (some (.InternalError err [])))) ∧
    ((Deploy m (traced api) r (s, [])).1 = .returned none →
      ∃ ev ∈ (Deploy m (traced api) r (s, [])).2.2, ev.reply = .done ∧
        ∃ reps, ev.call.appliedReplicas = some reps) ∧
    (∀ n, req.instances = some n →
      ∀ ev ∈ (Deploy m (traced api) r (s, [])).2.2, ev.call.isDeploymentGet = false ∧
        ∀ reps, ev.call.appliedReplicas = some reps → reps = some n) ∧
    (req.instances = none →
      ∀ ev ∈ (Deploy m (traced api) r (s, [])).2.2, ∀ reps,
        ev.call.appliedReplicas = some reps →
        ∃ getReply,
          ⟨.deploymentGet req.app.org req.app.name, getReply⟩
            ∈ (Deploy m (traced api) r (s, [])).2.2 ∧
          (∀ ev2 ∈ (Deploy m (traced api) r (s, [])).2.2, ev2.call.isDeploymentGet = true →
            ev2 = ⟨.deploymentGet req.app.org req.app.name, getReply⟩) ∧
          ((∃ d0 N, getReply = .deployment d0 ∧ d0.spec.replicas = some N ∧ reps = some N) ∨
            (∃ err, getReply = .failed err ∧ IsNotFound err = true ∧
              reps = some DefaultInstances))) ∧
    ((∃ ev ∈ (Deploy m (traced api) r (s, [])).2.2,
        ev.call.isCreate = true ∧ ev.call.onWorkload = true) ∨
      (∃ ev ∈ (Deploy m (traced api) r (s, [])).2.2, ∃ err, ev.reply = .failed err ∧
        (ev.call.onObject = false ∨
          (ev.call.isDeploymentGet = true ∧ IsNotFound err = false))) ∨
      (∃ d0, ⟨.deploymentGet req.app.org req.app.name, .deployment d0⟩
          ∈ (Deploy m (traced api) r (s, [])).2.2 ∧
        d0.spec.replicas = none ∧
        (Deploy m (traced api) r (s, [])).1 = .nilDereference)) := by
  have hvalid := Deploy_valid m (traced api) r (s, []) bodyBytes req hbody hdecode hname horg
    hnonneg
  have hspec := deploy_spec m api r s bodyBytes req hbody hdecode
  have hcarries := deploy_carries m api r s
  have haborts := deploy_aborts m api r s
  refine ⟨?_, ?_, ?_, rfl, ?_, ?_, ?_⟩
  · intro n hinst s1 cr s2 dom s3 env s4 hcluster hlookup hdomain henv
    have h := instances_created m api req
      { apiVersion := cr.apiVersion, kind := cr.kind, name := cr.name, uid := cr.uid }
      n s2 s3 s4 [⟨.getCluster, .done⟩, ⟨.applicationGet req.app, .application cr⟩]
      dom env hdomain henv
    rw [hvalid]
    unfold deployValidated
    simp only [traced, record, hcluster, hlookup, hinst, Reply.ofError, Reply.ofExcept,
      List.nil_append]
    simpa [traced, record] using h
  · intro hinst s1 cr s2 d0 N s3 dom s4 env s5 hcluster hlookup hget hrep hdomain henv
    have h := instances_created m api req
      { apiVersion := cr.apiVersion, kind := cr.kind, name := cr.name, uid := cr.uid }
      N s3 s4 s5 [⟨.getCluster, .done⟩, ⟨.applicationGet req.app, .application cr⟩,
        ⟨.deploymentGet req.app.org req.app.name, .deployment d0⟩]
      dom env hdomain henv
    rw [hvalid]
    unfold deployValidated
    simp only [traced, record, hcluster, hlookup, hinst, existingReplica, hget, hrep,
      Reply.ofError, Reply.ofExcept, List.nil_append]
    simpa [traced, record] using h
  · intro hinst s1 cr s2 err s3 dom s4 env s5 hcluster hlookup hget hnf hdomain henv
    have h := instances_created m api req
      { apiVersion := cr.apiVersion, kind := cr.kind, name := cr.name, uid := cr.uid }
      DefaultInstances s3 s4 s5 [⟨.getCluster, .done⟩,
        ⟨.applicationGet req.app, .application cr⟩,
        ⟨.deploymentGet req.app.org req.app.name, .failed err⟩]
      dom env hdomain henv
    rw [hvalid]
    unfold deployValidated
    simp only [traced, record, hcluster, hlookup, hinst, existingReplica, hget, hnf, if_true,
      Reply.ofError, Reply.ofExcept, List.nil_append]
    simpa [traced, record] using h
  · intro before ev after hsplit
    have hc := hcarries before ev after hsplit
    have ha := haborts before ev after hsplit
    refine ⟨?_, ?_, ?_⟩
    · intro ns d err hev hae
      exact (hc.2.1 ns d err hev hae).2
    · intro ns d err hev hae
      refine ha err ⟨?_, ?_, ?_, ?_⟩
      · rw [hev]; rfl
      · rw [hev]
      · rintro ⟨_, h⟩
        rw [hae] at h
        cases h
      · rintro ⟨h, _⟩
        rw [hev] at h
        cases h
    · intro ns d err hev
      refine ha err ⟨?_, ?_, ?_, ?_⟩
      · rw [hev]; rfl
      · rw [hev]
      · rintro ⟨h, _⟩
        rw [hev] at h
        cases h
      · rintro ⟨h, _⟩
        rw [hev] at h
        cases h
  · intro hout
    obtain ⟨ev, hev, hdone, happ⟩ := hspec.2.2.2.2.2 hout .workload (Nat.zero_le _)
    exact ⟨ev, hev, hdone, appliedReplicas_of_applies happ⟩
  · rw [hvalid]
    obtain ⟨evs, h1, h2⟩ := validated_replicas m api req s []
    rw [h1]
    simp only [List.nil_append]
    exact ⟨h2.2.1, h2.2.2, h2.1⟩

/-- Witness of C5, the three cases on the cluster of the examples: an instance
count of 3 on the cluster that holds the workload with 2 replicas; no instance
count on that cluster; no instance count on the cluster without workload. -/
theorem C5_effective_instance_count_witness :
    CreatedWith simAPI (demoRequest (some 3) "") 3
      [⟨.getCluster, .done⟩, ⟨.applicationGet demoApp, .application demoCR⟩,
       ⟨.mainDomain, .domain "example.org"⟩, ⟨.environment demoApp, .environment []⟩]
      deployedCluster
      (Deploy (demoModels (demoRequest (some 3) "")) (traced simAPI) demoHTTP
        (deployedCluster, [])).2.2 ∧
    CreatedWith simAPI (demoRequest none "") 2
      [⟨.getCluster, .done⟩, ⟨.applicationGet demoApp, .application demoCR⟩,
       ⟨.deploymentGet "workspace" "demo", .deployment storedDeployment⟩,
       ⟨.mainDomain, .domain "example.org"⟩, ⟨.environment demoApp, .environment []⟩]
      deployedCluster
      (Deploy (demoModels (demoRequest none "")) (traced simAPI) demoHTTP
        (deployedCluster, [])).2.2 ∧
    CreatedWith simAPI (demoRequest none "") 1
      [⟨.getCluster, .done⟩, ⟨.applicationGet demoApp, .application demoCR⟩,
       ⟨.deploymentGet "workspace" "demo", .failed (SimCluster.errNotFound "demo")⟩,
       ⟨.mainDomain, .domain "example.org"⟩, ⟨.environment demoApp, .environment []⟩]
      emptyCluster
      (Deploy (demoModels (demoRequest none "")) (traced simAPI) demoHTTP
        (emptyCluster, [])).2.2 :=
  ⟨(C5_effective_instance_count (demoModels (demoRequest (some 3) "")) simAPI demoHTTP
      deployedCluster "ok" (demoRequest (some 3) "") rfl rfl rfl rfl
      (by simp [demoRequest])).1 3 rfl deployedCluster demoCR deployedCluster "example.org"
      deployedCluster [] deployedCluster rfl rfl rfl rfl,
    (C5_effective_instance_count (demoModels (demoRequest none "")) simAPI demoHTTP
      deployedCluster "ok" (demoRequest none "") rfl rfl rfl rfl
      (by simp [demoRequest])).2.1 rfl deployedCluster demoCR deployedCluster
      storedDeployment 2 deployedCluster "example.org" deployedCluster [] deployedCluster
      rfl rfl rfl rfl rfl rfl,
    (C5_effective_instance_count (demoModels (demoRequest none "")) simAPI demoHTTP
      emptyCluster "ok" (demoRequest none "") rfl rfl rfl rfl
      (by simp [demoRequest])).2.2.1 rfl emptyCluster demoCR emptyCluster
      (SimCluster.errNotFound "demo") emptyCluster "example.org" emptyCluster [] emptyCluster
      rfl rfl rfl rfl rfl rfl⟩

end Epinio
